import Mathlib

/-!
# STL viewer core: decoder and mesh model

A shallow embedding of `STLParser.cpp`, `MeshLoader.h` and `Mesh.cpp`.

* C++ `float` values are modelled by an arbitrary linearly ordered field `F`
  (exact arithmetic); the Qt library routines whose results depend on the
  floating-point encoding (`std::sqrt`, `QString::toFloat`, the IEEE decoding
  done by `QDataStream`, the UTF-8 codec of `QTextStream`) are the fields of
  `QtLib`, a parameter of the embedding.
* `QVector<T>` is `List T`; `unsigned int` is `Nat` reduced modulo `2^32`
  wherever the source computes one.
* The `QString *errorMessage` out-parameter is modelled by the second
  component of the result: `none` when the function leaves it untouched,
  `some msg` when it stores `msg` (the pointer is taken to be non-null, as in
  every call site of the repository).
-/

set_option autoImplicit false

namespace STL

/-! ## Data model -/

/-- A byte of a file. -/
abbrev Byte := Fin 256

/-- Qt's `QVector3D`: three `float` coordinates. -/
structure QVector3D (F : Type) where
  x : F
  y : F
  z : F
deriving DecidableEq, Repr

/-- The struct `MeshBuffer` of `MeshLoader.h` (the spec's TriangleSoupBuffer). -/
structure MeshBuffer (F : Type) where
  positions : List (QVector3D F)
  normals : List (QVector3D F)
  indices : List Nat
  hasNormals : Bool
deriving DecidableEq, Repr

/-- The library routines the embedding takes as parameters. -/
structure QtLib (F : Type) where
  /-- The function `std::sqrt`. -/
  sqrt : F → F
  /-- The conversion `QString::toFloat`, which yields `0` when the text is not a number. -/
  toFloat : List Char → F
  /-- The `float` denoted by a 32-bit IEEE-754 pattern. -/
  floatOfBits : Nat → F
  /-- The `float` obtained by narrowing the `double` denoted by a 64-bit IEEE-754 pattern. -/
  floatOfDoubleBits : Nat → F
  /-- The UTF-8 codec of `QTextStream`. -/
  fromUtf8 : List Byte → List Char

/-- The value-initialised `MeshBuffer buffer;`. -/
def MeshBuffer.empty {F : Type} : MeshBuffer F :=
  { positions := [], normals := [], indices := [], hasNormals := false }

/-- Conversion of an `int` size to `unsigned int`, and `unsigned int` addition. -/
def toUInt (n : Nat) : Nat := n % 2 ^ 32

section Vec

variable {F : Type} [LinearOrderedField F]

/-- The default-constructed `QVector3D()`. -/
def QVector3D.zero : QVector3D F := ⟨0, 0, 0⟩

/-- Qt's `qIsNull(float)`: the value is `+0` or `-0`. -/
def qIsNull (f : F) : Bool := decide (f = 0)

/-- Qt's `qFuzzyIsNull(double)`: `qAbs(d) <= 0.000000000001`. -/
def qFuzzyIsNull (d : F) : Bool := decide (|d| ≤ 1 / 1000000000000)

/-- Qt's `QVector3D::isNull`: all three coordinates are null. -/
def QVector3D.isNull (v : QVector3D F) : Bool :=
  qIsNull v.x && qIsNull v.y && qIsNull v.z

/-- The squared length computed at the start of `QVector3D::normalize`. -/
def QVector3D.lengthSquared (v : QVector3D F) : F :=
  v.x * v.x + v.y * v.y + v.z * v.z

/-- Qt's `QVector3D::normalize`: nothing happens when the squared length is
fuzzily `1` or fuzzily `0`; otherwise each coordinate is divided by the length. -/
def QVector3D.normalize (Q : QtLib F) (v : QVector3D F) : QVector3D F :=
  let len := v.lengthSquared
  if qFuzzyIsNull (len - 1) || qFuzzyIsNull len then v
  else
    let l := Q.sqrt len
    ⟨v.x / l, v.y / l, v.z / l⟩

/-- The idiom `if (!n.isNull()) n.normalize();` used by both decoders and by
the mesh. -/
def normalizeIfNonNull (Q : QtLib F) (v : QVector3D F) : QVector3D F :=
  if !v.isNull then v.normalize Q else v

end Vec

/-! ## QDataStream -/

/-- The values of `QDataStream::Status` a read-only stream can take. -/
inductive Status where
  | Ok
  | ReadPastEnd
deriving DecidableEq, Repr

/-- The enum `QDataStream::FloatingPointPrecision`. -/
inductive FloatingPointPrecision where
  | SinglePrecision
  | DoublePrecision
deriving DecidableEq, Repr

/-- The enum `QDataStream::ByteOrder`. -/
inductive ByteOrder where
  | BigEndian
  | LittleEndian
deriving DecidableEq, Repr

/-- A `QDataStream` reading from a device: the bytes of the device from its
current position on, and the stream's settings and status. -/
structure QDataStream where
  rest : List Byte
  byteOrder : ByteOrder
  precision : FloatingPointPrecision
  status : Status
deriving DecidableEq, Repr

/-- The constructor `QDataStream(QIODevice *)`: big-endian, status `Ok`, and
floating-point precision `DoublePrecision` (Qt's documented default for
stream versions from `Qt_4_6` on, which is every Qt 5 default version). -/
def QDataStream.ofDevice (rest : List Byte) : QDataStream :=
  { rest := rest, byteOrder := ByteOrder.BigEndian,
    precision := FloatingPointPrecision.DoublePrecision, status := Status.Ok }

/-- The call `stream.setByteOrder(order)`. -/
def QDataStream.setByteOrder (s : QDataStream) (order : ByteOrder) : QDataStream :=
  { s with byteOrder := order }

/-- The call `stream.setFloatingPointPrecision(p)` (never made by the decoder). -/
def QDataStream.setFloatingPointPrecision (s : QDataStream)
    (p : FloatingPointPrecision) : QDataStream :=
  { s with precision := p }

/-- The call `QDataStream::setStatus`: the first failure sticks. -/
def QDataStream.setStatus (s : QDataStream) (st : Status) : QDataStream :=
  if s.status = Status.Ok then { s with status := st } else s

/-- The call `QDataStream::readBlock(data, len)`: take up to `len` bytes from
the device; a short read sets the status to `ReadPastEnd`. -/
def QDataStream.readBlock (s : QDataStream) (len : Nat) : List Byte × QDataStream :=
  let got := s.rest.take len
  let s1 := { s with rest := s.rest.drop len }
  (got, if got.length = len then s1 else s1.setStatus Status.ReadPastEnd)

/-- The unsigned integer whose little-endian bytes are given. -/
def leValue : List Byte → Nat
  | [] => 0
  | b :: bs => b.val + 256 * leValue bs

/-- The unsigned integer a stream of the given byte order reads from a block. -/
def blockValue (order : ByteOrder) (bs : List Byte) : Nat :=
  match order with
  | ByteOrder.LittleEndian => leValue bs
  | ByteOrder.BigEndian => leValue bs.reverse

/-- The operator `stream >> quint32`: `0` on a short read. -/
def QDataStream.readUInt32 (s : QDataStream) : Nat × QDataStream :=
  let r := s.readBlock 4
  (if r.1.length = 4 then blockValue s.byteOrder r.1 else 0, r.2)

/-- The operator `stream >> quint16`: `0` on a short read. -/
def QDataStream.readUInt16 (s : QDataStream) : Nat × QDataStream :=
  let r := s.readBlock 2
  (if r.1.length = 2 then blockValue s.byteOrder r.1 else 0, r.2)

/-- The operator `stream >> float`. Qt's implementation starts with
`if (version() >= Qt_4_6 && floatingPointPrecision() == DoublePrecision)
{ double d; *this >> d; f = d; return *this; }`: with precision
`DoublePrecision` it reads a `double` (8 bytes) and narrows it to `float`;
only with `SinglePrecision` does it read 4 bytes. The value is `0` on a
short read. -/
def QDataStream.readFloat {F : Type} [LinearOrderedField F] (Q : QtLib F)
    (s : QDataStream) : F × QDataStream :=
  match s.precision with
  | FloatingPointPrecision.DoublePrecision =>
    let r := s.readBlock 8
    (if r.1.length = 8 then Q.floatOfDoubleBits (blockValue s.byteOrder r.1) else 0, r.2)
  | FloatingPointPrecision.SinglePrecision =>
    let r := s.readBlock 4
    (if r.1.length = 4 then Q.floatOfBits (blockValue s.byteOrder r.1) else 0, r.2)

/-- Three consecutive `stream >> float` reads, as a vector. -/
def QDataStream.readVec {F : Type} [LinearOrderedField F] (Q : QtLib F)
    (s : QDataStream) : QVector3D F × QDataStream :=
  let a := s.readFloat Q
  let b := a.2.readFloat Q
  let c := b.2.readFloat Q
  (⟨a.1, b.1, c.1⟩, c.2)

/-! ## STLParser::parseBinary -/

/-- A `QIODevice` as the decoders see it: its whole content, whether it is
open, whether `open(ReadOnly)` would succeed, and whether it is sequential
(`seek` fails exactly on sequential devices; on a random-access `QFile`,
`seek` succeeds also beyond the end of the file). -/
structure QIODevice where
  content : List Byte
  isOpen : Bool
  openable : Bool
  sequential : Bool
deriving DecidableEq, Repr

/-- The `QFile` that `STLParser::parse` has opened on a file with the given bytes. -/
def QIODevice.openedFile (bytes : List Byte) : QIODevice :=
  { content := bytes, isOpen := true, openable := true, sequential := false }

section Decoder

variable {F : Type} [LinearOrderedField F]

/-- The three-step loop shared by both decoders: append the three vertices,
the normal three times, and the indices `baseIndex + 0, 1, 2`, where
`baseIndex` is `positions.size()` before the loop. -/
def appendTriangle (buffer : MeshBuffer F) (v0 v1 v2 normal : QVector3D F) : MeshBuffer F :=
  let baseIndex := toUInt buffer.positions.length
  { positions := buffer.positions ++ [v0, v1, v2]
    normals := buffer.normals ++ [normal, normal, normal]
    indices := buffer.indices ++
      [toUInt (baseIndex + 0), toUInt (baseIndex + 1), toUInt (baseIndex + 2)]
    hasNormals := buffer.hasNormals }

/-- The statement `buffer.hasNormals = !buffer.normals.isEmpty();` that ends
both decoders. -/
def setHasNormals (buffer : MeshBuffer F) : MeshBuffer F :=
  { positions := buffer.positions, normals := buffer.normals, indices := buffer.indices,
    hasNormals := !buffer.normals.isEmpty }

/-- The three `clear()` calls of the failure path of `STLParser::parseBinary`. -/
def clearData (buffer : MeshBuffer F) : MeshBuffer F :=
  { positions := [], normals := [], indices := [], hasNormals := buffer.hasNormals }

/-- The record loop of `STLParser::parseBinary`, with `n` iterations left. -/
def parseBinaryLoop (Q : QtLib F) :
    Nat → QDataStream → MeshBuffer F → MeshBuffer F × Option String
  | 0, _, buffer => (setHasNormals buffer, none)
  | n + 1, stream, buffer =>
    let rn := stream.readVec Q
    let ra := rn.2.readVec Q
    let rb := ra.2.readVec Q
    let rc := rb.2.readVec Q
    let rattr := rc.2.readUInt16
    if rattr.2.status ≠ Status.Ok then
      (clearData buffer, some "Unexpected end of STL file.")
    else
      parseBinaryLoop Q n rattr.2
        (appendTriangle buffer ra.1 rb.1 rc.1 (normalizeIfNonNull Q rn.1))

/-- The function `STLParser::parseBinary`. The stream is the one the source
builds: constructed on the device after `seek(80)`, its byte order set to
little-endian, its floating-point precision left untouched. The calls to
`reserve` only pre-allocate and are omitted. -/
def parseBinary (Q : QtLib F) (device : QIODevice) : MeshBuffer F × Option String :=
  let buffer : MeshBuffer F := MeshBuffer.empty
  if !device.isOpen && !device.openable then
    (buffer, some "Unable to read STL stream.")
  else if device.sequential then
    (buffer, some "Invalid STL header.")
  else
    let stream := (QDataStream.ofDevice (device.content.drop 80)).setByteOrder
      ByteOrder.LittleEndian
    let rcount := stream.readUInt32
    if rcount.2.status ≠ Status.Ok then
      (buffer, some "Unable to read triangle count.")
    else
      parseBinaryLoop Q rcount.1 rcount.2 buffer

end Decoder

/-! ## STLParser::parseAscii -/

/-- Qt's `QChar::isSpace`: the ASCII white space `U+0009`..`U+000D` and
`U+0020`, `U+0085`, `U+00A0`, and the Unicode separators (categories Zs, Zl, Zp). -/
def isSpace (c : Char) : Bool :=
  let n := c.toNat
  n == 0x20 || (0x09 ≤ n && n ≤ 0x0d) || n == 0x85 || n == 0xa0 || n == 0x1680
    || (0x2000 ≤ n && n ≤ 0x200a) || n == 0x2028 || n == 0x2029 || n == 0x202f
    || n == 0x205f || n == 0x3000

/-- The class `\s` of `QRegularExpression` (no Unicode properties): space,
tab, line feed, vertical tab, form feed, carriage return. -/
def isRegexSpace (c : Char) : Bool :=
  let n := c.toNat
  n == 0x20 || (0x09 ≤ n && n ≤ 0x0d)

/-- Qt's `QString::trimmed`: white space removed from both ends. -/
def trimmed (s : List Char) : List Char :=
  ((s.dropWhile isSpace).reverse.dropWhile isSpace).reverse

/-- The test `line.startsWith(QLatin1String(pat), Qt::CaseInsensitive)` for a
lower-case ASCII pattern `pat`: a plain string-start test up to case, with
nothing required of the character after the pattern. -/
def startsWithCI : List Char → List Char → Bool
  | _, [] => true
  | [], _ :: _ => false
  | c :: cs, p :: ps => c.toLower == p && startsWithCI cs ps

/-- The loop of `splitSkipEmpty`: `cur` holds the current part, reversed. -/
def splitSkipEmptyAux : List Char → List Char → List (List Char)
  | [], [] => []
  | [], cur => [cur.reverse]
  | c :: cs, cur =>
    if isRegexSpace c then
      (if cur.isEmpty then splitSkipEmptyAux cs [] else cur.reverse :: splitSkipEmptyAux cs [])
    else splitSkipEmptyAux cs (c :: cur)

/-- The call `line.split(QRegularExpression("\\s+"), Qt::SkipEmptyParts)`:
the maximal runs of characters outside `\s`. -/
def splitSkipEmpty (line : List Char) : List (List Char) :=
  splitSkipEmptyAux line []

/-- The loop of `readLines`: `cur` holds the current line, reversed. -/
def readLinesAux : List Char → List Char → List (List Char)
  | [], [] => []
  | [], cur => [cur.reverse]
  | c :: cs, cur =>
    if c = '\n' then cur.reverse :: readLinesAux cs [] else readLinesAux cs (c :: cur)

/-- The lines that `while (!stream.atEnd()) stream.readLine()` yields: the
text cut at each line feed, with no line after a final line feed. (A carriage
return before the line feed is left on the line; `trimmed` removes it.) -/
def readLines (text : List Char) : List (List Char) :=
  readLinesAux text []

/-- The pattern `"facet"`. -/
def facetWord : List Char := ['f', 'a', 'c', 'e', 't']

/-- The pattern `"vertex"`. -/
def vertexWord : List Char := ['v', 'e', 'r', 't', 'e', 'x']

/-- The pattern `"endfacet"`. -/
def endfacetWord : List Char := ['e', 'n', 'd', 'f', 'a', 'c', 'e', 't']

section Ascii

variable {F : Type} [LinearOrderedField F]

/-- The local variables of `STLParser::parseAscii` that the loop updates. -/
structure AsciiState (F : Type) where
  buffer : MeshBuffer F
  facetVertices : List (QVector3D F)
  facetNormal : QVector3D F

/-- The state before the first line: empty buffer, no pending vertex, pending
normal `(0, 1, 0)`. -/
def AsciiState.init : AsciiState F :=
  { buffer := MeshBuffer.empty, facetVertices := [], facetNormal := ⟨0, 1, 0⟩ }

/-- The vector `QVector3D(parts.at(i).toFloat(), parts.at(i+1).toFloat(),
parts.at(i+2).toFloat())`. -/
def vectorAt (Q : QtLib F) (parts : List (List Char)) (i : Nat) : QVector3D F :=
  ⟨Q.toFloat (parts.getD i []), Q.toFloat (parts.getD (i + 1) []),
    Q.toFloat (parts.getD (i + 2) [])⟩

/-- The `endfacet` branch: emit a triangle when exactly three vertices are
pending, then clear the pending vertices. -/
def endFacet (st : AsciiState F) : AsciiState F :=
  match st.facetVertices with
  | [v0, v1, v2] =>
    { buffer := appendTriangle st.buffer v0 v1 v2 st.facetNormal, facetVertices := [],
      facetNormal := st.facetNormal }
  | _ => { buffer := st.buffer, facetVertices := [], facetNormal := st.facetNormal }

/-- One iteration of the loop of `STLParser::parseAscii` on the line read. -/
def parseAsciiLine (Q : QtLib F) (st : AsciiState F) (raw : List Char) : AsciiState F :=
  let line := trimmed raw
  if startsWithCI line facetWord then
    let parts := splitSkipEmpty line
    if parts.length ≥ 5 then
      { buffer := st.buffer, facetVertices := st.facetVertices,
        facetNormal := normalizeIfNonNull Q (vectorAt Q parts 2) }
    else st
  else if startsWithCI line vertexWord then
    let parts := splitSkipEmpty line
    if parts.length ≥ 4 then
      { buffer := st.buffer, facetVertices := st.facetVertices ++ [vectorAt Q parts 1],
        facetNormal := st.facetNormal }
    else st
  else if startsWithCI line endfacetWord then
    endFacet st
  else st

/-- The function `STLParser::parseAscii`: the device's content is decoded as
UTF-8 and read line by line. -/
def parseAscii (Q : QtLib F) (device : QIODevice) : MeshBuffer F × Option String :=
  let st := (readLines (Q.fromUtf8 device.content)).foldl (parseAsciiLine Q) AsciiState.init
  let buffer := setHasNormals st.buffer
  (buffer, if buffer.positions.isEmpty then some "No geometry found in STL file." else none)

end Ascii

section AsciiSpec

variable {F : Type} [LinearOrderedField F]

/-- Whether the loop of `STLParser::parseAscii` takes its `endfacet` branch
on the line read. -/
def isEndFacetLine (raw : List Char) : Bool :=
  !startsWithCI (trimmed raw) facetWord && !startsWithCI (trimmed raw) vertexWord
    && startsWithCI (trimmed raw) endfacetWord

/-- Whether the line read is a valid vertex line: the loop takes its `vertex`
branch and finds at least four parts. -/
def isVertexLine (raw : List Char) : Bool :=
  !startsWithCI (trimmed raw) facetWord && startsWithCI (trimmed raw) vertexWord
    && decide ((splitSkipEmpty (trimmed raw)).length ≥ 4)

/-- Whether the line read is a facet line that sets the pending normal: the
loop takes its `facet` branch and finds at least five parts. -/
def isFacetLine (raw : List Char) : Bool :=
  startsWithCI (trimmed raw) facetWord
    && decide ((splitSkipEmpty (trimmed raw)).length ≥ 5)

/-- Whether the line read changes nothing. -/
def isInertLine (raw : List Char) : Bool :=
  !isFacetLine raw && !isVertexLine raw && !isEndFacetLine raw

/-- The vertex a valid vertex line holds. -/
def lineVertex (Q : QtLib F) (raw : List Char) : QVector3D F :=
  vectorAt Q (splitSkipEmpty (trimmed raw)) 1

/-- The vector a facet line holds after the word `normal`. -/
def lineNormal (Q : QtLib F) (raw : List Char) : QVector3D F :=
  vectorAt Q (splitSkipEmpty (trimmed raw)) 2

/-- The blocks of an input: a block is a run of lines closed by an `endfacet`
line, and is given by the vertices of its valid vertex lines, in order;
`cur` holds the vertices of the block being read. Lines after the last
`endfacet` line form no block. -/
def closedBlocks (Q : QtLib F) :
    List (List Char) → List (QVector3D F) → List (List (QVector3D F))
  | [], _ => []
  | l :: ls, cur =>
    if isEndFacetLine l then cur :: closedBlocks Q ls []
    else closedBlocks Q ls (if isVertexLine l then cur ++ [lineVertex Q l] else cur)

/-- The well-formed blocks of an input: those with exactly three valid vertex lines. -/
def wellFormedBlocks (Q : QtLib F) (lines : List (List Char)) : List (List (QVector3D F)) :=
  (closedBlocks Q lines []).filter (fun b => b.length == 3)

end AsciiSpec

/-! ## STLParser::parse -/

/-- The C `isspace` test that `QByteArray::trimmed` uses: tab, line feed,
vertical tab, form feed, carriage return, space. -/
def isSpaceByte (b : Byte) : Bool :=
  (9 ≤ b.val && b.val ≤ 13) || b.val == 32

/-- Qt's `QByteArray::trimmed`: white space removed from both ends. -/
def trimmedBytes (bs : List Byte) : List Byte :=
  ((bs.dropWhile isSpaceByte).reverse.dropWhile isSpaceByte).reverse

/-- The bytes of the literal `"solid"`. -/
def solidBytes : List Byte := [115, 111, 108, 105, 100]

/-- Qt's `QByteArray::startsWith`. -/
def startsWithBytes : List Byte → List Byte → Bool
  | _, [] => true
  | [], _ :: _ => false
  | b :: bs, p :: ps => b == p && startsWithBytes bs ps

/-- The local `headerLooksAscii` of `STLParser::parse`, for the peeked header. -/
def headerLooksAscii (header : List Byte) : Bool :=
  startsWithBytes (trimmedBytes header) solidBytes

/-- The local `containsNull` of `STLParser::parse`, for the peeked header. -/
def containsNull (header : List Byte) : Bool :=
  header.any (fun b => b == 0)

/-- The function `STLParser::parse`, for a path and the content of the file
at that path (`none` when the file cannot be opened). `file.peek(512)` is
the first 512 bytes, or the whole file when it is shorter. -/
def parse {F : Type} [LinearOrderedField F] (Q : QtLib F) (path : String)
    (file : Option (List Byte)) : MeshBuffer F × Option String :=
  match file with
  | none => (MeshBuffer.empty, some ("Unable to open file " ++ path))
  | some bytes =>
    let header := bytes.take 512
    if headerLooksAscii header && !containsNull header then
      parseAscii Q (QIODevice.openedFile bytes)
    else
      parseBinary Q (QIODevice.openedFile bytes)

/-- The two encodings the spec's FormatSniffer tells apart. -/
inductive Format where
  | Ascii
  | Binary
deriving DecidableEq, Repr

/-- The rule of the specification, in its words: trim leading white space; if
the remaining bytes start with the literal `solid` and the inspected bytes
contain no null byte, the format is `Ascii`, otherwise `Binary`. -/
def specFormat (inspected : List Byte) : Format :=
  if startsWithBytes (inspected.dropWhile isSpaceByte) solidBytes = true
      ∧ (0 : Byte) ∉ inspected then
    Format.Ascii
  else Format.Binary

/-! ## Mesh -/

section MeshModel

variable {F : Type} [LinearOrderedField F]

/-- The operator `QVector3D + QVector3D`. -/
def QVector3D.add (a b : QVector3D F) : QVector3D F := ⟨a.x + b.x, a.y + b.y, a.z + b.z⟩

/-- The operator `QVector3D - QVector3D`. -/
def QVector3D.sub (a b : QVector3D F) : QVector3D F := ⟨a.x - b.x, a.y - b.y, a.z - b.z⟩

/-- Qt's `QVector3D::crossProduct`. -/
def QVector3D.crossProduct (a b : QVector3D F) : QVector3D F :=
  ⟨a.y * b.z - a.z * b.y, a.z * b.x - a.x * b.z, a.x * b.y - a.y * b.x⟩

/-- Qt's template `qMin`: `(a < b) ? a : b`, for any type with a comparison
`<`; on `float` values the comparison is false as soon as one is NaN. -/
def qMin {α : Type} [LT α] [DecidableRel (fun a b : α => a < b)] (a b : α) : α :=
  if a < b then a else b

/-- Qt's template `qMax`: `(a < b) ? b : a`, for any type with a comparison
`<`; on `float` values the comparison is false as soon as one is NaN. -/
def qMax {α : Type} [LT α] [DecidableRel (fun a b : α => a < b)] (a b : α) : α :=
  if a < b then b else a

/-- A `float` value: NaN, or a number of `F`. -/
inductive FloatValue (F : Type) where
  | nan
  | num (v : F)
deriving DecidableEq, Repr

/-- The comparison `a < b` of two `float` values: false as soon as one of
them is NaN, the comparison of the numbers otherwise. -/
def FloatValue.lt {F : Type} [LT F] : FloatValue F → FloatValue F → Prop
  | FloatValue.num a, FloatValue.num b => a < b
  | _, _ => False

instance FloatValue.instLT {F : Type} [LT F] : LT (FloatValue F) := ⟨FloatValue.lt⟩

instance FloatValue.instDecidableLT {F : Type} [LT F] [DecidableRel (fun a b : F => a < b)] :
    DecidableRel (fun a b : FloatValue F => a < b)
  | FloatValue.num a, FloatValue.num b => inferInstanceAs (Decidable (a < b))
  | FloatValue.nan, _ => isFalse (fun h => h)
  | FloatValue.num _, FloatValue.nan => isFalse (fun h => h)

/-- A vector of numbers, as a vector of `float` values none of which is NaN. -/
def QVector3D.asFloats {F : Type} (v : QVector3D F) : QVector3D (FloatValue F) :=
  ⟨FloatValue.num v.x, FloatValue.num v.y, FloatValue.num v.z⟩

/-- The data members of class `Mesh` (the OpenGL buffer objects are left out). -/
structure Mesh (F : Type) where
  m_positions : List (QVector3D F)
  m_indices : List Nat
  m_normals : List (QVector3D F)
  m_originalNormals : List (QVector3D F)
  m_hasSourceNormals : Bool
  m_uploaded : Bool
  m_minBounds : QVector3D F
  m_maxBounds : QVector3D F
deriving DecidableEq, Repr

/-- A newly constructed `Mesh`. -/
def Mesh.new : Mesh F :=
  { m_positions := [], m_indices := [], m_normals := [], m_originalNormals := [],
    m_hasSourceNormals := false, m_uploaded := false,
    m_minBounds := QVector3D.zero, m_maxBounds := QVector3D.zero }

/-- The function `Mesh::clear`. -/
def Mesh.clear (m : Mesh F) : Mesh F :=
  { m_positions := [], m_indices := [], m_normals := [], m_originalNormals := [],
    m_hasSourceNormals := false, m_uploaded := false,
    m_minBounds := m.m_minBounds, m_maxBounds := m.m_maxBounds }

/-- The function `Mesh::isValid`. -/
def Mesh.isValid (m : Mesh F) : Bool :=
  !m.m_positions.isEmpty && !m.m_indices.isEmpty

/-- The function `Mesh::triangleCount`. -/
def Mesh.triangleCount (m : Mesh F) : Nat :=
  (m.m_indices.length % 2 ^ 64) / 3

/-- Qt's `QVector::resize`: truncate, or pad with default-constructed values. -/
def resize (l : List (QVector3D F)) (n : Nat) : List (QVector3D F) :=
  l.take n ++ List.replicate (n - l.length) QVector3D.zero

/-- The statement `m_normals[i] += n;`. -/
def addAt : List (QVector3D F) → Nat → QVector3D F → List (QVector3D F)
  | [], _, _ => []
  | v :: vs, 0, n => v.add n :: vs
  | v :: vs, i + 1, n => v :: addAt vs i n

/-- The triangle loop of `Mesh::computeSmoothNormals`: `indices` is what is
left of `m_indices` from the loop index on. -/
def accumulateFaces (Q : QtLib F) (positions : List (QVector3D F)) :
    List Nat → List (QVector3D F) → List (QVector3D F)
  | ia :: ib :: ic :: rest, normals =>
    if ia ≥ toUInt positions.length || ib ≥ toUInt positions.length
        || ic ≥ toUInt positions.length then
      accumulateFaces Q positions rest normals
    else
      let a := positions.getD ia QVector3D.zero
      let b := positions.getD ib QVector3D.zero
      let c := positions.getD ic QVector3D.zero
      let n := normalizeIfNonNull Q (QVector3D.crossProduct (b.sub a) (c.sub a))
      accumulateFaces Q positions rest (addAt (addAt (addAt normals ia n) ib n) ic n)
  | _, normals => normals

/-- The last loop of `Mesh::computeSmoothNormals`, for one normal. -/
def finishNormal (Q : QtLib F) (n : QVector3D F) : QVector3D F :=
  if !n.isNull then n.normalize Q else ⟨0, 1, 0⟩

/-- The function `Mesh::computeSmoothNormals`. -/
def Mesh.computeSmoothNormals (Q : QtLib F) (m : Mesh F) : Mesh F :=
  let resized := resize m.m_normals m.m_positions.length
  let zeroed := resized.map (fun _ => (QVector3D.zero : QVector3D F))
  let summed := accumulateFaces Q m.m_positions m.m_indices zeroed
  { m_positions := m.m_positions, m_indices := m.m_indices,
    m_normals := summed.map (finishNormal Q),
    m_originalNormals := m.m_originalNormals, m_hasSourceNormals := m.m_hasSourceNormals,
    m_uploaded := false, m_minBounds := m.m_minBounds, m_maxBounds := m.m_maxBounds }

/-- The smooth normals of a mesh with the given positions and indices: the
face normals summed into zero vectors, one per position, then finished. -/
def smoothNormals (Q : QtLib F) (positions : List (QVector3D F)) (indices : List Nat) :
    List (QVector3D F) :=
  (accumulateFaces Q positions indices
    (List.replicate positions.length QVector3D.zero)).map (finishNormal Q)

/-- One iteration of the loop of `Mesh::updateBounds` on the pair
`(m_minBounds, m_maxBounds)`. -/
def boundsStep {α : Type} [LT α] [DecidableRel (fun a b : α => a < b)]
    (acc : QVector3D α × QVector3D α) (p : QVector3D α) :
    QVector3D α × QVector3D α :=
  (⟨qMin acc.1.x p.x, qMin acc.1.y p.y, qMin acc.1.z p.z⟩,
   ⟨qMax acc.2.x p.x, qMax acc.2.y p.y, qMax acc.2.z p.z⟩)

/-- The body of `Mesh::updateBounds` on non-empty positions, for coordinates
of any type with a comparison `<` (`float` values that may be NaN included):
both bounds start at the first position and every position is folded in. -/
def updateBoundsLoop {α : Type} [LT α] [DecidableRel (fun a b : α => a < b)]
    (positions : List (QVector3D α)) : Option (QVector3D α × QVector3D α) :=
  match positions with
  | [] => none
  | first :: _ => some (positions.foldl boundsStep (first, first))

/-- The function `Mesh::updateBounds`. -/
def Mesh.updateBounds (m : Mesh F) : Mesh F :=
  match m.m_positions with
  | [] =>
    { m_positions := m.m_positions, m_indices := m.m_indices, m_normals := m.m_normals,
      m_originalNormals := m.m_originalNormals, m_hasSourceNormals := m.m_hasSourceNormals,
      m_uploaded := m.m_uploaded, m_minBounds := QVector3D.zero, m_maxBounds := QVector3D.zero }
  | first :: _ =>
    let b := m.m_positions.foldl boundsStep (first, first)
    { m_positions := m.m_positions, m_indices := m.m_indices, m_normals := m.m_normals,
      m_originalNormals := m.m_originalNormals, m_hasSourceNormals := m.m_hasSourceNormals,
      m_uploaded := m.m_uploaded, m_minBounds := b.1, m_maxBounds := b.2 }

/-- The function `Mesh::setData`. -/
def Mesh.setData (Q : QtLib F) (m : Mesh F) (positions normals : List (QVector3D F))
    (indices : List Nat) (hasNormals : Bool) : Mesh F :=
  let m1 : Mesh F :=
    { m_positions := positions, m_indices := indices, m_normals := normals,
      m_originalNormals := normals,
      m_hasSourceNormals := hasNormals && normals.length == positions.length,
      m_uploaded := m.m_uploaded, m_minBounds := m.m_minBounds, m_maxBounds := m.m_maxBounds }
  let m2 : Mesh F :=
    if !m1.m_hasSourceNormals then m1.computeSmoothNormals Q
    else if m1.m_normals.length ≠ m1.m_positions.length then
      { m_positions := m1.m_positions, m_indices := m1.m_indices,
        m_normals := List.replicate m1.m_positions.length ⟨0, 1, 0⟩,
        m_originalNormals := m1.m_originalNormals,
        m_hasSourceNormals := m1.m_hasSourceNormals, m_uploaded := m1.m_uploaded,
        m_minBounds := m1.m_minBounds, m_maxBounds := m1.m_maxBounds }
    else m1
  let m3 := m2.updateBounds
  { m_positions := m3.m_positions, m_indices := m3.m_indices, m_normals := m3.m_normals,
    m_originalNormals := m3.m_originalNormals, m_hasSourceNormals := m3.m_hasSourceNormals,
    m_uploaded := false, m_minBounds := m3.m_minBounds, m_maxBounds := m3.m_maxBounds }

/-- The function `Mesh::restoreOriginalNormals`. -/
def Mesh.restoreOriginalNormals (Q : QtLib F) (m : Mesh F) : Mesh F :=
  let m1 : Mesh F :=
    if !m.m_originalNormals.isEmpty && m.m_originalNormals.length == m.m_positions.length then
      { m_positions := m.m_positions, m_indices := m.m_indices,
        m_normals := m.m_originalNormals,
        m_originalNormals := m.m_originalNormals, m_hasSourceNormals := m.m_hasSourceNormals,
        m_uploaded := m.m_uploaded, m_minBounds := m.m_minBounds, m_maxBounds := m.m_maxBounds }
    else if m.m_normals.isEmpty then m.computeSmoothNormals Q
    else m
  { m_positions := m1.m_positions, m_indices := m1.m_indices, m_normals := m1.m_normals,
    m_originalNormals := m1.m_originalNormals, m_hasSourceNormals := m1.m_hasSourceNormals,
    m_uploaded := false, m_minBounds := m1.m_minBounds, m_maxBounds := m1.m_maxBounds }

end MeshModel

/-! ## Sequences of calls on a mesh -/

/-- The calls that change a `Mesh`, with their arguments. -/
inductive MeshOp (F : Type) where
  | setData (positions normals : List (QVector3D F)) (indices : List Nat) (hasNormals : Bool)
  | computeSmoothNormals
  | restoreOriginalNormals
  | clear

/-- The mesh after one call. -/
def Mesh.apply {F : Type} [LinearOrderedField F] (Q : QtLib F) (m : Mesh F) :
    MeshOp F → Mesh F
  | MeshOp.setData positions normals indices hasNormals =>
    m.setData Q positions normals indices hasNormals
  | MeshOp.computeSmoothNormals => m.computeSmoothNormals Q
  | MeshOp.restoreOriginalNormals => m.restoreOriginalNormals Q
  | MeshOp.clear => m.clear

/-- The mesh after a sequence of calls, first call first. -/
def Mesh.run {F : Type} [LinearOrderedField F] (Q : QtLib F) (m : Mesh F)
    (ops : List (MeshOp F)) : Mesh F :=
  ops.foldl (Mesh.apply Q) m

/-! ## Camera -/

/-- Qt's `QVector2D`: two `float` coordinates. -/
structure QVector2D (F : Type) where
  x : F
  y : F
deriving DecidableEq, Repr

/-- The functions of `<QtMath>` the camera uses, parameters of the embedding:
`qCos`, `qSin`, and the constant `M_PI`. -/
structure QtTrig (F : Type) where
  cos : F → F
  sin : F → F
  pi : F

section CameraModel

variable {F : Type} [LinearOrderedField F]

/-- The operator `QVector3D * float`. -/
def QVector3D.scale (v : QVector3D F) (f : F) : QVector3D F := ⟨v.x * f, v.y * f, v.z * f⟩

/-- The unary operator `-QVector3D`. -/
def QVector3D.neg (v : QVector3D F) : QVector3D F := ⟨-v.x, -v.y, -v.z⟩

/-- Qt's `QVector3D::normalized`: the vector itself when its squared length is
fuzzily `1`, the vector divided by its length when the squared length is not
fuzzily `0`, the null vector otherwise. -/
def QVector3D.normalized (Q : QtLib F) (v : QVector3D F) : QVector3D F :=
  let len := v.lengthSquared
  if qFuzzyIsNull (len - 1) then v
  else if !qFuzzyIsNull len then
    let l := Q.sqrt len
    ⟨v.x / l, v.y / l, v.z / l⟩
  else QVector3D.zero

/-- Qt's `qDegreesToRadians(float)`: `degrees * float(M_PI / 180)`. -/
def qDegreesToRadians (T : QtTrig F) (degrees : F) : F := degrees * (T.pi / 180)

/-- The data members of class `Camera`. -/
structure Camera (F : Type) where
  m_yaw : F
  m_pitch : F
  m_target : QVector3D F
  m_distance : F
  m_fovY : F
  m_aspect : F
  m_nearPlane : F
  m_farPlane : F
  m_flyMode : Bool
deriving DecidableEq, Repr

/-- A default-constructed `Camera`: the member initialisers of `Camera.h`. -/
def Camera.new : Camera F :=
  { m_yaw := -45, m_pitch := -30, m_target := ⟨0, 0, 0⟩, m_distance := 250,
    m_fovY := 45, m_aspect := 1, m_nearPlane := 1, m_farPlane := 5000, m_flyMode := false }

/-- The function `Camera::setPerspective`. -/
def Camera.setPerspective (c : Camera F) (fovY aspect nearPlane farPlane : F) : Camera F :=
  { m_yaw := c.m_yaw, m_pitch := c.m_pitch, m_target := c.m_target,
    m_distance := c.m_distance, m_fovY := fovY, m_aspect := aspect,
    m_nearPlane := nearPlane, m_farPlane := farPlane, m_flyMode := c.m_flyMode }

/-- The function `Camera::resize`; the casts of the `int` arguments to `float`
are exact. -/
def Camera.resize (c : Camera F) (width height : Int) : Camera F :=
  let height1 : Int := if height = 0 then 1 else height
  { m_yaw := c.m_yaw, m_pitch := c.m_pitch, m_target := c.m_target,
    m_distance := c.m_distance, m_fovY := c.m_fovY,
    m_aspect := (width : F) / (height1 : F),
    m_nearPlane := c.m_nearPlane, m_farPlane := c.m_farPlane, m_flyMode := c.m_flyMode }

/-- The function `Camera::clampPitch`. -/
def Camera.clampPitch (c : Camera F) : Camera F :=
  let limit : F := 89
  let pitch1 := if c.m_pitch > limit then limit else c.m_pitch
  let pitch2 := if pitch1 < -limit then -limit else pitch1
  { m_yaw := c.m_yaw, m_pitch := pitch2, m_target := c.m_target,
    m_distance := c.m_distance, m_fovY := c.m_fovY, m_aspect := c.m_aspect,
    m_nearPlane := c.m_nearPlane, m_farPlane := c.m_farPlane, m_flyMode := c.m_flyMode }

/-- The function `Camera::orbit`. -/
def Camera.orbit (c : Camera F) (deltaYawDeg deltaPitchDeg : F) : Camera F :=
  Camera.clampPitch
    { m_yaw := c.m_yaw + deltaYawDeg, m_pitch := c.m_pitch + deltaPitchDeg,
      m_target := c.m_target, m_distance := c.m_distance, m_fovY := c.m_fovY,
      m_aspect := c.m_aspect, m_nearPlane := c.m_nearPlane, m_farPlane := c.m_farPlane,
      m_flyMode := c.m_flyMode }

/-- The local `dir` of `Camera::position`. -/
def Camera.direction (T : QtTrig F) (c : Camera F) : QVector3D F :=
  let yawRad := qDegreesToRadians T c.m_yaw
  let pitchRad := qDegreesToRadians T c.m_pitch
  ⟨T.cos pitchRad * T.cos yawRad, T.sin pitchRad, T.cos pitchRad * T.sin yawRad⟩

/-- The function `Camera::position`. -/
def Camera.position (Q : QtLib F) (T : QtTrig F) (c : Camera F) : QVector3D F :=
  c.m_target.sub (((c.direction T).normalized Q).scale c.m_distance)

/-- The function `Camera::setTarget`. -/
def Camera.setTarget (c : Camera F) (target : QVector3D F) : Camera F :=
  { m_yaw := c.m_yaw, m_pitch := c.m_pitch, m_target := target,
    m_distance := c.m_distance, m_fovY := c.m_fovY, m_aspect := c.m_aspect,
    m_nearPlane := c.m_nearPlane, m_farPlane := c.m_farPlane, m_flyMode := c.m_flyMode }

/-- The function `Camera::pan`. -/
def Camera.pan (Q : QtLib F) (T : QtTrig F) (c : Camera F) (delta : QVector2D F) : Camera F :=
  let forward := normalizeIfNonNull Q (c.m_target.sub (c.position Q T))
  let right := normalizeIfNonNull Q (QVector3D.crossProduct forward ⟨0, 1, 0⟩)
  let up := normalizeIfNonNull Q (QVector3D.crossProduct right forward)
  c.setTarget (c.m_target.add ((right.neg.scale delta.x).add (up.scale delta.y)))

/-- The function `Camera::dolly`. -/
def Camera.dolly (c : Camera F) (delta : F) : Camera F :=
  { m_yaw := c.m_yaw, m_pitch := c.m_pitch, m_target := c.m_target,
    m_distance := qMax 1 (c.m_distance + delta), m_fovY := c.m_fovY, m_aspect := c.m_aspect,
    m_nearPlane := c.m_nearPlane, m_farPlane := c.m_farPlane, m_flyMode := c.m_flyMode }

/-- The function `Camera::focus`. -/
def Camera.focus (c : Camera F) (center : QVector3D F) (radius : F) : Camera F :=
  { m_yaw := c.m_yaw, m_pitch := c.m_pitch, m_target := center,
    m_distance := qMax (radius * (5 / 2)) 1, m_fovY := c.m_fovY, m_aspect := c.m_aspect,
    m_nearPlane := c.m_nearPlane, m_farPlane := c.m_farPlane, m_flyMode := c.m_flyMode }

/-- The function `Camera::setDistance`. -/
def Camera.setDistance (c : Camera F) (distance : F) : Camera F :=
  { m_yaw := c.m_yaw, m_pitch := c.m_pitch, m_target := c.m_target,
    m_distance := qMax 1 distance, m_fovY := c.m_fovY, m_aspect := c.m_aspect,
    m_nearPlane := c.m_nearPlane, m_farPlane := c.m_farPlane, m_flyMode := c.m_flyMode }

/-- The function `Camera::enableFlyMode`. -/
def Camera.enableFlyMode (c : Camera F) (enabled : Bool) : Camera F :=
  { m_yaw := c.m_yaw, m_pitch := c.m_pitch, m_target := c.m_target,
    m_distance := c.m_distance, m_fovY := c.m_fovY, m_aspect := c.m_aspect,
    m_nearPlane := c.m_nearPlane, m_farPlane := c.m_farPlane, m_flyMode := enabled }

/-- The function `Camera::addFlyMovement`. -/
def Camera.addFlyMovement (Q : QtLib F) (T : QtTrig F) (c : Camera F)
    (movement : QVector3D F) : Camera F :=
  let pos := c.position Q T
  let forward := normalizeIfNonNull Q (c.m_target.sub pos)
  let right := normalizeIfNonNull Q (QVector3D.crossProduct forward ⟨0, 1, 0⟩)
  let up := normalizeIfNonNull Q (QVector3D.crossProduct right forward)
  let offset := ((right.scale movement.x).add (up.scale movement.y)).add
    (forward.scale movement.z)
  c.setTarget (c.m_target.add offset)

/-- The local `forward` of `Camera::pan` and of `Camera::addFlyMovement`. -/
def Camera.forward (Q : QtLib F) (T : QtTrig F) (c : Camera F) : QVector3D F :=
  normalizeIfNonNull Q (c.m_target.sub (c.position Q T))

/-- The local `right` of `Camera::pan` and of `Camera::addFlyMovement`. -/
def Camera.right (Q : QtLib F) (T : QtTrig F) (c : Camera F) : QVector3D F :=
  normalizeIfNonNull Q (QVector3D.crossProduct (c.forward Q T) ⟨0, 1, 0⟩)

/-- The local `up` of `Camera::pan` and of `Camera::addFlyMovement`. -/
def Camera.up (Q : QtLib F) (T : QtTrig F) (c : Camera F) : QVector3D F :=
  normalizeIfNonNull Q (QVector3D.crossProduct (c.right Q T) (c.forward Q T))

/-- The calls that change a `Camera`, with their arguments. -/
inductive CameraOp (F : Type) where
  | setPerspective (fovY aspect nearPlane farPlane : F)
  | resize (width height : Int)
  | orbit (deltaYawDeg deltaPitchDeg : F)
  | pan (delta : QVector2D F)
  | dolly (delta : F)
  | focus (center : QVector3D F) (radius : F)
  | setTarget (target : QVector3D F)
  | setDistance (distance : F)
  | enableFlyMode (enabled : Bool)
  | addFlyMovement (movement : QVector3D F)

/-- The camera after one call. -/
def Camera.apply (Q : QtLib F) (T : QtTrig F) (c : Camera F) : CameraOp F → Camera F
  | CameraOp.setPerspective fovY aspect nearPlane farPlane =>
    c.setPerspective fovY aspect nearPlane farPlane
  | CameraOp.resize width height => c.resize width height
  | CameraOp.orbit deltaYawDeg deltaPitchDeg => c.orbit deltaYawDeg deltaPitchDeg
  | CameraOp.pan delta => c.pan Q T delta
  | CameraOp.dolly delta => c.dolly delta
  | CameraOp.focus center radius => c.focus center radius
  | CameraOp.setTarget target => c.setTarget target
  | CameraOp.setDistance distance => c.setDistance distance
  | CameraOp.enableFlyMode enabled => c.enableFlyMode enabled
  | CameraOp.addFlyMovement movement => c.addFlyMovement Q T movement

/-- The camera after a sequence of calls, first call first. -/
def Camera.run (Q : QtLib F) (T : QtTrig F) (c : Camera F) (ops : List (CameraOp F)) :
    Camera F :=
  ops.foldl (Camera.apply Q T) c

end CameraModel

/-! ## GLViewport::loadMesh -/

section Viewport

variable {F : Type} [LinearOrderedField F]

/-- The function `MeshLoader::load`, as built without `USE_ASSIMP`: the STL
parser on the file at the path. -/
def MeshLoader.load (Q : QtLib F) (path : String) (file : Option (List Byte)) :
    MeshBuffer F × Option String :=
  parse Q path file

/-- The function `Mesh::upload`, called with the viewport as its (non-null)
OpenGL functions object; the buffer objects themselves are left out. -/
def Mesh.upload (Q : QtLib F) (m : Mesh F) : Mesh F :=
  if !m.isValid then m
  else
    let m1 := if m.m_normals.length ≠ m.m_positions.length then m.computeSmoothNormals Q else m
    { m_positions := m1.m_positions, m_indices := m1.m_indices, m_normals := m1.m_normals,
      m_originalNormals := m1.m_originalNormals, m_hasSourceNormals := m1.m_hasSourceNormals,
      m_uploaded := true, m_minBounds := m1.m_minBounds, m_maxBounds := m1.m_maxBounds }

/-- Qt's `QVector3D::length`: the square root of the squared length. -/
def QVector3D.length (Q : QtLib F) (v : QVector3D F) : F := Q.sqrt v.lengthSquared

/-- The function `Mesh::size`. -/
def Mesh.size (m : Mesh F) : QVector3D F := m.m_maxBounds.sub m.m_minBounds

/-- The members of `GLViewport` that `loadMesh` reads or writes among the
mesh, the camera and the normal mode (the statistics, the model transform and
the OpenGL objects are left out). -/
structure GLViewport (F : Type) where
  m_mesh : Mesh F
  m_camera : Camera F
  m_recomputeNormals : Bool

/-- The function `GLViewport::loadMesh`, for a path, the content of the file
at that path (`none` when it cannot be opened) and the caller's message
string. The result is the returned flag, the viewport afterwards and the
message string afterwards. -/
def GLViewport.loadMesh (Q : QtLib F) (vp : GLViewport F) (path : String)
    (file : Option (List Byte)) (errorMessage : String) : Bool × GLViewport F × String :=
  let loaded := MeshLoader.load Q path file
  let buffer := loaded.1
  let message := match loaded.2 with
    | some msg => msg
    | none => errorMessage
  if buffer.positions.isEmpty || buffer.indices.isEmpty then
    (false, vp, if message.isEmpty then "No geometry found in " ++ path else message)
  else
    let m1 := vp.m_mesh.clear
    let m2 := m1.setData Q buffer.positions buffer.normals buffer.indices buffer.hasNormals
    let m3 := if vp.m_recomputeNormals || !buffer.hasNormals then m2.computeSmoothNormals Q
      else m2.restoreOriginalNormals Q
    let m4 := m3.upload Q
    let center := (m4.m_minBounds.add m4.m_maxBounds).scale (1 / 2)
    let radius := m4.size.length Q * (1 / 2)
    (true,
      { m_mesh := m4, m_camera := vp.m_camera.focus center (qMax radius 1),
        m_recomputeNormals := vp.m_recomputeNormals },
      message)

end Viewport

/-! ## A concrete library instance over the rationals -/

/-- The rational denoted by a finite IEEE-754 pattern with `e` exponent bits
and `m` mantissa bits (patterns of infinities and NaNs are sent to `0`). -/
def ieeeValue (e m bits : Nat) : ℚ :=
  let mant := bits % 2 ^ m
  let ex := (bits / 2 ^ m) % 2 ^ e
  let sign : ℚ := if (bits / 2 ^ (m + e)) % 2 = 1 then -1 else 1
  let bias : Int := 2 ^ (e - 1) - 1
  if ex = 2 ^ e - 1 then 0
  else if ex = 0 then sign * mant * (2 : ℚ) ^ (1 - bias - (m : Int))
  else sign * (2 ^ m + mant) * (2 : ℚ) ^ ((ex : Int) - bias - (m : Int))

/-- The value of a string of decimal digits, `0` for any other text. -/
def digitsValue (cs : List Char) : ℚ :=
  if cs.all Char.isDigit then
    ((cs.foldl (fun acc c => 10 * acc + (c.toNat - 48)) 0 : Nat) : ℚ)
  else 0

/-- A library instance over `ℚ`: exact IEEE decoding of finite patterns,
unsigned decimal integers for `toFloat`, a square root that is exact on
squares of rationals, and the ASCII range of the UTF-8 codec. -/
def sampleLib : QtLib ℚ :=
  { sqrt := fun q => (Nat.sqrt q.num.toNat : ℚ) / (Nat.sqrt q.den : ℚ)
    toFloat := digitsValue
    floatOfBits := ieeeValue 8 23
    floatOfDoubleBits := ieeeValue 11 52
    fromUtf8 := fun bs => bs.map (fun b => Char.ofNat b.val) }

/-- A trigonometry instance over `ℚ` that keeps `cos² + sin² = 1`: the
rational parametrisation of the circle by `t = x / 2`, with `cos 0 = 1` and
`sin 0 = 0`; `22 / 7` stands for `M_PI`. -/
def sampleTrig : QtTrig ℚ :=
  { cos := fun x => (1 - (x / 2) * (x / 2)) / (1 + (x / 2) * (x / 2))
    sin := fun x => (2 * (x / 2)) / (1 + (x / 2) * (x / 2))
    pi := 22 / 7 }

/-- The positions of a triangle in the plane `z = 0`. -/
def samplePositions : List (QVector3D ℚ) := [⟨0, 0, 0⟩, ⟨2, 0, 0⟩, ⟨0, 2, 0⟩]

/-- Three normals that are not the smooth normals of `samplePositions`. -/
def sampleNormals : List (QVector3D ℚ) := [⟨1, 0, 0⟩, ⟨1, 0, 0⟩, ⟨1, 0, 0⟩]

/-- A mesh holding the triangle `samplePositions` with the normals `sampleNormals`. -/
def sampleMesh : Mesh ℚ :=
  { m_positions := samplePositions, m_indices := [0, 1, 2], m_normals := sampleNormals,
    m_originalNormals := sampleNormals, m_hasSourceNormals := true, m_uploaded := false,
    m_minBounds := ⟨0, 0, 0⟩, m_maxBounds := ⟨2, 2, 0⟩ }

/-- The positions of a triangle with sides of length `1/10000` in the plane `z = 0`. -/
def tinyPositions : List (QVector3D ℚ) := [⟨0, 0, 0⟩, ⟨1 / 10000, 0, 0⟩, ⟨0, 1 / 10000, 0⟩]

/-- A mesh holding the one triangle `tinyPositions`, with no normals yet. -/
def tinyMesh : Mesh ℚ :=
  { m_positions := tinyPositions, m_indices := [0, 1, 2], m_normals := [],
    m_originalNormals := [], m_hasSourceNormals := false, m_uploaded := false,
    m_minBounds := ⟨0, 0, 0⟩, m_maxBounds := ⟨0, 0, 0⟩ }

/-- The positions of the triangle `(0,0,0)`, `(1,0,0)`, `(0,1,0)`. -/
def unitPositions : List (QVector3D ℚ) := [⟨0, 0, 0⟩, ⟨1, 0, 0⟩, ⟨0, 1, 0⟩]

/-- A mesh holding the one triangle `unitPositions`, with no normals yet. -/
def unitMesh : Mesh ℚ :=
  { m_positions := unitPositions, m_indices := [0, 1, 2], m_normals := [],
    m_originalNormals := [], m_hasSourceNormals := false, m_uploaded := false,
    m_minBounds := ⟨0, 0, 0⟩, m_maxBounds := ⟨0, 0, 0⟩ }

/-- The camera of the spec's scenario: target `(0,0,0)`, distance `10`, yaw
`0`, pitch `0`. -/
def scenarioCamera : Camera ℚ :=
  { m_yaw := 0, m_pitch := 0, m_target := ⟨0, 0, 0⟩, m_distance := 10,
    m_fovY := 45, m_aspect := 1, m_nearPlane := 1, m_farPlane := 5000, m_flyMode := false }

/-- The 4 bytes of the count `1`, little-endian. -/
def countOne : List Byte := [1, 0, 0, 0]

/-- The 4 little-endian bytes of the `float` `0.0`. -/
def f32Zero : List Byte := [0, 0, 0, 0]

/-- The 4 little-endian bytes of the `float` `1.0` (pattern `0x3F800000`). -/
def f32One : List Byte := [0, 0, 128, 63]

/-- The binary STL file of the spec's scenario: an 80-byte zero header, the
count `1`, and one 50-byte record with normal `(0,0,1)`, vertices `(0,0,0)`,
`(1,0,0)`, `(0,1,0)` and attribute `0`; 134 bytes in all. -/
def scenarioFile : List Byte :=
  List.replicate 80 0 ++ countOne
    ++ (f32Zero ++ f32Zero ++ f32One)
    ++ (f32Zero ++ f32Zero ++ f32Zero)
    ++ (f32One ++ f32Zero ++ f32Zero)
    ++ (f32Zero ++ f32One ++ f32Zero)
    ++ [0, 0]

/-- A binary STL file with one record, all of whose 50 bytes are zero: 134 bytes. -/
def zeroRecordFile : List Byte :=
  List.replicate 80 0 ++ countOne ++ List.replicate 50 0

/-- A binary STL file with count `2` and two 50-byte records (the record of
`scenarioFile` twice): 184 bytes. -/
def twoRecordFile : List Byte :=
  List.replicate 80 0 ++ [2, 0, 0, 0] ++ (scenarioFile.drop 84 ++ scenarioFile.drop 84)

/-- The bytes of an ASCII text. -/
def asciiBytes (text : String) : List Byte :=
  text.toList.map (fun c => Fin.ofNat c.toNat)

/-- The ASCII STL file of the spec's scenario. -/
def scenarioText : String :=
  "solid s\nfacet normal 0 0 1\nouter loop\nvertex 0 0 0\nvertex 1 0 0\nvertex 0 1 0\nendloop\nendfacet\nendsolid s\n"

/-- An ASCII text with a block of two vertex lines followed by a block of
three vertex lines. -/
def mixedText : String :=
  "solid m\nfacet normal 0 0 1\nvertex 0 0 0\nvertex 1 0 0\nendfacet\nfacet normal 0 0 1\nvertex 0 0 0\nvertex 1 0 0\nvertex 0 1 0\nendfacet\nendsolid m\n"

/-- The opened file holding `mixedText`. -/
def mixedDevice : QIODevice := QIODevice.openedFile (asciiBytes mixedText)

/-- The opened file holding the ASCII scenario. -/
def scenarioDevice : QIODevice := QIODevice.openedFile (asciiBytes scenarioText)

/-- The number of bytes one `stream >> float` consumes. -/
def floatWidth (p : FloatingPointPrecision) : Nat :=
  match p with
  | FloatingPointPrecision.SinglePrecision => 4
  | FloatingPointPrecision.DoublePrecision => 8

/-- The number of bytes one iteration of the record loop consumes: twelve
`float` reads and one `quint16`. -/
def recordSize (p : FloatingPointPrecision) : Nat := 12 * floatWidth p + 2

/-- The triangle count stored in bytes 80..83 of a file, little-endian. -/
def declaredCount (bytes : List Byte) : Nat :=
  leValue ((bytes.drop 80).take 4)

/-- The stream `t` is the stream `s` after reads that asked for `k` bytes in
all: same settings, `k` bytes further on, and in status `Ok` exactly when
`s` was and had `k` bytes left. -/
def Advances (s t : QDataStream) (k : Nat) : Prop :=
  t.rest = s.rest.drop k ∧ t.byteOrder = s.byteOrder ∧ t.precision = s.precision ∧
    (t.status = Status.Ok ↔ s.status = Status.Ok ∧ k ≤ s.rest.length)

/-- The invariant of a decoded buffer: as many normals and indices as
positions, a multiple of three of them, and the `i`-th index is `i` as an
`unsigned int`. -/
def Consistent {F : Type} (b : MeshBuffer F) : Prop :=
  b.normals.length = b.positions.length ∧ b.indices.length = b.positions.length ∧
    b.positions.length % 3 = 0 ∧ b.indices = (List.range b.positions.length).map toUInt

/-- The invariant of the spec's TriangleSoupBuffer, in its words: the number
of indices is divisible by 3, there are as many normals as positions and as
many positions as indices, and every index is smaller than the number of
positions; the `i`-th index is `i` as an `unsigned int`, that is `i` itself
for every size a `QVector` can have. -/
def SoupInvariant {F : Type} (b : MeshBuffer F) : Prop :=
  b.indices.length % 3 = 0 ∧ b.normals.length = b.positions.length ∧
    b.positions.length = b.indices.length ∧
    (∀ i, i < b.indices.length →
      b.indices.getD i 0 < b.positions.length ∧ b.indices.getD i 0 = i % 2 ^ 32) ∧
    (b.positions.length ≤ 2 ^ 32 → b.indices = List.range b.positions.length)

/-- A binary STL file that declares no triangle: 80 header bytes and the count `0`. -/
def emptyBinaryFile : List Byte := List.replicate 84 0

/-- A viewport holding `sampleMesh`, the default camera and the file-normals mode. -/
def sampleViewport : GLViewport ℚ :=
  { m_mesh := sampleMesh, m_camera := Camera.new, m_recomputeNormals := false }

/-- An ASCII text whose only facet has the normal `0 0 0`. -/
def zeroNormalText : String :=
  "solid z\nfacet normal 0 0 0\nouter loop\nvertex 0 0 0\nvertex 1 0 0\nvertex 0 1 0\nendloop\nendfacet\nendsolid z\n"

/-- The opened file holding `zeroNormalText`. -/
def zeroNormalDevice : QIODevice := QIODevice.openedFile (asciiBytes zeroNormalText)

/-- The ASCII scenario with the line `vertexes 1 2 3` put after its first vertex line. -/
def vertexesText : String :=
  "solid s\nfacet normal 0 0 1\nouter loop\nvertex 0 0 0\nvertexes 1 2 3\nvertex 1 0 0\nvertex 0 1 0\nendloop\nendfacet\nendsolid s\n"

/-- The opened file holding `vertexesText`. -/
def vertexesDevice : QIODevice := QIODevice.openedFile (asciiBytes vertexesText)

/-- The ASCII scenario without its `outer loop` line. -/
def noLoopText : String :=
  "solid s\nfacet normal 0 0 1\nvertex 0 0 0\nvertex 1 0 0\nvertex 0 1 0\nendloop\nendfacet\nendsolid s\n"

/-- The opened file holding `noLoopText`. -/
def noLoopDevice : QIODevice := QIODevice.openedFile (asciiBytes noLoopText)

/-- Whether a token is, up to case, one of the words `facet`, `vertex`, `endfacet`. -/
def isKeywordToken (token : List Char) : Bool :=
  token.map Char.toLower == facetWord || token.map Char.toLower == vertexWord
    || token.map Char.toLower == endfacetWord

/-- The lines the claim calls ignored, in its words: the first
white-space-delimited token of the line is not, up to case, one of `facet`,
`vertex`, `endfacet` (a line with no token included). -/
def specIgnored (raw : List Char) : Bool :=
  match (splitSkipEmpty raw).head? with
  | none => true
  | some token => !isKeywordToken token

/-- Whether the trimmed line starts, up to case, with none of the letter
sequences `facet`, `vertex`, `endfacet`: the lines on which every test of the
loop of `STLParser::parseAscii` fails. -/
def startsNoKeyword (raw : List Char) : Bool :=
  !startsWithCI (trimmed raw) facetWord && !startsWithCI (trimmed raw) vertexWord
    && !startsWithCI (trimmed raw) endfacetWord

/-! ## The triangle loop with range checks -/

section Checked

variable {F : Type} [LinearOrderedField F]

/-- The statement `m_normals[i] += n;` with the range check of
`QVector::operator[]`: no result when `i` is not a slot of the vector. -/
def addAtChecked (l : List (QVector3D F)) (i : Nat) (n : QVector3D F) :
    Option (List (QVector3D F)) :=
  if i < l.length then some (addAt l i n) else none

/-- The triangle loop of `Mesh::computeSmoothNormals` with the range checks
of `QVector::at` and `QVector::operator[]`: no result as soon as one read of
`m_positions` or one write of `m_normals` is out of range. -/
def accumulateFacesChecked (Q : QtLib F) (positions : List (QVector3D F)) :
    List Nat → List (QVector3D F) → Option (List (QVector3D F))
  | ia :: ib :: ic :: rest, normals =>
    if ia ≥ toUInt positions.length || ib ≥ toUInt positions.length
        || ic ≥ toUInt positions.length then
      accumulateFacesChecked Q positions rest normals
    else
      match positions[ia]?, positions[ib]?, positions[ic]? with
      | some a, some b, some c =>
        let n := normalizeIfNonNull Q (QVector3D.crossProduct (b.sub a) (c.sub a))
        match addAtChecked normals ia n with
        | some n1 =>
          match addAtChecked n1 ib n with
          | some n2 =>
            match addAtChecked n2 ic n with
            | some n3 => accumulateFacesChecked Q positions rest n3
            | none => none
          | none => none
        | none => none
      | _, _, _ => none
  | _, normals => some normals

/-- The index list with every triangle that has an index `≥ n` removed, and
with the trailing incomplete triple removed. -/
def inRangeTriangles (n : Nat) : List Nat → List Nat
  | ia :: ib :: ic :: rest =>
    if ia < n ∧ ib < n ∧ ic < n then ia :: ib :: ic :: inRangeTriangles n rest
    else inRangeTriangles n rest
  | _ => []

end Checked

/-- A mesh with one triangle in range, one triangle with the index `7` out of
range, and a trailing incomplete triple. -/
def outOfRangeMesh : Mesh ℚ :=
  { m_positions := unitPositions, m_indices := [0, 1, 2, 0, 7, 1, 2, 1], m_normals := [],
    m_originalNormals := [], m_hasSourceNormals := false, m_uploaded := false,
    m_minBounds := ⟨0, 0, 0⟩, m_maxBounds := ⟨1, 1, 0⟩ }

/-! ## The sum of face normals at a vertex -/

section VertexSum

variable {F : Type} [LinearOrderedField F]

/-- The triangles the loop of `Mesh::computeSmoothNormals` visits: the
consecutive triples of the index list, a trailing incomplete triple left out. -/
def triangles : List Nat → List (Nat × Nat × Nat)
  | ia :: ib :: ic :: rest => (ia, ib, ic) :: triangles rest
  | _ => []

/-- The local `n` of the loop of `Mesh::computeSmoothNormals` for the
triangle `(ia, ib, ic)`: the cross product of two edges, normalized by
`QVector3D::normalize` unless it is null. -/
def faceNormal (Q : QtLib F) (positions : List (QVector3D F)) (t : Nat × Nat × Nat) :
    QVector3D F :=
  let a := positions.getD t.1 QVector3D.zero
  let b := positions.getD t.2.1 QVector3D.zero
  let c := positions.getD t.2.2 QVector3D.zero
  normalizeIfNonNull Q (QVector3D.crossProduct (b.sub a) (c.sub a))

/-- Whether the three indices of a triangle are smaller than `n`. -/
def inRange (n : Nat) (t : Nat × Nat × Nat) : Bool :=
  decide (t.1 < n) && decide (t.2.1 < n) && decide (t.2.2 < n)

/-- The face normals that count at vertex `v` for one triangle: one copy per
occurrence of `v` among its three indices. -/
def occurrences (v : Nat) (t : Nat × Nat × Nat) (n : QVector3D F) : List (QVector3D F) :=
  (if t.1 = v then [n] else []) ++ ((if t.2.1 = v then [n] else [])
    ++ (if t.2.2 = v then [n] else []))

/-- The face normals that count at vertex `v`: over every in-range triangle,
one copy of its face normal per occurrence of `v` among its indices. -/
def contributions (Q : QtLib F) (positions : List (QVector3D F))
    (ts : List (Nat × Nat × Nat)) (v : Nat) : List (QVector3D F) :=
  ts.flatMap fun t =>
    if inRange positions.length t then occurrences v t (faceNormal Q positions t) else []

/-- The sum of a list of vectors, coordinate by coordinate. -/
def vectorSum (l : List (QVector3D F)) : QVector3D F :=
  ⟨(l.map fun n => n.x).sum, (l.map fun n => n.y).sum, (l.map fun n => n.z).sum⟩

/-- The sum `S_v` at vertex `v`: the unweighted sum of the face normals of the
in-range triangles, one term per occurrence of `v`. -/
def vertexSum (Q : QtLib F) (positions : List (QVector3D F)) (indices : List Nat) (v : Nat) :
    QVector3D F :=
  vectorSum (contributions Q positions (triangles indices) v)

end VertexSum

/-- A mesh of two triangles on four positions. -/
def quadMesh : Mesh ℚ :=
  { m_positions := [⟨0, 0, 0⟩, ⟨1, 0, 0⟩, ⟨1, 1, 0⟩, ⟨0, 1, 0⟩], m_indices := [0, 1, 2, 0, 2, 3],
    m_normals := [], m_originalNormals := [], m_hasSourceNormals := false, m_uploaded := false,
    m_minBounds := ⟨0, 0, 0⟩, m_maxBounds := ⟨1, 1, 0⟩ }

/-- The mesh `quadMesh` with its two triangles in the other order. -/
def quadMeshSwapped : Mesh ℚ :=
  { m_positions := [⟨0, 0, 0⟩, ⟨1, 0, 0⟩, ⟨1, 1, 0⟩, ⟨0, 1, 0⟩], m_indices := [0, 2, 3, 0, 1, 2],
    m_normals := [], m_originalNormals := [], m_hasSourceNormals := false, m_uploaded := false,
    m_minBounds := ⟨0, 0, 0⟩, m_maxBounds := ⟨1, 1, 0⟩ }

/-- Three positions, the second with the coordinate `x` NaN. -/
def nanPositions : List (QVector3D (FloatValue ℚ)) :=
  [⟨FloatValue.num 5, FloatValue.num 0, FloatValue.num 0⟩,
   ⟨FloatValue.nan, FloatValue.num 0, FloatValue.num 0⟩,
   ⟨FloatValue.num 7, FloatValue.num 0, FloatValue.num 0⟩]

/-! ## Valid ASCII inputs -/

/-- A `facet ... endfacet` block of an ASCII STL input, with the lines that
follow it up to the next block. -/
structure FacetBlock where
  facetLine : List Char
  body : List (List Char)
  endLine : List Char
  trailing : List (List Char)

/-- The lines of a block, in file order. -/
def FacetBlock.lines (b : FacetBlock) : List (List Char) :=
  b.facetLine :: (b.body ++ b.endLine :: b.trailing)

/-- A valid block: it opens with a facet line, holds valid vertex lines and
ignored lines (`outer loop`, `endloop`), closes with an `endfacet` line, and
only ignored lines follow it. -/
def FacetBlock.valid (b : FacetBlock) : Bool :=
  isFacetLine b.facetLine && b.body.all (fun l => isVertexLine l || isInertLine l)
    && isEndFacetLine b.endLine && b.trailing.all isInertLine

/-- The vertex lines of a block. -/
def FacetBlock.vertexLines (b : FacetBlock) : List (List Char) :=
  b.body.filter isVertexLine

/-- A well-formed block: one that contains exactly three vertex lines. -/
def FacetBlock.wellFormed (b : FacetBlock) : Bool :=
  b.vertexLines.length == 3

/-- The lines of a valid ASCII STL input: ignored lines (`solid name`), then
`facet ... endfacet` blocks. -/
def inputLines (header : List (List Char)) (blocks : List FacetBlock) : List (List Char) :=
  header ++ blocks.flatMap FacetBlock.lines

/-- The block of the ASCII scenario. -/
def scenarioBlock : FacetBlock :=
  { facetLine := "facet normal 0 0 1".toList
    body := ["outer loop".toList, "vertex 0 0 0".toList, "vertex 1 0 0".toList,
      "vertex 0 1 0".toList, "endloop".toList]
    endLine := "endfacet".toList
    trailing := ["endsolid s".toList] }

/-- The two blocks of `mixedText`: one with two vertex lines, one with three. -/
def mixedBlocks : List FacetBlock :=
  [{ facetLine := "facet normal 0 0 1".toList
     body := ["vertex 0 0 0".toList, "vertex 1 0 0".toList]
     endLine := "endfacet".toList
     trailing := [] },
   { facetLine := "facet normal 0 0 1".toList
     body := ["vertex 0 0 0".toList, "vertex 1 0 0".toList, "vertex 0 1 0".toList]
     endLine := "endfacet".toList
     trailing := ["endsolid m".toList] }]

/-- The number denoted by a string of decimal digits. -/
def digitsNat (cs : List Char) : Nat :=
  cs.foldl (fun acc c => 10 * acc + (c.toNat - 48)) 0

/-- The value of an unsigned decimal numeral `digits` or `digits.digits`, `0`
for any other text. -/
def decimalValue (cs : List Char) : ℚ :=
  match cs.dropWhile Char.isDigit with
  | [] => (digitsNat (cs.takeWhile Char.isDigit) : ℚ)
  | '.' :: frac =>
    if frac.all Char.isDigit then
      (digitsNat (cs.takeWhile Char.isDigit) : ℚ)
        + (digitsNat frac : ℚ) / ((10 ^ frac.length : Nat) : ℚ)
    else 0
  | _ => 0

/-- The library instance `sampleLib` with a `toFloat` that also reads
unsigned decimal fractions such as `0.0000001`. -/
def decimalLib : QtLib ℚ :=
  { sqrt := sampleLib.sqrt
    toFloat := decimalValue
    floatOfBits := sampleLib.floatOfBits
    floatOfDoubleBits := sampleLib.floatOfDoubleBits
    fromUtf8 := sampleLib.fromUtf8 }

/-- An ASCII text whose only facet has the non-zero normal `0.0000001 0 0`. -/
def tinyNormalText : String :=
  "solid t\nfacet normal 0.0000001 0 0\nouter loop\nvertex 0 0 0\nvertex 1 0 0\nvertex 0 1 0\nendloop\nendfacet\nendsolid t\n"

/-- The opened file holding `tinyNormalText`. -/
def tinyNormalDevice : QIODevice := QIODevice.openedFile (asciiBytes tinyNormalText)

/-! ## Theorems -/

/-! ### The data stream -/

theorem readBlock_rest (s : QDataStream) (n : Nat) :
    (s.readBlock n).2.rest = s.rest.drop n := by
  unfold QDataStream.readBlock QDataStream.setStatus
  dsimp only
  split_ifs <;> rfl

theorem readBlock_byteOrder (s : QDataStream) (n : Nat) :
    (s.readBlock n).2.byteOrder = s.byteOrder := by
  unfold QDataStream.readBlock QDataStream.setStatus
  dsimp only
  split_ifs <;> rfl

theorem readBlock_precision (s : QDataStream) (n : Nat) :
    (s.readBlock n).2.precision = s.precision := by
  unfold QDataStream.readBlock QDataStream.setStatus
  dsimp only
  split_ifs <;> rfl

theorem readBlock_status (s : QDataStream) (n : Nat) :
    (s.readBlock n).2.status = Status.Ok ↔ s.status = Status.Ok ∧ n ≤ s.rest.length := by
  unfold QDataStream.readBlock QDataStream.setStatus
  dsimp only
  rw [List.length_take]
  by_cases hn : n ≤ s.rest.length
  · simp [hn]
  · have h1 : ¬ min n s.rest.length = n := by omega
    by_cases hs : s.status = Status.Ok <;> simp [h1, hn, hs]

theorem advances_readBlock (s : QDataStream) (n : Nat) :
    Advances s (s.readBlock n).2 n :=
  ⟨readBlock_rest s n, readBlock_byteOrder s n, readBlock_precision s n, readBlock_status s n⟩

theorem Advances.trans {s t u : QDataStream} {j k : Nat}
    (h1 : Advances s t j) (h2 : Advances t u k) : Advances s u (j + k) := by
  obtain ⟨r1, b1, p1, s1⟩ := h1
  obtain ⟨r2, b2, p2, s2⟩ := h2
  refine ⟨?_, b2.trans b1, p2.trans p1, ?_⟩
  · rw [r2, r1, List.drop_drop, Nat.add_comm]
  · rw [s2, s1, r1, List.length_drop]
    constructor
    · rintro ⟨⟨h, hj⟩, hk⟩
      exact ⟨h, by omega⟩
    · rintro ⟨h, hjk⟩
      exact ⟨⟨h, by omega⟩, by omega⟩

theorem advances_readUInt32 (s : QDataStream) : Advances s s.readUInt32.2 4 :=
  advances_readBlock s 4

theorem advances_readUInt16 (s : QDataStream) : Advances s s.readUInt16.2 2 :=
  advances_readBlock s 2

section StreamFloat

variable {F : Type} [LinearOrderedField F]

theorem advances_readFloat (Q : QtLib F) (s : QDataStream) :
    Advances s (s.readFloat Q).2 (floatWidth s.precision) := by
  unfold QDataStream.readFloat floatWidth
  cases hp : s.precision
  · exact advances_readBlock s 4
  · exact advances_readBlock s 8

theorem advances_readVec (Q : QtLib F) (s : QDataStream) :
    Advances s (s.readVec Q).2 (3 * floatWidth s.precision) := by
  have h1 := advances_readFloat Q s
  have h2 := advances_readFloat Q (s.readFloat Q).2
  have h3 := advances_readFloat Q ((s.readFloat Q).2.readFloat Q).2
  have p1 := h1.2.2.1
  have p2 := h2.2.2.1.trans p1
  rw [p1] at h2
  rw [p2] at h3
  have h := (h1.trans h2).trans h3
  have e : floatWidth s.precision + floatWidth s.precision + floatWidth s.precision
      = 3 * floatWidth s.precision := by omega
  rw [e] at h
  exact h

/-- One iteration of the record loop asks the stream for `recordSize` bytes. -/
theorem advances_record (Q : QtLib F) (s : QDataStream) :
    Advances s ((((s.readVec Q).2.readVec Q).2.readVec Q).2.readVec Q).2.readUInt16.2
      (recordSize s.precision) := by
  have h1 := advances_readVec Q s
  have h2 := advances_readVec Q (s.readVec Q).2
  have h3 := advances_readVec Q ((s.readVec Q).2.readVec Q).2
  have h4 := advances_readVec Q (((s.readVec Q).2.readVec Q).2.readVec Q).2
  have h5 := advances_readUInt16 ((((s.readVec Q).2.readVec Q).2.readVec Q).2.readVec Q).2
  have p1 := h1.2.2.1
  have p2 := h2.2.2.1.trans p1
  have p3 := h3.2.2.1.trans p2
  rw [p1] at h2
  rw [p2] at h3
  rw [p3] at h4
  have h := (((h1.trans h2).trans h3).trans h4).trans h5
  have e : 3 * floatWidth s.precision + 3 * floatWidth s.precision
      + 3 * floatWidth s.precision + 3 * floatWidth s.precision + 2
      = recordSize s.precision := by unfold recordSize; omega
  rw [e] at h
  exact h

end StreamFloat

/-! ### Buffers -/

section Buffers

variable {F : Type}

theorem toUInt_add (n k : Nat) : toUInt (toUInt n + k) = toUInt (n + k) := by
  unfold toUInt
  exact Nat.mod_add_mod n (2 ^ 32) k

theorem consistent_empty : Consistent (MeshBuffer.empty : MeshBuffer F) := by
  simp [Consistent, MeshBuffer.empty]

theorem consistent_clearData (b : MeshBuffer F) : Consistent (clearData b) := by
  simp [Consistent, clearData]

theorem consistent_setHasNormals {b : MeshBuffer F} (h : Consistent b) :
    Consistent (setHasNormals b) := h

theorem consistent_appendTriangle {b : MeshBuffer F} (h : Consistent b)
    (v0 v1 v2 n : QVector3D F) : Consistent (appendTriangle b v0 v1 v2 n) := by
  obtain ⟨h1, h2, h3, h4⟩ := h
  refine ⟨?_, ?_, ?_, ?_⟩
  · simp [appendTriangle, h1]
  · simp [appendTriangle, h2]
  · simp only [appendTriangle, List.length_append, List.length_cons, List.length_nil]
    omega
  · simp only [appendTriangle, List.length_append, List.length_cons, List.length_nil]
    rw [h4, toUInt_add, toUInt_add, toUInt_add]
    have e : b.positions.length + (0 + 1 + 1 + 1) = b.positions.length + 1 + 1 + 1 := by omega
    rw [e, List.range_succ, List.range_succ, List.range_succ]
    simp [List.map_append, Nat.add_assoc]

theorem positions_appendTriangle (b : MeshBuffer F) (v0 v1 v2 n : QVector3D F) :
    (appendTriangle b v0 v1 v2 n).positions = b.positions ++ [v0, v1, v2] := rfl

theorem normals_appendTriangle (b : MeshBuffer F) (v0 v1 v2 n : QVector3D F) :
    (appendTriangle b v0 v1 v2 n).normals = b.normals ++ [n, n, n] := rfl

end Buffers

section Invariant

variable {F : Type}

theorem soupInvariant_of_consistent {b : MeshBuffer F} (h : Consistent b) :
    SoupInvariant b := by
  obtain ⟨h1, h2, h3, h4⟩ := h
  refine ⟨by omega, h1, h2.symm, ?_, ?_⟩
  · intro i hi
    have hi2 : i < b.positions.length := by omega
    have hget : b.indices.getD i 0 = toUInt i := by
      rw [h4, List.getD_eq_getElem _ _ (by simpa using hi2)]
      simp
    rw [hget]
    unfold toUInt
    exact ⟨lt_of_le_of_lt (Nat.mod_le _ _) hi2, rfl⟩
  · intro hle
    rw [h4]
    conv_rhs => rw [← List.map_id (List.range b.positions.length)]
    apply List.map_congr_left
    intro x hx
    have hx2 : x < b.positions.length := List.mem_range.mp hx
    unfold toUInt
    exact Nat.mod_eq_of_lt (by omega)

end Invariant

/-! ### The binary decoder -/

section Binary

variable {F : Type} [LinearOrderedField F]

/-- The record loop fails exactly when the stream has fewer than `n` times
`recordSize` bytes left, the message then being the end-of-file one and the
three sequences empty; when it succeeds it has appended `3 * n` positions. -/
theorem parseBinaryLoop_spec (Q : QtLib F) (n : Nat) :
    ∀ (s : QDataStream) (buf : MeshBuffer F), s.status = Status.Ok →
      (n * recordSize s.precision ≤ s.rest.length →
        (parseBinaryLoop Q n s buf).2 = none ∧
        (parseBinaryLoop Q n s buf).1.positions.length = buf.positions.length + 3 * n ∧
        (parseBinaryLoop Q n s buf).1.hasNormals
          = !(parseBinaryLoop Q n s buf).1.normals.isEmpty) ∧
      (s.rest.length < n * recordSize s.precision →
        parseBinaryLoop Q n s buf = (clearData (parseBinaryLoop Q n s buf).1,
          some "Unexpected end of STL file.") ∧
        (parseBinaryLoop Q n s buf).1.positions = [] ∧
        (parseBinaryLoop Q n s buf).1.normals = [] ∧
        (parseBinaryLoop Q n s buf).1.indices = []) := by
  induction n with
  | zero =>
    intro s buf _
    refine ⟨fun _ => ⟨rfl, by simp [parseBinaryLoop, setHasNormals], rfl⟩, fun h => ?_⟩
    simp at h
  | succ n ih =>
    intro s buf hs
    have hadv := advances_record Q s
    obtain ⟨hrest, _, hprec, hstat⟩ := hadv
    have hmul : (n + 1) * recordSize s.precision
        = n * recordSize s.precision + recordSize s.precision := Nat.succ_mul _ _
    rw [hmul]
    generalize hk : n * recordSize s.precision = k
    unfold parseBinaryLoop
    dsimp only
    by_cases ht : ((((s.readVec Q).2.readVec Q).2.readVec Q).2.readVec Q).2.readUInt16.2.status
        = Status.Ok
    · rw [if_neg (not_not.mpr ht)]
      have hlen := (hstat.mp ht).2
      have := ih _ (appendTriangle buf ((s.readVec Q).2.readVec Q).1
        (((s.readVec Q).2.readVec Q).2.readVec Q).1
        ((((s.readVec Q).2.readVec Q).2.readVec Q).2.readVec Q).1
        (normalizeIfNonNull Q (s.readVec Q).1)) ht
      rw [hprec, hk, hrest, List.length_drop, positions_appendTriangle] at this
      obtain ⟨ok, bad⟩ := this
      constructor
      · intro h
        obtain ⟨a, b, c⟩ := ok (by omega)
        refine ⟨a, ?_, c⟩
        rw [b]
        simp only [List.length_append, List.length_cons, List.length_nil]
        omega
      · intro h
        exact bad (by omega)
    · rw [if_pos ht]
      have hshort : s.rest.length < recordSize s.precision := by
        by_contra hc
        exact ht (hstat.mpr ⟨hs, by omega⟩)
      constructor
      · intro h
        omega
      · intro _
        exact ⟨rfl, rfl, rfl, rfl⟩

/-- The record loop keeps the buffer invariant. -/
theorem consistent_parseBinaryLoop (Q : QtLib F) (n : Nat) :
    ∀ (s : QDataStream) (buf : MeshBuffer F), Consistent buf →
      Consistent (parseBinaryLoop Q n s buf).1 := by
  induction n with
  | zero => intro s buf h; exact consistent_setHasNormals h
  | succ n ih =>
    intro s buf h
    unfold parseBinaryLoop
    dsimp only
    split_ifs
    · exact consistent_clearData buf
    · exact ih _ _ (consistent_appendTriangle h _ _ _ _)

/-- When the record loop stores a message, the three sequences are empty. -/
theorem parseBinaryLoop_error_empty (Q : QtLib F) (n : Nat) :
    ∀ (s : QDataStream) (buf : MeshBuffer F), (parseBinaryLoop Q n s buf).2 ≠ none →
      (parseBinaryLoop Q n s buf).1.positions = [] ∧
      (parseBinaryLoop Q n s buf).1.normals = [] ∧
      (parseBinaryLoop Q n s buf).1.indices = [] := by
  induction n with
  | zero => intro s buf h; exact absurd rfl h
  | succ n ih =>
    intro s buf
    unfold parseBinaryLoop
    dsimp only
    split_ifs
    · intro _; exact ⟨rfl, rfl, rfl⟩
    · exact ih _ _

/-- Whenever `STLParser::parseBinary` stores a message, the positions, the
normals and the indices it returns are empty. -/
theorem parseBinary_error_empty (Q : QtLib F) (device : QIODevice)
    (h : (parseBinary Q device).2 ≠ none) :
    (parseBinary Q device).1.positions = [] ∧ (parseBinary Q device).1.normals = [] ∧
      (parseBinary Q device).1.indices = [] := by
  unfold parseBinary at h ⊢
  dsimp only at h ⊢
  split_ifs at h ⊢
  · exact ⟨rfl, rfl, rfl⟩
  · exact ⟨rfl, rfl, rfl⟩
  · exact ⟨rfl, rfl, rfl⟩
  · exact parseBinaryLoop_error_empty Q _ _ _ h

/-- The buffer `STLParser::parseBinary` returns satisfies the buffer invariant. -/
theorem consistent_parseBinary (Q : QtLib F) (device : QIODevice) :
    Consistent (parseBinary Q device).1 := by
  unfold parseBinary
  dsimp only
  split_ifs
  · exact consistent_empty
  · exact consistent_empty
  · exact consistent_empty
  · exact consistent_parseBinaryLoop Q _ _ _ consistent_empty

/-- What `STLParser::parseBinary` accepts: on an opened file it stores no
message exactly when the file has its 84 leading bytes and, after them, as
many blocks of 98 bytes (twelve 8-byte reads and a 2-byte one) as the count
at bytes 80..83 says; it then returns three times that many positions. -/
theorem parseBinary_accepts_iff (Q : QtLib F) (bytes : List Byte) :
    ((parseBinary Q (QIODevice.openedFile bytes)).2 = none ↔
      84 ≤ bytes.length ∧ 84 + declaredCount bytes * 98 ≤ bytes.length) ∧
    ((parseBinary Q (QIODevice.openedFile bytes)).2 = none →
      (parseBinary Q (QIODevice.openedFile bytes)).1.positions.length
        = 3 * declaredCount bytes) := by
  set s0 := (QDataStream.ofDevice (bytes.drop 80)).setByteOrder ByteOrder.LittleEndian with hs0
  have hadv := advances_readUInt32 s0
  obtain ⟨hrest, _, hprec, hstat⟩ := hadv
  have hs0len : s0.rest.length = bytes.length - 80 := by
    simp [hs0, QDataStream.ofDevice, QDataStream.setByteOrder]
  have hs0ok : s0.status = Status.Ok := rfl
  have hs0prec : s0.precision = FloatingPointPrecision.DoublePrecision := rfl
  have hunf : parseBinary Q (QIODevice.openedFile bytes)
      = if s0.readUInt32.2.status ≠ Status.Ok then
          (MeshBuffer.empty, some "Unable to read triangle count.")
        else parseBinaryLoop Q s0.readUInt32.1 s0.readUInt32.2 MeshBuffer.empty := rfl
  rw [hunf]
  by_cases ht : s0.readUInt32.2.status = Status.Ok
  · rw [if_neg (not_not.mpr ht)]
    have h4 : 4 ≤ s0.rest.length := (hstat.mp ht).2
    have hcount : s0.readUInt32.1 = declaredCount bytes := by
      have hl : (s0.readBlock 4).1.length = 4 := by
        simp only [QDataStream.readBlock, List.length_take]
        omega
      simp only [QDataStream.readUInt32, hl, if_true]
      rfl
    have hspec := parseBinaryLoop_spec Q s0.readUInt32.1 s0.readUInt32.2 MeshBuffer.empty ht
    rw [hprec, hs0prec, hrest, List.length_drop, hs0len, hcount] at hspec
    have hR : recordSize FloatingPointPrecision.DoublePrecision = 98 := rfl
    rw [hR] at hspec
    rw [hcount]
    obtain ⟨ok, bad⟩ := hspec
    by_cases hfit : declaredCount bytes * 98 ≤ bytes.length - 80 - 4
    · obtain ⟨a, b, _⟩ := ok hfit
      refine ⟨⟨fun _ => by omega, fun _ => a⟩, fun _ => ?_⟩
      rw [b]
      simp [MeshBuffer.empty]
    · obtain ⟨e, _⟩ := bad (by omega)
      have hne : (parseBinaryLoop Q (declaredCount bytes) s0.readUInt32.2 MeshBuffer.empty).2
          ≠ none := by rw [e]; simp
      refine ⟨⟨fun h => absurd h hne, fun h => ?_⟩, fun h => absurd h hne⟩
      omega
  · rw [if_pos ht]
    have hshort : ¬ 4 ≤ s0.rest.length := fun h => ht (hstat.mpr ⟨hs0ok, h⟩)
    refine ⟨⟨fun h => by simp at h, fun h => ?_⟩, fun h => by simp at h⟩
    omega

/-- The same record loop on a stream switched to `SinglePrecision` takes 50
bytes per record: with `n` records of 50 bytes left it stores no message and
returns `3 * n` positions. -/
theorem parseBinaryLoop_singlePrecision (Q : QtLib F) (n : Nat) (rest : List Byte)
    (h : n * 50 ≤ rest.length) :
    (parseBinaryLoop Q n (((QDataStream.ofDevice rest).setByteOrder
        ByteOrder.LittleEndian).setFloatingPointPrecision
          FloatingPointPrecision.SinglePrecision) MeshBuffer.empty).2 = none ∧
      (parseBinaryLoop Q n (((QDataStream.ofDevice rest).setByteOrder
        ByteOrder.LittleEndian).setFloatingPointPrecision
          FloatingPointPrecision.SinglePrecision) MeshBuffer.empty).1.positions.length
        = 3 * n := by
  have hs := (parseBinaryLoop_spec Q n (((QDataStream.ofDevice rest).setByteOrder
        ByteOrder.LittleEndian).setFloatingPointPrecision
          FloatingPointPrecision.SinglePrecision) MeshBuffer.empty rfl).1 h
  refine ⟨hs.1, ?_⟩
  rw [hs.2.1]
  simp [MeshBuffer.empty]

/-- A record loop that runs out of bytes returns the emptied buffer and the
end-of-file message, whatever it had decoded before. -/
theorem parseBinaryLoop_short (Q : QtLib F) (n : Nat) :
    ∀ (s : QDataStream) (buf : MeshBuffer F), s.status = Status.Ok →
      s.rest.length < n * recordSize s.precision →
      parseBinaryLoop Q n s buf = (clearData buf, some "Unexpected end of STL file.") := by
  induction n with
  | zero => intro s buf _ h; simp at h
  | succ n ih =>
    intro s buf hs hlt
    obtain ⟨hrest, _, hprec, hstat⟩ := advances_record Q s
    rw [Nat.succ_mul] at hlt
    unfold parseBinaryLoop
    dsimp only
    by_cases ht : ((((s.readVec Q).2.readVec Q).2.readVec Q).2.readVec Q).2.readUInt16.2.status
        = Status.Ok
    · rw [if_neg (not_not.mpr ht)]
      have hlen := (hstat.mp ht).2
      rw [ih _ _ ht (by rw [hprec, hrest, List.length_drop]; omega)]
      rfl
    · rw [if_pos ht]

/-- On an opened file that has its 84 leading bytes but not the blocks of 98
bytes its count asks for, `STLParser::parseBinary` returns the empty buffer
and the end-of-file message. -/
theorem parseBinary_short (Q : QtLib F) (bytes : List Byte) (h84 : 84 ≤ bytes.length)
    (hshort : bytes.length < 84 + declaredCount bytes * 98) :
    parseBinary Q (QIODevice.openedFile bytes)
      = (MeshBuffer.empty, some "Unexpected end of STL file.") := by
  set s0 := (QDataStream.ofDevice (bytes.drop 80)).setByteOrder ByteOrder.LittleEndian with hs0
  obtain ⟨hrest, _, hprec, hstat⟩ := advances_readUInt32 s0
  have hs0len : s0.rest.length = bytes.length - 80 := by
    simp [hs0, QDataStream.ofDevice, QDataStream.setByteOrder]
  have hs0ok : s0.status = Status.Ok := rfl
  have hs0prec : s0.precision = FloatingPointPrecision.DoublePrecision := rfl
  have hunf : parseBinary Q (QIODevice.openedFile bytes)
      = if s0.readUInt32.2.status ≠ Status.Ok then
          (MeshBuffer.empty, some "Unable to read triangle count.")
        else parseBinaryLoop Q s0.readUInt32.1 s0.readUInt32.2 MeshBuffer.empty := rfl
  have ht : s0.readUInt32.2.status = Status.Ok := hstat.mpr ⟨hs0ok, by omega⟩
  have hcount : s0.readUInt32.1 = declaredCount bytes := by
    have hl : (s0.readBlock 4).1.length = 4 := by
      simp only [QDataStream.readBlock, List.length_take]
      omega
    simp only [QDataStream.readUInt32, hl, if_true]
    rfl
  rw [hunf, if_neg (not_not.mpr ht), hcount]
  have hR : recordSize FloatingPointPrecision.DoublePrecision = 98 := rfl
  rw [parseBinaryLoop_short Q _ _ _ ht
    (by rw [hprec, hs0prec, hR, hrest, List.length_drop, hs0len]; omega)]
  rfl

/-- C1 (what the code does instead): a binary STL file that is exactly its
84 leading bytes and the `N ≥ 1` records of 50 bytes its count declares is
rejected by `STLParser::parseBinary` with the end-of-file message, and no
position is returned, because every `stream >> float` asks for 8 bytes. -/
theorem parseBinary_rejects_exact_file (Q : QtLib F) (bytes : List Byte)
    (hN : 1 ≤ declaredCount bytes) (hlen : bytes.length = 84 + 50 * declaredCount bytes) :
    parseBinary Q (QIODevice.openedFile bytes)
        = (MeshBuffer.empty, some "Unexpected end of STL file.") ∧
      (parseBinary Q (QIODevice.openedFile bytes)).1.positions.length
        ≠ 3 * declaredCount bytes := by
  have h := parseBinary_short Q bytes (by omega) (by omega)
  refine ⟨h, ?_⟩
  rw [h]
  simp only [MeshBuffer.empty, List.length_nil]
  omega

/-- C2 (what the code does instead): on the 184-byte file with count 2 and
two complete 50-byte records, `STLParser::parseBinary` stores the end-of-file
message although the file is neither shorter than 84 bytes nor short of a
50-byte record; the first iteration had succeeded, and the sequences come
back empty. -/
theorem parseBinary_error_with_complete_records (Q : QtLib F) :
    84 ≤ twoRecordFile.length ∧
      84 + 50 * declaredCount twoRecordFile ≤ twoRecordFile.length ∧
      parseBinary Q (QIODevice.openedFile twoRecordFile)
        = (MeshBuffer.empty, some "Unexpected end of STL file.") := by
  have hc : declaredCount twoRecordFile = 2 := by rfl
  have hl : twoRecordFile.length = 184 := by rfl
  refine ⟨by omega, by omega, parseBinary_short Q _ (by omega) (by omega)⟩

/-- C3 (what the code does instead): on the spec's scenario file (80 zero
bytes, count 1, normal `(0,0,1)`, vertices `(0,0,0)`, `(1,0,0)`, `(0,1,0)`)
`STLParser::parseBinary` returns no position, no normal and no index, and
the end-of-file message. -/
theorem parseBinary_scenario (Q : QtLib F) :
    declaredCount scenarioFile = 1 ∧ scenarioFile.length = 84 + 50 ∧
      parseBinary Q (QIODevice.openedFile scenarioFile)
        = (MeshBuffer.empty, some "Unexpected end of STL file.") := by
  have hc : declaredCount scenarioFile = 1 := by rfl
  have hl : scenarioFile.length = 134 := by rfl
  refine ⟨hc, hl, parseBinary_short Q _ (by omega) (by omega)⟩

end Binary

/-- The witness of `parseBinary_rejects_exact_file`: the one-record file. -/
theorem parseBinary_rejects_exact_file_witness :
    parseBinary sampleLib (QIODevice.openedFile zeroRecordFile)
        = (MeshBuffer.empty, some "Unexpected end of STL file.") ∧
      (parseBinary sampleLib (QIODevice.openedFile zeroRecordFile)).1.positions.length
        ≠ 3 * declaredCount zeroRecordFile := by
  have hc : declaredCount zeroRecordFile = 1 := by rfl
  have hl : zeroRecordFile.length = 134 := by rfl
  exact parseBinary_rejects_exact_file sampleLib zeroRecordFile (by omega) (by omega)

/-! ### The ASCII decoder -/

section EndFacet

variable {F : Type}

theorem endFacet_facetVertices (st : AsciiState F) : (endFacet st).facetVertices = [] := by
  unfold endFacet
  split <;> rfl

theorem endFacet_facetNormal (st : AsciiState F) :
    (endFacet st).facetNormal = st.facetNormal := by
  unfold endFacet
  split <;> rfl

/-- The `endfacet` branch on three pending vertices. -/
theorem endFacet_three (st : AsciiState F) (v0 v1 v2 : QVector3D F)
    (h : st.facetVertices = [v0, v1, v2]) :
    endFacet st = { buffer := appendTriangle st.buffer v0 v1 v2 st.facetNormal,
                    facetVertices := [], facetNormal := st.facetNormal } := by
  unfold endFacet
  rw [h]

theorem endFacet_positions (st : AsciiState F) :
    (endFacet st).buffer.positions
      = st.buffer.positions ++ (if st.facetVertices.length = 3 then st.facetVertices else []) := by
  unfold endFacet
  split
  · next v0 v1 v2 h => rw [h]; rfl
  · next hne =>
    have : ¬ st.facetVertices.length = 3 := by
      intro hl
      match hv : st.facetVertices, hl with
      | [a, b, c], _ => exact hne a b c hv
    simp [this]

theorem endFacet_consistent (st : AsciiState F) (h : Consistent st.buffer) :
    Consistent (endFacet st).buffer := by
  unfold endFacet
  split
  · exact consistent_appendTriangle h _ _ _ _
  · exact h

end EndFacet

section AsciiThms

variable {F : Type} [LinearOrderedField F]

theorem parseAsciiLine_endFacet (Q : QtLib F) (st : AsciiState F) (raw : List Char)
    (h : isEndFacetLine raw = true) : parseAsciiLine Q st raw = endFacet st := by
  unfold isEndFacetLine at h
  simp only [Bool.and_eq_true, Bool.not_eq_true'] at h
  obtain ⟨⟨h1, h2⟩, h3⟩ := h
  unfold parseAsciiLine
  simp [h1, h2, h3]

theorem parseAsciiLine_vertex (Q : QtLib F) (st : AsciiState F) (raw : List Char)
    (h : isVertexLine raw = true) :
    parseAsciiLine Q st raw =
      { buffer := st.buffer, facetVertices := st.facetVertices ++ [lineVertex Q raw],
        facetNormal := st.facetNormal } := by
  unfold isVertexLine at h
  simp only [Bool.and_eq_true, Bool.not_eq_true', decide_eq_true_eq] at h
  obtain ⟨⟨h1, h2⟩, h3⟩ := h
  unfold parseAsciiLine lineVertex
  simp [h1, h2, h3]

theorem parseAsciiLine_facet (Q : QtLib F) (st : AsciiState F) (raw : List Char)
    (h : isFacetLine raw = true) :
    parseAsciiLine Q st raw =
      { buffer := st.buffer, facetVertices := st.facetVertices,
        facetNormal := normalizeIfNonNull Q (lineNormal Q raw) } := by
  unfold isFacetLine at h
  simp only [Bool.and_eq_true, decide_eq_true_eq] at h
  obtain ⟨h1, h2⟩ := h
  unfold parseAsciiLine lineNormal
  simp [h1, h2]

theorem parseAsciiLine_inert (Q : QtLib F) (st : AsciiState F) (raw : List Char)
    (h : isInertLine raw = true) : parseAsciiLine Q st raw = st := by
  unfold isInertLine isFacetLine isVertexLine isEndFacetLine at h
  unfold parseAsciiLine
  by_cases h1 : startsWithCI (trimmed raw) facetWord = true
  · simp only [h1, Bool.true_and, Bool.not_true, Bool.false_and, Bool.not_false,
      Bool.and_true, Bool.not_eq_true', decide_eq_false_iff_not] at h
    simp [h1, h]
  · simp only [Bool.not_eq_true] at h1
    by_cases h2 : startsWithCI (trimmed raw) vertexWord = true
    · simp only [h1, h2, Bool.false_and, Bool.not_false, Bool.true_and, Bool.not_true,
        Bool.and_true, Bool.not_eq_true', decide_eq_false_iff_not] at h
      simp [h1, h2, h]
    · simp only [Bool.not_eq_true] at h2
      simp only [h1, h2, Bool.false_and, Bool.not_false, Bool.true_and,
        Bool.not_eq_true'] at h
      simp [h1, h2, h]

/-- A line that is neither an `endfacet` line nor a valid vertex line leaves
the buffer and the pending vertices as they are. -/
theorem parseAsciiLine_other (Q : QtLib F) (st : AsciiState F) (raw : List Char)
    (he : isEndFacetLine raw = false) (hv : isVertexLine raw = false) :
    (parseAsciiLine Q st raw).buffer = st.buffer ∧
      (parseAsciiLine Q st raw).facetVertices = st.facetVertices := by
  by_cases hf : isFacetLine raw = true
  · rw [parseAsciiLine_facet Q st raw hf]
    exact ⟨rfl, rfl⟩
  · rw [parseAsciiLine_inert Q st raw (by simp [isInertLine, he, hv, hf])]
    exact ⟨rfl, rfl⟩

/-- Every iteration of the loop keeps the buffer invariant. -/
theorem parseAsciiLine_consistent (Q : QtLib F) (st : AsciiState F) (raw : List Char)
    (h : Consistent st.buffer) : Consistent (parseAsciiLine Q st raw).buffer := by
  by_cases he : isEndFacetLine raw = true
  · rw [parseAsciiLine_endFacet Q st raw he]
    exact endFacet_consistent st h
  · by_cases hv : isVertexLine raw = true
    · rw [parseAsciiLine_vertex Q st raw hv]
      exact h
    · rw [(parseAsciiLine_other Q st raw (by simpa using he) (by simpa using hv)).1]
      exact h

theorem foldl_parseAsciiLine_consistent (Q : QtLib F) (lines : List (List Char)) :
    ∀ st : AsciiState F, Consistent st.buffer →
      Consistent (lines.foldl (parseAsciiLine Q) st).buffer := by
  induction lines with
  | nil => intro st h; exact h
  | cons l ls ih => intro st h; exact ih _ (parseAsciiLine_consistent Q st l h)

/-- The positions the loop has appended once all lines are read: the vertices
of the blocks that have exactly three valid vertex lines, in file order. -/
theorem foldl_parseAsciiLine_positions (Q : QtLib F) (lines : List (List Char)) :
    ∀ st : AsciiState F,
      (lines.foldl (parseAsciiLine Q) st).buffer.positions
        = st.buffer.positions
          ++ ((closedBlocks Q lines st.facetVertices).filter (fun b => b.length == 3)).flatten := by
  induction lines with
  | nil => intro st; simp [closedBlocks]
  | cons l ls ih =>
    intro st
    rw [List.foldl_cons, ih]
    by_cases he : isEndFacetLine l = true
    · rw [parseAsciiLine_endFacet Q st l he, endFacet_positions, endFacet_facetVertices]
      simp only [closedBlocks, he, if_true]
      by_cases h3 : st.facetVertices.length = 3
      · simp [h3, List.filter_cons]
      · simp [h3, List.filter_cons]
    · by_cases hv : isVertexLine l = true
      · rw [parseAsciiLine_vertex Q st l hv]
        simp only [closedBlocks, he, hv, if_true]
        simp
      · obtain ⟨hb, hf⟩ := parseAsciiLine_other Q st l (by simpa using he) (by simpa using hv)
        rw [hb, hf]
        simp only [closedBlocks, he, hv]
        simp

/-- The flattened well-formed blocks hold three vertices per block. -/
theorem length_flatten_filter_three {α : Type} (bs : List (List α)) :
    ((bs.filter (fun b => b.length == 3)).flatten).length
      = 3 * (bs.filter (fun b => b.length == 3)).length := by
  induction bs with
  | nil => rfl
  | cons b bs ih =>
    by_cases h : b.length = 3
    · simp [List.filter_cons, h, ih]
      omega
    · simp [List.filter_cons, h, ih]

theorem foldl_parseAsciiLine_inert (Q : QtLib F) (lines : List (List Char)) :
    ∀ st : AsciiState F, (∀ l ∈ lines, isInertLine l = true) →
      lines.foldl (parseAsciiLine Q) st = st := by
  induction lines with
  | nil => intro st _; rfl
  | cons l ls ih =>
    intro st h
    rw [List.foldl_cons, parseAsciiLine_inert Q st l (h l (List.mem_cons_self _ _))]
    exact ih st (fun x hx => h x (List.mem_cons_of_mem _ hx))

/-- A vector of squared length `1` is left as it is by `QVector3D::normalize`. -/
theorem normalize_of_lengthSquared_one (Q : QtLib F) (v : QVector3D F)
    (h : v.lengthSquared = 1) : v.normalize Q = v := by
  have hz : qFuzzyIsNull (v.lengthSquared - 1) = true := by
    rw [h]
    simp only [qFuzzyIsNull, sub_self, abs_zero, decide_eq_true_eq]
    positivity
  simp [QVector3D.normalize, hz]

/-- The decoder on an input that holds one well-formed block between inert lines. -/
theorem parseAscii_single_block (Q : QtLib F) (device : QIODevice)
    (pre m1 m2 m3 m4 post : List (List Char)) (fl l0 l1 l2 el : List Char)
    (hlines : readLines (Q.fromUtf8 device.content)
      = pre ++ fl :: (m1 ++ l0 :: (m2 ++ l1 :: (m3 ++ l2 :: (m4 ++ el :: post)))))
    (hinert : ∀ l ∈ pre ++ m1 ++ m2 ++ m3 ++ m4 ++ post, isInertLine l = true)
    (hfl : isFacetLine fl = true) (hnz : (lineNormal Q fl).isNull = false)
    (h0 : isVertexLine l0 = true) (h1 : isVertexLine l1 = true) (h2 : isVertexLine l2 = true)
    (hel : isEndFacetLine el = true) :
    parseAscii Q device
      = ({ positions := [lineVertex Q l0, lineVertex Q l1, lineVertex Q l2],
           normals := [(lineNormal Q fl).normalize Q, (lineNormal Q fl).normalize Q,
             (lineNormal Q fl).normalize Q],
           indices := [0, 1, 2], hasNormals := true }, none) := by
  have hpre : ∀ l ∈ pre, isInertLine l = true := fun l hl => hinert l (by simp [hl])
  have hm1 : ∀ l ∈ m1, isInertLine l = true := fun l hl => hinert l (by simp [hl])
  have hm2 : ∀ l ∈ m2, isInertLine l = true := fun l hl => hinert l (by simp [hl])
  have hm3 : ∀ l ∈ m3, isInertLine l = true := fun l hl => hinert l (by simp [hl])
  have hm4 : ∀ l ∈ m4, isInertLine l = true := fun l hl => hinert l (by simp [hl])
  have hpost : ∀ l ∈ post, isInertLine l = true := fun l hl => hinert l (by simp [hl])
  unfold parseAscii
  rw [hlines]
  simp only [List.foldl_append, List.foldl_cons]
  rw [foldl_parseAsciiLine_inert Q pre _ hpre, parseAsciiLine_facet Q _ fl hfl,
    foldl_parseAsciiLine_inert Q m1 _ hm1, parseAsciiLine_vertex Q _ l0 h0,
    foldl_parseAsciiLine_inert Q m2 _ hm2, parseAsciiLine_vertex Q _ l1 h1,
    foldl_parseAsciiLine_inert Q m3 _ hm3, parseAsciiLine_vertex Q _ l2 h2,
    foldl_parseAsciiLine_inert Q m4 _ hm4, parseAsciiLine_endFacet Q _ el hel,
    endFacet_three _ (lineVertex Q l0) (lineVertex Q l1) (lineVertex Q l2) rfl,
    foldl_parseAsciiLine_inert Q post _ hpost]
  simp [normalizeIfNonNull, hnz, setHasNormals, appendTriangle, AsciiState.init,
    MeshBuffer.empty, toUInt]

/-- The triangle count `indices.length / 3` of the buffer
`STLParser::parseAscii` returns is the number of runs of lines closed by an
`endfacet` line that hold exactly three valid vertex lines. -/
theorem parseAscii_triangle_count (Q : QtLib F) (device : QIODevice) :
    (parseAscii Q device).1.indices.length / 3
      = (wellFormedBlocks Q (readLines (Q.fromUtf8 device.content))).length := by
  have hc : Consistent (parseAscii Q device).1 :=
    consistent_setHasNormals (foldl_parseAsciiLine_consistent Q _ _ consistent_empty)
  have hp : (parseAscii Q device).1.positions
      = (wellFormedBlocks Q (readLines (Q.fromUtf8 device.content))).flatten := by
    unfold parseAscii wellFormedBlocks
    simp only [setHasNormals]
    rw [foldl_parseAsciiLine_positions]
    simp [AsciiState.init, MeshBuffer.empty]
  rw [hc.2.1, hp]
  unfold wellFormedBlocks
  rw [length_flatten_filter_three]
  omega

/-- C5: for every ASCII input, with `K` the number of its blocks (runs of
lines closed by an `endfacet` line) that hold exactly three valid vertex
lines: the positions `STLParser::parseAscii` returns are the vertices of
those `K` blocks in file order, there are `3K` positions, normals and
indices, the blocks with another number of vertex lines raise no error (the
only message is the no-geometry one, stored exactly when `K = 0`), and the
pending-vertex buffer is empty after every `endfacet` line. -/
theorem parseAscii_blocks (Q : QtLib F) (device : QIODevice) :
    (parseAscii Q device).1.positions
        = (wellFormedBlocks Q (readLines (Q.fromUtf8 device.content))).flatten ∧
      (parseAscii Q device).1.positions.length
        = 3 * (wellFormedBlocks Q (readLines (Q.fromUtf8 device.content))).length ∧
      (parseAscii Q device).1.normals.length
        = 3 * (wellFormedBlocks Q (readLines (Q.fromUtf8 device.content))).length ∧
      (parseAscii Q device).1.indices.length
        = 3 * (wellFormedBlocks Q (readLines (Q.fromUtf8 device.content))).length ∧
      (parseAscii Q device).2
        = (if (wellFormedBlocks Q (readLines (Q.fromUtf8 device.content))).isEmpty
            then some "No geometry found in STL file." else none) ∧
      (∀ (st : AsciiState F) (l : List Char), isEndFacetLine l = true →
        (parseAsciiLine Q st l).facetVertices = []) := by
  have hc : Consistent (parseAscii Q device).1 :=
    consistent_setHasNormals (foldl_parseAsciiLine_consistent Q _ _ consistent_empty)
  have hp : (parseAscii Q device).1.positions
      = (wellFormedBlocks Q (readLines (Q.fromUtf8 device.content))).flatten := by
    unfold parseAscii wellFormedBlocks
    simp only [setHasNormals]
    rw [foldl_parseAsciiLine_positions]
    simp [AsciiState.init, MeshBuffer.empty]
  have hl : (parseAscii Q device).1.positions.length
      = 3 * (wellFormedBlocks Q (readLines (Q.fromUtf8 device.content))).length := by
    rw [hp]
    exact length_flatten_filter_three _
  have he : (parseAscii Q device).2
      = if (parseAscii Q device).1.positions.isEmpty
          then some "No geometry found in STL file." else none := rfl
  refine ⟨hp, hl, by rw [hc.1, hl], by rw [hc.2.1, hl], ?_, ?_⟩
  · rw [he]
    have hiff : (parseAscii Q device).1.positions.isEmpty
        = (wellFormedBlocks Q (readLines (Q.fromUtf8 device.content))).isEmpty := by
      rw [Bool.eq_iff_iff, List.isEmpty_iff, List.isEmpty_iff,
        ← List.length_eq_zero, ← List.length_eq_zero (l := wellFormedBlocks Q _), hl]
      omega
    rw [hiff]
  · intro st l h
    rw [parseAsciiLine_endFacet Q st l h]
    exact endFacet_facetVertices st

/-- What `QVector3D::normalize` computes, case by case. -/
theorem normalize_cases (Q : QtLib F) (v : QVector3D F) :
    v.normalize Q
      = (if |v.lengthSquared - 1| ≤ 1 / 1000000000000 ∨ |v.lengthSquared| ≤ 1 / 1000000000000
          then v
          else ⟨v.x / Q.sqrt v.lengthSquared, v.y / Q.sqrt v.lengthSquared,
            v.z / Q.sqrt v.lengthSquared⟩) := by
  unfold QVector3D.normalize
  dsimp only
  by_cases h : |v.lengthSquared - 1| ≤ 1 / 1000000000000 ∨ |v.lengthSquared| ≤ 1 / 1000000000000
  · have hb : (qFuzzyIsNull (v.lengthSquared - 1) || qFuzzyIsNull v.lengthSquared) = true := by
      simpa [qFuzzyIsNull] using h
    rw [if_pos hb, if_pos h]
  · have hb : ¬ (qFuzzyIsNull (v.lengthSquared - 1) || qFuzzyIsNull v.lengthSquared) = true := by
      simpa [qFuzzyIsNull] using h
    rw [if_neg hb, if_neg h]

/-- The squared length after `QVector3D::normalize` is within `10⁻¹²` of `1`,
on a vector whose squared length is above `10⁻¹²` and has an exact square root. -/
theorem normalize_near_unit (Q : QtLib F) (v : QVector3D F)
    (hbig : 1 / 1000000000000 < v.lengthSquared)
    (hsqrt : Q.sqrt v.lengthSquared * Q.sqrt v.lengthSquared = v.lengthSquared) :
    |(v.normalize Q).lengthSquared - 1| ≤ 1 / 1000000000000 := by
  have hpos : (0 : F) ≤ 1 / 1000000000000 := by positivity
  rw [normalize_cases]
  by_cases h1 : |v.lengthSquared - 1| ≤ 1 / 1000000000000
  · rw [if_pos (Or.inl h1)]
    exact h1
  · have h0 : ¬ |v.lengthSquared| ≤ 1 / 1000000000000 :=
      not_le.mpr (lt_of_lt_of_le hbig (le_abs_self _))
    rw [if_neg (by tauto)]
    have hlpos : (0 : F) < v.lengthSquared := lt_of_le_of_lt hpos hbig
    have hl : Q.sqrt v.lengthSquared ≠ 0 := by
      intro hz
      rw [hz, mul_zero] at hsqrt
      exact (ne_of_gt hlpos) hsqrt.symm
    have e : (⟨v.x / Q.sqrt v.lengthSquared, v.y / Q.sqrt v.lengthSquared,
        v.z / Q.sqrt v.lengthSquared⟩ : QVector3D F).lengthSquared
        = v.lengthSquared / (Q.sqrt v.lengthSquared * Q.sqrt v.lengthSquared) := by
      simp only [QVector3D.lengthSquared]
      field_simp
    rw [e, hsqrt, div_self (ne_of_gt hlpos), sub_self, abs_zero]
    exact hpos

/-- C6 (amended): an ASCII input that holds, between lines that are ignored,
one facet line with a non-zero normal `v = (nx, ny, nz)`, three valid vertex
lines and an `endfacet` line decodes to the three vertices, three copies of
one normal `n`, indices `[0, 1, 2]`, `hasNormals` true and no error, where
`n` is what `QVector3D::normalize` makes of `v`: `v` itself when its squared
length is within `10⁻¹²` of `1` or of `0`, and `v` divided by its length
otherwise; so `n` has a squared length within `10⁻¹²` of `1` when the squared
length of `v` is above `10⁻¹²` (with an exact square root), and `n` is `v`,
not normalized, when the squared length of `v` is at most `10⁻¹²`. -/
theorem parseAscii_one_facet (Q : QtLib F) (device : QIODevice)
    (pre m1 m2 m3 m4 post : List (List Char)) (fl l0 l1 l2 el : List Char)
    (hlines : readLines (Q.fromUtf8 device.content)
      = pre ++ fl :: (m1 ++ l0 :: (m2 ++ l1 :: (m3 ++ l2 :: (m4 ++ el :: post)))))
    (hinert : ∀ l ∈ pre ++ m1 ++ m2 ++ m3 ++ m4 ++ post, isInertLine l = true)
    (hfl : isFacetLine fl = true) (hnz : (lineNormal Q fl).isNull = false)
    (h0 : isVertexLine l0 = true) (h1 : isVertexLine l1 = true) (h2 : isVertexLine l2 = true)
    (hel : isEndFacetLine el = true) :
    ∃ n : QVector3D F,
      parseAscii Q device
        = ({ positions := [lineVertex Q l0, lineVertex Q l1, lineVertex Q l2],
             normals := [n, n, n], indices := [0, 1, 2], hasNormals := true }, none) ∧
      n = (if |(lineNormal Q fl).lengthSquared - 1| ≤ 1 / 1000000000000
              ∨ |(lineNormal Q fl).lengthSquared| ≤ 1 / 1000000000000
            then lineNormal Q fl
            else ⟨(lineNormal Q fl).x / Q.sqrt (lineNormal Q fl).lengthSquared,
              (lineNormal Q fl).y / Q.sqrt (lineNormal Q fl).lengthSquared,
              (lineNormal Q fl).z / Q.sqrt (lineNormal Q fl).lengthSquared⟩) ∧
      (1 / 1000000000000 < (lineNormal Q fl).lengthSquared →
        Q.sqrt (lineNormal Q fl).lengthSquared * Q.sqrt (lineNormal Q fl).lengthSquared
          = (lineNormal Q fl).lengthSquared →
        |n.lengthSquared - 1| ≤ 1 / 1000000000000) ∧
      ((lineNormal Q fl).lengthSquared ≤ 1 / 1000000000000 → n = lineNormal Q fl) := by
  refine ⟨(lineNormal Q fl).normalize Q,
    parseAscii_single_block Q device pre m1 m2 m3 m4 post fl l0 l1 l2 el hlines hinert hfl hnz
      h0 h1 h2 hel,
    normalize_cases Q _, fun hbig hsqrt => normalize_near_unit Q _ hbig hsqrt, ?_⟩
  intro hsmall
  rw [normalize_cases]
  have hnn : 0 ≤ (lineNormal Q fl).lengthSquared := by
    unfold QVector3D.lengthSquared
    nlinarith [mul_self_nonneg (lineNormal Q fl).x, mul_self_nonneg (lineNormal Q fl).y,
      mul_self_nonneg (lineNormal Q fl).z]
  rw [if_pos (Or.inr (by rw [abs_of_nonneg hnn]; exact hsmall))]

/-- C7: `STLParser::parseAscii` stores the no-geometry message exactly when it
returns no position, which is exactly when the input has no block with three
valid vertex lines; when it returns a position it stores no message. -/
theorem parseAscii_no_geometry_iff (Q : QtLib F) (device : QIODevice) :
    ((parseAscii Q device).2 = some "No geometry found in STL file."
        ↔ (parseAscii Q device).1.positions = []) ∧
      ((parseAscii Q device).1.positions = []
        ↔ wellFormedBlocks Q (readLines (Q.fromUtf8 device.content)) = []) ∧
      ((parseAscii Q device).1.positions ≠ [] → (parseAscii Q device).2 = none) := by
  have he : (parseAscii Q device).2
      = if (parseAscii Q device).1.positions.isEmpty
          then some "No geometry found in STL file." else none := rfl
  have hp : (parseAscii Q device).1.positions
      = (wellFormedBlocks Q (readLines (Q.fromUtf8 device.content))).flatten := by
    unfold parseAscii wellFormedBlocks
    simp only [setHasNormals]
    rw [foldl_parseAsciiLine_positions]
    simp [AsciiState.init, MeshBuffer.empty]
  have hl : (parseAscii Q device).1.positions.length
      = 3 * (wellFormedBlocks Q (readLines (Q.fromUtf8 device.content))).length := by
    rw [hp]
    exact length_flatten_filter_three _
  refine ⟨?_, ?_, ?_⟩
  · rw [he]
    by_cases h : (parseAscii Q device).1.positions = []
    · simp [h]
    · have : (parseAscii Q device).1.positions.isEmpty = false := by
        simpa [List.isEmpty_iff] using h
      simp [this, h]
  · rw [← List.length_eq_zero, ← List.length_eq_zero (l := wellFormedBlocks Q _), hl]
    omega
  · intro h
    rw [he]
    have : (parseAscii Q device).1.positions.isEmpty = false := by
      simpa [List.isEmpty_iff] using h
    simp [this]

/-- C9: for every input, the buffer `STLParser::parseAscii` returns and the
buffer `STLParser::parseBinary` returns satisfy the TriangleSoupBuffer
invariant: the number of indices is divisible by 3, normals, positions and
indices have the same length, every index is smaller than the number of
positions, and `indices[i]` is `i` (reduced modulo `2^32`, so `i` itself
whenever the buffer has at most `2^32` entries). -/
theorem decoders_keep_soup_invariant (Q : QtLib F) (device : QIODevice) :
    SoupInvariant (parseAscii Q device).1 ∧ SoupInvariant (parseBinary Q device).1 :=
  ⟨soupInvariant_of_consistent
      (consistent_setHasNormals (foldl_parseAsciiLine_consistent Q _ _ consistent_empty)),
    soupInvariant_of_consistent (consistent_parseBinary Q device)⟩

end AsciiThms

/-! ### The format choice -/

theorem startsWithBytes_iff (l p : List Byte) : startsWithBytes l p = true ↔ p <+: l := by
  induction p generalizing l with
  | nil => simp [startsWithBytes]
  | cons q qs ih =>
    cases l with
    | nil => simp [startsWithBytes]
    | cons b bs =>
      simp only [startsWithBytes, Bool.and_eq_true, beq_iff_eq, ih, List.cons_prefix_cons]
      constructor
      · rintro ⟨h1, h2⟩; exact ⟨h1.symm, h2⟩
      · rintro ⟨h1, h2⟩; exact ⟨h1.symm, h2⟩

/-- Removing trailing white space keeps a leading `solid`. -/
theorem solid_prefix_rdropWhile (r : List Byte) :
    solidBytes <+: List.rdropWhile isSpaceByte (solidBytes ++ r) := by
  induction r using List.reverseRecOn with
  | nil =>
    have : List.rdropWhile isSpaceByte (solidBytes ++ []) = solidBytes := by decide
    rw [this]
  | append_singleton r x ih =>
    by_cases hx : isSpaceByte x = true
    · rw [← List.append_assoc, List.rdropWhile_concat_pos _ _ _ hx]
      exact ih
    · rw [← List.append_assoc, List.rdropWhile_concat_neg _ _ _ hx, List.append_assoc]
      exact List.prefix_append _ _

/-- The test of the code, on the header trimmed at both ends, is the test of
the spec, on the header trimmed at its start. -/
theorem headerLooksAscii_eq (header : List Byte) :
    headerLooksAscii header = startsWithBytes (header.dropWhile isSpaceByte) solidBytes := by
  rw [Bool.eq_iff_iff, headerLooksAscii, startsWithBytes_iff, startsWithBytes_iff]
  have htrim : trimmedBytes header
      = List.rdropWhile isSpaceByte (header.dropWhile isSpaceByte) := rfl
  rw [htrim]
  constructor
  · intro h
    exact h.trans (List.rdropWhile_prefix _ _)
  · rintro ⟨r, hr⟩
    rw [← hr]
    exact solid_prefix_rdropWhile r

theorem containsNull_iff (header : List Byte) :
    containsNull header = true ↔ (0 : Byte) ∈ header := by
  unfold containsNull
  rw [List.any_eq_true]
  constructor
  · rintro ⟨x, hx, h⟩
    rw [beq_iff_eq] at h
    rw [← h]
    exact hx
  · intro h
    exact ⟨0, h, by simp⟩

/-- What `STLParser::parse` does on a file it could open, by the format the
spec's rule gives to the first 512 bytes. -/
theorem parse_by_specFormat {F : Type} [LinearOrderedField F] (Q : QtLib F) (path : String)
    (bytes : List Byte) :
    parse Q path (some bytes)
      = match specFormat (bytes.take 512) with
        | Format.Ascii => parseAscii Q (QIODevice.openedFile bytes)
        | Format.Binary => parseBinary Q (QIODevice.openedFile bytes) := by
  unfold parse specFormat
  dsimp only
  rw [headerLooksAscii_eq]
  by_cases h1 : startsWithBytes ((bytes.take 512).dropWhile isSpaceByte) solidBytes = true
  · by_cases h2 : (0 : Byte) ∈ bytes.take 512
    · have h3 : containsNull (bytes.take 512) = true := (containsNull_iff _).mpr h2
      simp [h1, h2, h3]
    · have h3 : containsNull (bytes.take 512) = false := by
        rw [← Bool.not_eq_true, containsNull_iff]
        exact h2
      simp [h1, h2, h3]
  · simp [h1]

/-- C8: on every file content, `STLParser::parse` runs the ASCII decoder when
the first (up to) 512 bytes, trimmed of leading white space, start with the
literal `solid` and hold no null byte, and the binary decoder otherwise; two
contents with the same first 512 bytes get the same decoder. -/
theorem parse_chooses_decoder {F : Type} [LinearOrderedField F] (Q : QtLib F) (path : String)
    (bytes : List Byte) :
    (parse Q path (some bytes)
      = match specFormat (bytes.take 512) with
        | Format.Ascii => parseAscii Q (QIODevice.openedFile bytes)
        | Format.Binary => parseBinary Q (QIODevice.openedFile bytes)) ∧
    (∀ other : List Byte, other.take 512 = bytes.take 512 →
      (parse Q path (some bytes) = parseAscii Q (QIODevice.openedFile bytes) ∧
        parse Q path (some other) = parseAscii Q (QIODevice.openedFile other)) ∨
      (parse Q path (some bytes) = parseBinary Q (QIODevice.openedFile bytes) ∧
        parse Q path (some other) = parseBinary Q (QIODevice.openedFile other))) := by
  refine ⟨parse_by_specFormat Q path bytes, ?_⟩
  intro other h
  rw [parse_by_specFormat Q path bytes, parse_by_specFormat Q path other, h]
  cases specFormat (bytes.take 512)
  · exact Or.inl ⟨rfl, rfl⟩
  · exact Or.inr ⟨rfl, rfl⟩

/-! ### The mesh -/

section MeshThms

variable {F : Type} [LinearOrderedField F]

theorem length_resize (l : List (QVector3D F)) (n : Nat) : (resize l n).length = n := by
  simp only [resize, List.length_append, List.length_take, List.length_replicate]
  omega

/-- After `Mesh::computeSmoothNormals` the normals are the smooth normals of
the positions and indices, whatever the normals were before. -/
theorem computeSmoothNormals_normals (Q : QtLib F) (m : Mesh F) :
    (m.computeSmoothNormals Q).m_normals = smoothNormals Q m.m_positions m.m_indices := by
  unfold Mesh.computeSmoothNormals smoothNormals
  dsimp only
  rw [List.map_const', length_resize]

theorem updateBounds_fields (m : Mesh F) :
    m.updateBounds.m_positions = m.m_positions ∧ m.updateBounds.m_indices = m.m_indices ∧
      m.updateBounds.m_normals = m.m_normals ∧
      m.updateBounds.m_originalNormals = m.m_originalNormals ∧
      m.updateBounds.m_hasSourceNormals = m.m_hasSourceNormals := by
  unfold Mesh.updateBounds
  split <;> exact ⟨rfl, rfl, rfl, rfl, rfl⟩

/-- The members of the mesh after `Mesh::setData`. -/
theorem setData_fields (Q : QtLib F) (m : Mesh F) (P Nrm : List (QVector3D F))
    (I : List Nat) (h : Bool) :
    (m.setData Q P Nrm I h).m_positions = P ∧
      (m.setData Q P Nrm I h).m_indices = I ∧
      (m.setData Q P Nrm I h).m_originalNormals = Nrm ∧
      (m.setData Q P Nrm I h).m_hasSourceNormals = (h && Nrm.length == P.length) ∧
      (m.setData Q P Nrm I h).m_normals
        = (if (m.setData Q P Nrm I h).m_hasSourceNormals = true then Nrm
            else smoothNormals Q P I) := by
  unfold Mesh.setData
  dsimp only
  rw [(updateBounds_fields _).1, (updateBounds_fields _).2.1, (updateBounds_fields _).2.2.1,
    (updateBounds_fields _).2.2.2.1, (updateBounds_fields _).2.2.2.2]
  by_cases hs : (h && Nrm.length == P.length) = true
  · have hlen : Nrm.length = P.length := by
      simp only [Bool.and_eq_true, beq_iff_eq] at hs
      exact hs.2
    rw [hs]
    simp [hlen]
  · have hs2 : (h && Nrm.length == P.length) = false := by simpa using hs
    rw [hs2]
    simp only [Bool.not_false, if_true]
    refine ⟨rfl, rfl, rfl, rfl, ?_⟩
    rw [computeSmoothNormals_normals]
    simp [Mesh.computeSmoothNormals]

/-- C10: after `Mesh::setData(P, Nrm, I, h)` the positions are `P`, the
indices `I`, the stored source normals `Nrm`, `hasSourceNormals` is
`h && Nrm.length == P.length`, and the active normals are `Nrm` when
`hasSourceNormals` is true and the smooth normals computed from `P` and `I`
otherwise. -/
theorem setData_spec (Q : QtLib F) (m : Mesh F) (P Nrm : List (QVector3D F))
    (I : List Nat) (h : Bool) :
    (m.setData Q P Nrm I h).m_positions = P ∧
      (m.setData Q P Nrm I h).m_indices = I ∧
      (m.setData Q P Nrm I h).m_originalNormals = Nrm ∧
      (m.setData Q P Nrm I h).m_hasSourceNormals = (h && Nrm.length == P.length) ∧
      (m.setData Q P Nrm I h).m_normals
        = (if (m.setData Q P Nrm I h).m_hasSourceNormals = true then Nrm
            else smoothNormals Q P I) :=
  setData_fields Q m P Nrm I h

theorem length_addAt (l : List (QVector3D F)) (i : Nat) (n : QVector3D F) :
    (addAt l i n).length = l.length := by
  induction l generalizing i with
  | nil => rfl
  | cons v vs ih =>
    cases i with
    | zero => rfl
    | succ i => simp [addAt, ih]

theorem length_accumulateFaces (Q : QtLib F) (P : List (QVector3D F)) :
    ∀ (I : List Nat) (normals : List (QVector3D F)),
      (accumulateFaces Q P I normals).length = normals.length
  | [], _ => by simp [accumulateFaces]
  | [_], _ => by simp [accumulateFaces]
  | [_, _], _ => by simp [accumulateFaces]
  | ia :: ib :: ic :: rest, normals => by
    unfold accumulateFaces
    split_ifs
    · exact length_accumulateFaces Q P rest normals
    · rw [length_accumulateFaces Q P rest _, length_addAt, length_addAt, length_addAt]

theorem length_smoothNormals (Q : QtLib F) (P : List (QVector3D F)) (I : List Nat) :
    (smoothNormals Q P I).length = P.length := by
  simp [smoothNormals, length_accumulateFaces]

/-- What `Mesh::computeSmoothNormals` returns, field by field. -/
theorem computeSmoothNormals_eq (Q : QtLib F) (m : Mesh F) :
    m.computeSmoothNormals Q
      = { m_positions := m.m_positions, m_indices := m.m_indices,
          m_normals := smoothNormals Q m.m_positions m.m_indices,
          m_originalNormals := m.m_originalNormals,
          m_hasSourceNormals := m.m_hasSourceNormals, m_uploaded := false,
          m_minBounds := m.m_minBounds, m_maxBounds := m.m_maxBounds } := by
  have h := computeSmoothNormals_normals Q m
  unfold Mesh.computeSmoothNormals at h ⊢
  dsimp only at h ⊢
  rw [h]

/-- After `Mesh::setData` there are as many normals as positions. -/
theorem setData_normals_length (Q : QtLib F) (m : Mesh F) (P Nrm : List (QVector3D F))
    (I : List Nat) (h : Bool) :
    (m.setData Q P Nrm I h).m_normals.length = (m.setData Q P Nrm I h).m_positions.length := by
  obtain ⟨h1, _, _, h4, h5⟩ := setData_fields Q m P Nrm I h
  rw [h5, h1]
  by_cases hs : (m.setData Q P Nrm I h).m_hasSourceNormals = true
  · rw [if_pos hs]
    rw [h4] at hs
    simp only [Bool.and_eq_true, beq_iff_eq] at hs
    exact hs.2
  · rw [if_neg hs]
    exact length_smoothNormals Q P I

/-- After `Mesh::restoreOriginalNormals` there are as many normals as
positions, when the normals were empty or as many as the positions before. -/
theorem restoreOriginalNormals_normals_length (Q : QtLib F) (m : Mesh F)
    (h : m.m_normals = [] ∨ m.m_normals.length = m.m_positions.length) :
    (m.restoreOriginalNormals Q).m_normals.length
      = (m.restoreOriginalNormals Q).m_positions.length := by
  unfold Mesh.restoreOriginalNormals
  dsimp only
  by_cases hA : (!m.m_originalNormals.isEmpty
      && m.m_originalNormals.length == m.m_positions.length) = true
  · rw [if_pos hA]
    simp only [Bool.and_eq_true, beq_iff_eq] at hA
    exact hA.2
  · rw [if_neg hA]
    by_cases hB : m.m_normals.isEmpty = true
    · rw [if_pos hB, computeSmoothNormals_eq]
      exact length_smoothNormals Q _ _
    · rw [if_neg hB]
      rcases h with h | h
      · rw [h] at hB
        simp at hB
      · exact h

/-- Every call keeps the number of normals equal to the number of positions. -/
theorem apply_normals_length (Q : QtLib F) (m : Mesh F) (op : MeshOp F)
    (h : m.m_normals.length = m.m_positions.length) :
    (m.apply Q op).m_normals.length = (m.apply Q op).m_positions.length := by
  cases op with
  | setData P Nrm I hn => exact setData_normals_length Q m P Nrm I hn
  | computeSmoothNormals =>
    show (m.computeSmoothNormals Q).m_normals.length = (m.computeSmoothNormals Q).m_positions.length
    rw [computeSmoothNormals_eq]
    exact length_smoothNormals Q _ _
  | restoreOriginalNormals => exact restoreOriginalNormals_normals_length Q m (Or.inr h)
  | clear => rfl

theorem run_normals_length (Q : QtLib F) (ops : List (MeshOp F)) :
    ∀ m : Mesh F, m.m_normals.length = m.m_positions.length →
      (m.run Q ops).m_normals.length = (m.run Q ops).m_positions.length := by
  induction ops with
  | nil => intro m h; exact h
  | cons op ops ih => intro m h; exact ih _ (apply_normals_length Q m op h)

/-- C11: starting from a newly constructed `Mesh`, after every sequence of
calls to `setData`, `computeSmoothNormals`, `restoreOriginalNormals` and
`clear`, with arbitrary arguments, there are as many normals as positions. -/
theorem mesh_normals_length_invariant (Q : QtLib F) (ops : List (MeshOp F)) :
    ((Mesh.new : Mesh F).run Q ops).m_normals.length
      = ((Mesh.new : Mesh F).run Q ops).m_positions.length :=
  run_normals_length Q ops Mesh.new rfl

theorem qMin_le_left (a b : F) : qMin a b ≤ a := by
  unfold qMin; split_ifs with h
  · exact le_refl a
  · exact not_lt.mp h

theorem qMin_le_right (a b : F) : qMin a b ≤ b := by
  unfold qMin; split_ifs with h
  · exact le_of_lt h
  · exact le_refl b

theorem le_qMax_left (a b : F) : a ≤ qMax a b := by
  unfold qMax; split_ifs with h
  · exact le_of_lt h
  · exact le_refl a

theorem le_qMax_right (a b : F) : b ≤ qMax a b := by
  unfold qMax; split_ifs with h
  · exact le_refl b
  · exact not_lt.mp h

/-- The box `lo`..`hi` holds the point `p`, axis by axis. -/
theorem foldl_boundsStep (ps : List (QVector3D F)) :
    ∀ acc : QVector3D F × QVector3D F,
      ((ps.foldl boundsStep acc).1.x ≤ acc.1.x ∧ (ps.foldl boundsStep acc).1.y ≤ acc.1.y ∧
        (ps.foldl boundsStep acc).1.z ≤ acc.1.z ∧ acc.2.x ≤ (ps.foldl boundsStep acc).2.x ∧
        acc.2.y ≤ (ps.foldl boundsStep acc).2.y ∧ acc.2.z ≤ (ps.foldl boundsStep acc).2.z) ∧
      ∀ p ∈ ps,
        (ps.foldl boundsStep acc).1.x ≤ p.x ∧ (ps.foldl boundsStep acc).1.y ≤ p.y ∧
        (ps.foldl boundsStep acc).1.z ≤ p.z ∧ p.x ≤ (ps.foldl boundsStep acc).2.x ∧
        p.y ≤ (ps.foldl boundsStep acc).2.y ∧ p.z ≤ (ps.foldl boundsStep acc).2.z := by
  induction ps with
  | nil =>
    intro acc
    exact ⟨⟨le_refl _, le_refl _, le_refl _, le_refl _, le_refl _, le_refl _⟩,
      fun p hp => absurd hp (List.not_mem_nil p)⟩
  | cons q qs ih =>
    intro acc
    obtain ⟨⟨a1, a2, a3, a4, a5, a6⟩, hmem⟩ := ih (boundsStep acc q)
    rw [List.foldl_cons]
    refine ⟨⟨a1.trans (qMin_le_left _ _), a2.trans (qMin_le_left _ _),
      a3.trans (qMin_le_left _ _), (le_qMax_left _ _).trans a4, (le_qMax_left _ _).trans a5,
      (le_qMax_left _ _).trans a6⟩, ?_⟩
    intro p hp
    rcases List.mem_cons.mp hp with rfl | hp
    · exact ⟨a1.trans (qMin_le_right _ _), a2.trans (qMin_le_right _ _),
        a3.trans (qMin_le_right _ _), (le_qMax_right _ _).trans a4,
        (le_qMax_right _ _).trans a5, (le_qMax_right _ _).trans a6⟩
    · exact hmem p hp

/-- After `Mesh::updateBounds` on a mesh with positions, the bounds hold every
position. -/
theorem updateBounds_contains (m : Mesh F) (p : QVector3D F) (hp : p ∈ m.m_positions) :
    m.updateBounds.m_minBounds.x ≤ p.x ∧ m.updateBounds.m_minBounds.y ≤ p.y ∧
      m.updateBounds.m_minBounds.z ≤ p.z ∧ p.x ≤ m.updateBounds.m_maxBounds.x ∧
      p.y ≤ m.updateBounds.m_maxBounds.y ∧ p.z ≤ m.updateBounds.m_maxBounds.z := by
  unfold Mesh.updateBounds
  split
  · next h => rw [h] at hp; exact absurd hp (List.not_mem_nil p)
  · next first rest h => exact (foldl_boundsStep m.m_positions (first, first)).2 p hp

/-- The bounds after `Mesh::setData` are those `Mesh::updateBounds` computes
from the positions passed. -/
theorem setData_bounds (Q : QtLib F) (m : Mesh F) (P Nrm : List (QVector3D F))
    (I : List Nat) (h : Bool) :
    ∃ m2 : Mesh F, m2.m_positions = P ∧
      (m.setData Q P Nrm I h).m_minBounds = m2.updateBounds.m_minBounds ∧
      (m.setData Q P Nrm I h).m_maxBounds = m2.updateBounds.m_maxBounds := by
  unfold Mesh.setData
  dsimp only
  refine ⟨_, ?_, rfl, rfl⟩
  split_ifs
  · rw [computeSmoothNormals_eq]
  · rfl
  · rfl

/-- The bounds of `Mesh::updateBounds` on a mesh with positions. -/
theorem updateBounds_bounds (m : Mesh F) (first : QVector3D F) (rest : List (QVector3D F))
    (h : m.m_positions = first :: rest) :
    m.updateBounds.m_minBounds = ((first :: rest).foldl boundsStep (first, first)).1 ∧
      m.updateBounds.m_maxBounds = ((first :: rest).foldl boundsStep (first, first)).2 := by
  unfold Mesh.updateBounds
  split
  · next h0 => rw [h] at h0; exact absurd h0 (List.cons_ne_nil _ _)
  · next f r hfr =>
    have e : first :: rest = f :: r := h.symm.trans hfr
    have ef : first = f := (List.cons.inj e).1
    subst ef
    dsimp only
    rw [h]
    exact ⟨rfl, rfl⟩

theorem qMin_num (a b : F) :
    qMin (FloatValue.num a) (FloatValue.num b) = FloatValue.num (qMin a b) := by
  unfold qMin
  by_cases h : a < b
  · have h2 : FloatValue.num a < FloatValue.num b := h
    rw [if_pos h, if_pos h2]
  · have h2 : ¬ (FloatValue.num a < FloatValue.num b) := h
    rw [if_neg h, if_neg h2]

theorem qMax_num (a b : F) :
    qMax (FloatValue.num a) (FloatValue.num b) = FloatValue.num (qMax a b) := by
  unfold qMax
  by_cases h : a < b
  · have h2 : FloatValue.num a < FloatValue.num b := h
    rw [if_pos h, if_pos h2]
  · have h2 : ¬ (FloatValue.num a < FloatValue.num b) := h
    rw [if_neg h, if_neg h2]

/-- On `float` values that are numbers, the loop of `Mesh::updateBounds`
computes what it computes on the numbers. -/
theorem foldl_boundsStep_asFloats (ps : List (QVector3D F)) :
    ∀ acc : QVector3D F × QVector3D F,
      (ps.map QVector3D.asFloats).foldl boundsStep (acc.1.asFloats, acc.2.asFloats)
        = ((ps.foldl boundsStep acc).1.asFloats, (ps.foldl boundsStep acc).2.asFloats) := by
  induction ps with
  | nil => intro acc; rfl
  | cons q qs ih =>
    intro acc
    rw [List.map_cons, List.foldl_cons, List.foldl_cons, ← ih (boundsStep acc q)]
    congr 1
    simp only [boundsStep, QVector3D.asFloats, qMin_num, qMax_num]

/-- C12 (amended): for every non-empty position list `P` none of whose
coordinates is NaN (the positions are numbers; as `float` values they are
`P.map asFloats`), after `Mesh::setData` with positions `P`,
`minBounds[i] ≤ p[i] ≤ maxBounds[i]` for every position `p` of `P` and every
axis `i`, hence `minBounds[i] ≤ maxBounds[i]`; and these bounds are the ones
the loop of `Mesh::updateBounds` computes with the comparisons of `float`
values. -/
theorem setData_bounds_contain (Q : QtLib F) (m : Mesh F) (P Nrm : List (QVector3D F))
    (I : List Nat) (h : Bool) (hP : P ≠ []) :
    (∀ p ∈ P,
      (m.setData Q P Nrm I h).m_minBounds.x ≤ p.x ∧ p.x ≤ (m.setData Q P Nrm I h).m_maxBounds.x ∧
      (m.setData Q P Nrm I h).m_minBounds.y ≤ p.y ∧ p.y ≤ (m.setData Q P Nrm I h).m_maxBounds.y ∧
      (m.setData Q P Nrm I h).m_minBounds.z ≤ p.z ∧ p.z ≤ (m.setData Q P Nrm I h).m_maxBounds.z) ∧
    (m.setData Q P Nrm I h).m_minBounds.x ≤ (m.setData Q P Nrm I h).m_maxBounds.x ∧
    (m.setData Q P Nrm I h).m_minBounds.y ≤ (m.setData Q P Nrm I h).m_maxBounds.y ∧
    (m.setData Q P Nrm I h).m_minBounds.z ≤ (m.setData Q P Nrm I h).m_maxBounds.z ∧
    updateBoundsLoop (P.map QVector3D.asFloats)
      = some ((m.setData Q P Nrm I h).m_minBounds.asFloats,
          (m.setData Q P Nrm I h).m_maxBounds.asFloats) := by
  obtain ⟨m2, hm2, hmin, hmax⟩ := setData_bounds Q m P Nrm I h
  rw [hmin, hmax]
  have hall : ∀ p ∈ P,
      m2.updateBounds.m_minBounds.x ≤ p.x ∧ p.x ≤ m2.updateBounds.m_maxBounds.x ∧
      m2.updateBounds.m_minBounds.y ≤ p.y ∧ p.y ≤ m2.updateBounds.m_maxBounds.y ∧
      m2.updateBounds.m_minBounds.z ≤ p.z ∧ p.z ≤ m2.updateBounds.m_maxBounds.z := by
    intro p hp
    obtain ⟨b1, b2, b3, b4, b5, b6⟩ := updateBounds_contains m2 p (by rw [hm2]; exact hp)
    exact ⟨b1, b4, b2, b5, b3, b6⟩
  refine ⟨hall, ?_⟩
  obtain ⟨p, hp⟩ := List.exists_mem_of_ne_nil P hP
  obtain ⟨b1, b2, b3, b4, b5, b6⟩ := hall p hp
  refine ⟨b1.trans b2, b3.trans b4, b5.trans b6, ?_⟩
  cases P with
  | nil => exact absurd rfl hP
  | cons first rest =>
    obtain ⟨e1, e2⟩ := updateBounds_bounds m2 first rest hm2
    rw [e1, e2]
    have hf := foldl_boundsStep_asFloats (first :: rest) (first, first)
    simp only [updateBoundsLoop, List.map_cons]
    rw [← hf]
    rfl

/-- The three cases of `Mesh::restoreOriginalNormals`. -/
theorem restoreOriginalNormals_cases (Q : QtLib F) (m : Mesh F) :
    m.restoreOriginalNormals Q
      = (if (!m.m_originalNormals.isEmpty
            && m.m_originalNormals.length == m.m_positions.length) = true then
          { m_positions := m.m_positions, m_indices := m.m_indices,
            m_normals := m.m_originalNormals, m_originalNormals := m.m_originalNormals,
            m_hasSourceNormals := m.m_hasSourceNormals, m_uploaded := false,
            m_minBounds := m.m_minBounds, m_maxBounds := m.m_maxBounds }
        else if m.m_normals.isEmpty = true then
          { m_positions := m.m_positions, m_indices := m.m_indices,
            m_normals := smoothNormals Q m.m_positions m.m_indices,
            m_originalNormals := m.m_originalNormals,
            m_hasSourceNormals := m.m_hasSourceNormals, m_uploaded := false,
            m_minBounds := m.m_minBounds, m_maxBounds := m.m_maxBounds }
        else
          { m_positions := m.m_positions, m_indices := m.m_indices,
            m_normals := m.m_normals, m_originalNormals := m.m_originalNormals,
            m_hasSourceNormals := m.m_hasSourceNormals, m_uploaded := false,
            m_minBounds := m.m_minBounds, m_maxBounds := m.m_maxBounds }) := by
  unfold Mesh.restoreOriginalNormals
  dsimp only
  split_ifs
  · rfl
  · rw [computeSmoothNormals_eq]
  · rfl

/-- C14: for every mesh state, calling `Mesh::restoreOriginalNormals` twice in
a row leaves the same mesh (normals, positions, indices, source normals and
all other members) as calling it once. -/
theorem restoreOriginalNormals_idempotent (Q : QtLib F) (m : Mesh F) :
    (m.restoreOriginalNormals Q).restoreOriginalNormals Q = m.restoreOriginalNormals Q := by
  rw [restoreOriginalNormals_cases Q (m.restoreOriginalNormals Q),
    restoreOriginalNormals_cases Q m]
  by_cases hA : (!m.m_originalNormals.isEmpty
      && m.m_originalNormals.length == m.m_positions.length) = true
  · simp only [if_pos hA]
  · simp only [if_neg hA]
    by_cases hB : m.m_normals.isEmpty = true
    · simp only [if_pos hB, if_neg hA]
      split_ifs <;> rfl
    · simp only [if_neg hB, if_neg hA]

/-- C15 (amended): when `Mesh::restoreOriginalNormals` is called on a mesh
whose normals are empty or as many as its positions (every mesh reachable
from a new one is so), afterwards there are as many normals as positions,
and the normals are non-empty exactly when the positions are. -/
theorem restoreOriginalNormals_length (Q : QtLib F) (m : Mesh F)
    (h : m.m_normals = [] ∨ m.m_normals.length = m.m_positions.length) :
    (m.restoreOriginalNormals Q).m_normals.length
        = (m.restoreOriginalNormals Q).m_positions.length ∧
      ((m.restoreOriginalNormals Q).m_normals ≠ []
        ↔ (m.restoreOriginalNormals Q).m_positions ≠ []) := by
  have hl := restoreOriginalNormals_normals_length Q m h
  refine ⟨hl, ?_⟩
  rw [ne_eq, ne_eq, ← List.length_eq_zero, ← List.length_eq_zero, hl]

/-- C16: for every non-empty `P`, every `Nrm` with as many entries as `P` and
every `I`, after `Mesh::setData(P, Nrm, I, true)`, then
`Mesh::computeSmoothNormals`, then `Mesh::restoreOriginalNormals`, the normals
are `Nrm` again, and the positions and indices are still `P` and `I`. -/
theorem restore_after_recompute (Q : QtLib F) (m : Mesh F) (P Nrm : List (QVector3D F))
    (I : List Nat) (hP : P ≠ []) (hlen : Nrm.length = P.length) :
    (((m.setData Q P Nrm I true).computeSmoothNormals Q).restoreOriginalNormals Q).m_normals
        = Nrm ∧
      (((m.setData Q P Nrm I true).computeSmoothNormals Q).restoreOriginalNormals
        Q).m_positions = P ∧
      (((m.setData Q P Nrm I true).computeSmoothNormals Q).restoreOriginalNormals
        Q).m_indices = I := by
  obtain ⟨h1, h2, h3, _, _⟩ := setData_fields Q m P Nrm I true
  have hN : Nrm ≠ [] := by
    intro h0
    rw [h0] at hlen
    exact hP (List.length_eq_zero.mp hlen.symm)
  have hA : (!Nrm.isEmpty && Nrm.length == P.length) = true := by
    cases Nrm with
    | nil => exact absurd rfl hN
    | cons a as => simpa using hlen
  rw [restoreOriginalNormals_cases, computeSmoothNormals_eq]
  dsimp only
  rw [h1, h2, h3, if_pos hA]
  exact ⟨rfl, rfl, rfl⟩

/-- A vector whose squared length is fuzzily `0` is left as it is by
`QVector3D::normalize`. -/
theorem normalize_of_fuzzy_zero (Q : QtLib F) (v : QVector3D F)
    (h : qFuzzyIsNull v.lengthSquared = true) : v.normalize Q = v := by
  simp [QVector3D.normalize, h]

/-- The squared length of a finished normal is within `10⁻¹²` of `1`, when the
sum it is made from is null or has a squared length above `10⁻¹²` whose
square root is exact. -/
theorem finishNormal_lengthSquared (Q : QtLib F) (S : QVector3D F)
    (hS : S.isNull = true ∨ 1 / 1000000000000 < S.lengthSquared)
    (hsqrt : Q.sqrt S.lengthSquared * Q.sqrt S.lengthSquared = S.lengthSquared) :
    |(finishNormal Q S).lengthSquared - 1| ≤ 1 / 1000000000000 := by
  have hpos : (0 : F) ≤ 1 / 1000000000000 := by positivity
  unfold finishNormal
  by_cases hnull : S.isNull = true
  · simp only [hnull, Bool.not_true, Bool.false_eq_true, if_false]
    simp only [QVector3D.lengthSquared, mul_zero, mul_one, zero_add, add_zero, sub_self,
      abs_zero]
    exact hpos
  · have hbig : 1 / 1000000000000 < S.lengthSquared := by
      rcases hS with h | h
      · exact absurd h hnull
      · exact h
    simp only [hnull, Bool.not_false, if_true]
    unfold QVector3D.normalize
    dsimp only
    by_cases h1 : qFuzzyIsNull (S.lengthSquared - 1) = true
    · simp only [h1, Bool.true_or, if_true]
      simpa [qFuzzyIsNull] using h1
    · have h0 : qFuzzyIsNull S.lengthSquared = false := by
        simp only [qFuzzyIsNull, decide_eq_false_iff_not, not_le]
        exact lt_of_lt_of_le hbig (le_abs_self _)
      simp only [h1, h0, Bool.or_self, Bool.false_eq_true, if_false]
      have hlpos : (0 : F) < S.lengthSquared := lt_of_le_of_lt hpos hbig
      have hl : Q.sqrt S.lengthSquared ≠ 0 := by
        intro hz
        rw [hz, mul_zero] at hsqrt
        exact (ne_of_gt hlpos) hsqrt.symm
      have hone : (⟨S.x / Q.sqrt S.lengthSquared, S.y / Q.sqrt S.lengthSquared,
          S.z / Q.sqrt S.lengthSquared⟩ : QVector3D F).lengthSquared = 1 := by
        have e : (⟨S.x / Q.sqrt S.lengthSquared, S.y / Q.sqrt S.lengthSquared,
            S.z / Q.sqrt S.lengthSquared⟩ : QVector3D F).lengthSquared
            = S.lengthSquared / (Q.sqrt S.lengthSquared * Q.sqrt S.lengthSquared) := by
          simp only [QVector3D.lengthSquared]
          field_simp
        rw [e, hsqrt]
        exact div_self (ne_of_gt hlpos)
      rw [hone, sub_self, abs_zero]
      exact hpos

/-- C13 (amended): after `Mesh::computeSmoothNormals`, the normal of a vertex
has a squared length within `10⁻¹²` of `1` (the tolerance of
`QVector3D::normalize`), provided the face normals summed at that vertex are
null or have a squared length above `10⁻¹²`, with an exact square root. -/
theorem computeSmoothNormals_unit (Q : QtLib F) (m : Mesh F) (i : Nat) (S : QVector3D F)
    (hi : (accumulateFaces Q m.m_positions m.m_indices
      (List.replicate m.m_positions.length QVector3D.zero))[i]? = some S)
    (hS : S.isNull = true ∨ 1 / 1000000000000 < S.lengthSquared)
    (hsqrt : Q.sqrt S.lengthSquared * Q.sqrt S.lengthSquared = S.lengthSquared) :
    ∃ n, (m.computeSmoothNormals Q).m_normals[i]? = some n ∧
      |n.lengthSquared - 1| ≤ 1 / 1000000000000 := by
  refine ⟨finishNormal Q S, ?_, finishNormal_lengthSquared Q S hS hsqrt⟩
  rw [computeSmoothNormals_normals]
  unfold smoothNormals
  rw [List.getElem?_map, hi]
  rfl

end MeshThms

theorem tiny_cross :
    QVector3D.crossProduct ((⟨1 / 10000, 0, 0⟩ : QVector3D ℚ).sub ⟨0, 0, 0⟩)
      ((⟨0, 1 / 10000, 0⟩ : QVector3D ℚ).sub ⟨0, 0, 0⟩) = ⟨0, 0, 1 / 100000000⟩ := by
  simp only [QVector3D.crossProduct, QVector3D.sub]
  norm_num

theorem tiny_face :
    normalizeIfNonNull sampleLib (⟨0, 0, 1 / 100000000⟩ : QVector3D ℚ)
      = ⟨0, 0, 1 / 100000000⟩ := by
  have hz : qFuzzyIsNull (⟨0, 0, 1 / 100000000⟩ : QVector3D ℚ).lengthSquared = true := by
    simp only [qFuzzyIsNull, QVector3D.lengthSquared, decide_eq_true_eq]
    rw [abs_of_nonneg (by norm_num)]
    norm_num
  simp only [normalizeIfNonNull, normalize_of_fuzzy_zero sampleLib _ hz]
  simp

theorem tiny_finish :
    finishNormal sampleLib (⟨0, 0, 1 / 100000000⟩ : QVector3D ℚ)
      = ⟨0, 0, 1 / 100000000⟩ := by
  have h := tiny_face
  simp only [normalizeIfNonNull] at h
  simp only [finishNormal]
  split_ifs at h ⊢ with hn
  · exact h
  · exfalso
    simp [QVector3D.isNull, qIsNull] at hn

/-- C13 (as stated, refuted): the mesh `tinyMesh` has one in-range triangle of
non-zero area (the cross product of its edges is not null), yet after
`Mesh::computeSmoothNormals` the normal of each of its vertices is
`(0, 0, 10⁻⁸)`, whose squared length is not `1`. -/
theorem computeSmoothNormals_tiny_not_unit :
    (QVector3D.crossProduct ((⟨1 / 10000, 0, 0⟩ : QVector3D ℚ).sub ⟨0, 0, 0⟩)
        ((⟨0, 1 / 10000, 0⟩ : QVector3D ℚ).sub ⟨0, 0, 0⟩)).isNull = false ∧
      (tinyMesh.computeSmoothNormals sampleLib).m_normals
        = [⟨0, 0, 1 / 100000000⟩, ⟨0, 0, 1 / 100000000⟩, ⟨0, 0, 1 / 100000000⟩] ∧
      (⟨0, 0, 1 / 100000000⟩ : QVector3D ℚ).lengthSquared ≠ 1 := by
  refine ⟨?_, ?_, ?_⟩
  · rw [tiny_cross]
    simp [QVector3D.isNull, qIsNull]
  · rw [computeSmoothNormals_normals]
    have h1 : accumulateFaces sampleLib tinyMesh.m_positions tinyMesh.m_indices
        (List.replicate tinyMesh.m_positions.length QVector3D.zero)
        = addAt (addAt (addAt [QVector3D.zero, QVector3D.zero, QVector3D.zero] 0
            (normalizeIfNonNull sampleLib (QVector3D.crossProduct
              ((⟨1 / 10000, 0, 0⟩ : QVector3D ℚ).sub ⟨0, 0, 0⟩)
              ((⟨0, 1 / 10000, 0⟩ : QVector3D ℚ).sub ⟨0, 0, 0⟩)))) 1
            (normalizeIfNonNull sampleLib (QVector3D.crossProduct
              ((⟨1 / 10000, 0, 0⟩ : QVector3D ℚ).sub ⟨0, 0, 0⟩)
              ((⟨0, 1 / 10000, 0⟩ : QVector3D ℚ).sub ⟨0, 0, 0⟩)))) 2
            (normalizeIfNonNull sampleLib (QVector3D.crossProduct
              ((⟨1 / 10000, 0, 0⟩ : QVector3D ℚ).sub ⟨0, 0, 0⟩)
              ((⟨0, 1 / 10000, 0⟩ : QVector3D ℚ).sub ⟨0, 0, 0⟩))) := by
      rfl
    unfold smoothNormals
    rw [h1, tiny_cross, tiny_face]
    simp only [addAt, QVector3D.add, QVector3D.zero, zero_add, List.map_cons, List.map_nil,
      tiny_finish]
  · simp only [QVector3D.lengthSquared]
    norm_num

/-- The witness of `computeSmoothNormals_unit`: the first vertex of the
triangle `unitPositions`, where the sum of face normals is `(0, 0, 1)`. -/
theorem computeSmoothNormals_unit_witness :
    ∃ n, (unitMesh.computeSmoothNormals sampleLib).m_normals[0]? = some n ∧
      |n.lengthSquared - 1| ≤ 1 / 1000000000000 := by
  have hcross : QVector3D.crossProduct ((⟨1, 0, 0⟩ : QVector3D ℚ).sub ⟨0, 0, 0⟩)
      ((⟨0, 1, 0⟩ : QVector3D ℚ).sub ⟨0, 0, 0⟩) = ⟨0, 0, 1⟩ := by
    simp only [QVector3D.crossProduct, QVector3D.sub]
    norm_num
  have hface : normalizeIfNonNull sampleLib (⟨0, 0, 1⟩ : QVector3D ℚ) = ⟨0, 0, 1⟩ := by
    simp [normalizeIfNonNull,
      normalize_of_lengthSquared_one sampleLib (⟨0, 0, 1⟩ : QVector3D ℚ)
        (by simp [QVector3D.lengthSquared])]
  have h1 : accumulateFaces sampleLib unitMesh.m_positions unitMesh.m_indices
      (List.replicate unitMesh.m_positions.length QVector3D.zero)
      = addAt (addAt (addAt [QVector3D.zero, QVector3D.zero, QVector3D.zero] 0
          (normalizeIfNonNull sampleLib (QVector3D.crossProduct
            ((⟨1, 0, 0⟩ : QVector3D ℚ).sub ⟨0, 0, 0⟩)
            ((⟨0, 1, 0⟩ : QVector3D ℚ).sub ⟨0, 0, 0⟩)))) 1
          (normalizeIfNonNull sampleLib (QVector3D.crossProduct
            ((⟨1, 0, 0⟩ : QVector3D ℚ).sub ⟨0, 0, 0⟩)
            ((⟨0, 1, 0⟩ : QVector3D ℚ).sub ⟨0, 0, 0⟩)))) 2
          (normalizeIfNonNull sampleLib (QVector3D.crossProduct
            ((⟨1, 0, 0⟩ : QVector3D ℚ).sub ⟨0, 0, 0⟩)
            ((⟨0, 1, 0⟩ : QVector3D ℚ).sub ⟨0, 0, 0⟩))) := by
    rfl
  have hi : (accumulateFaces sampleLib unitMesh.m_positions unitMesh.m_indices
      (List.replicate unitMesh.m_positions.length QVector3D.zero))[0]?
      = some (⟨0, 0, 1⟩ : QVector3D ℚ) := by
    rw [h1, hcross, hface]
    simp [addAt, QVector3D.add, QVector3D.zero]
  have hlen : (⟨0, 0, 1⟩ : QVector3D ℚ).lengthSquared = 1 := by
    simp [QVector3D.lengthSquared]
  exact computeSmoothNormals_unit sampleLib unitMesh 0 ⟨0, 0, 1⟩ hi
    (Or.inr (by rw [hlen]; norm_num))
    (by rw [hlen]; norm_num [sampleLib])

/-- C15 (as stated, refuted): on a newly constructed mesh,
`Mesh::restoreOriginalNormals` leaves the normals empty. -/
theorem restoreOriginalNormals_new_empty :
    ((Mesh.new : Mesh ℚ).restoreOriginalNormals sampleLib).m_normals = [] := by
  decide

/-- The witness of `restoreOriginalNormals_length`: a mesh with one triangle. -/
theorem restoreOriginalNormals_length_witness :
    (sampleMesh.restoreOriginalNormals sampleLib).m_normals.length
        = (sampleMesh.restoreOriginalNormals sampleLib).m_positions.length ∧
      ((sampleMesh.restoreOriginalNormals sampleLib).m_normals ≠ []
        ↔ (sampleMesh.restoreOriginalNormals sampleLib).m_positions ≠ []) :=
  restoreOriginalNormals_length sampleLib sampleMesh (Or.inr rfl)

/-- The witness of `setData_bounds_contain`: the triangle `samplePositions`. -/
theorem setData_bounds_contain_witness :
    (∀ p ∈ samplePositions,
      (Mesh.new.setData sampleLib samplePositions [] [0, 1, 2] false).m_minBounds.x ≤ p.x ∧
      p.x ≤ (Mesh.new.setData sampleLib samplePositions [] [0, 1, 2] false).m_maxBounds.x ∧
      (Mesh.new.setData sampleLib samplePositions [] [0, 1, 2] false).m_minBounds.y ≤ p.y ∧
      p.y ≤ (Mesh.new.setData sampleLib samplePositions [] [0, 1, 2] false).m_maxBounds.y ∧
      (Mesh.new.setData sampleLib samplePositions [] [0, 1, 2] false).m_minBounds.z ≤ p.z ∧
      p.z ≤ (Mesh.new.setData sampleLib samplePositions [] [0, 1, 2] false).m_maxBounds.z) ∧
    (Mesh.new.setData sampleLib samplePositions [] [0, 1, 2] false).m_minBounds.x
      ≤ (Mesh.new.setData sampleLib samplePositions [] [0, 1, 2] false).m_maxBounds.x ∧
    (Mesh.new.setData sampleLib samplePositions [] [0, 1, 2] false).m_minBounds.y
      ≤ (Mesh.new.setData sampleLib samplePositions [] [0, 1, 2] false).m_maxBounds.y ∧
    (Mesh.new.setData sampleLib samplePositions [] [0, 1, 2] false).m_minBounds.z
      ≤ (Mesh.new.setData sampleLib samplePositions [] [0, 1, 2] false).m_maxBounds.z ∧
    updateBoundsLoop (samplePositions.map QVector3D.asFloats)
      = some ((Mesh.new.setData sampleLib samplePositions [] [0, 1, 2] false).m_minBounds.asFloats,
          (Mesh.new.setData sampleLib samplePositions [] [0, 1, 2] false).m_maxBounds.asFloats) :=
  setData_bounds_contain sampleLib Mesh.new samplePositions [] [0, 1, 2] false (by decide)

/-- C12 (as stated, refuted): on the positions `(5, 0, 0)`, `(NaN, 0, 0)`,
`(7, 0, 0)` the loop of `Mesh::updateBounds` ends with `minBounds.x = 7`:
`qMin(5, NaN)` is NaN and `qMin(NaN, 7)` is `7`, so the running minimum `5`
is lost and the position `(5, 0, 0)` has `x` below `minBounds.x`. -/
theorem updateBounds_nan_loses_minimum :
    qMin (FloatValue.num (5 : ℚ)) FloatValue.nan = FloatValue.nan ∧
      qMin FloatValue.nan (FloatValue.num (7 : ℚ)) = FloatValue.num 7 ∧
      updateBoundsLoop nanPositions
        = some (⟨FloatValue.num 7, FloatValue.num 0, FloatValue.num 0⟩,
            ⟨FloatValue.num 7, FloatValue.num 0, FloatValue.num 0⟩) ∧
      (⟨FloatValue.num 5, FloatValue.num 0, FloatValue.num 0⟩ : QVector3D (FloatValue ℚ))
        ∈ nanPositions ∧
      FloatValue.num (5 : ℚ) < FloatValue.num 7 := by
  decide

/-- The witness of `restore_after_recompute`: the triangle `samplePositions`
with the normals `sampleNormals`. -/
theorem restore_after_recompute_witness :
    (((Mesh.new.setData sampleLib samplePositions sampleNormals [0, 1, 2]
        true).computeSmoothNormals sampleLib).restoreOriginalNormals sampleLib).m_normals
        = sampleNormals ∧
      (((Mesh.new.setData sampleLib samplePositions sampleNormals [0, 1, 2]
        true).computeSmoothNormals sampleLib).restoreOriginalNormals sampleLib).m_positions
        = samplePositions ∧
      (((Mesh.new.setData sampleLib samplePositions sampleNormals [0, 1, 2]
        true).computeSmoothNormals sampleLib).restoreOriginalNormals sampleLib).m_indices
        = [0, 1, 2] :=
  restore_after_recompute sampleLib Mesh.new samplePositions sampleNormals [0, 1, 2]
    (by decide) rfl

/-! ### The camera -/

section CameraThms

variable {F : Type} [LinearOrderedField F]

theorem one_le_qMax_left (a : F) : 1 ≤ qMax 1 a := le_qMax_left 1 a

theorem one_le_qMax_right (a : F) : 1 ≤ qMax a 1 := le_qMax_right a 1

/-- What a call does to the distance: `dolly`, `focus` and `setDistance` set
it to a value that is at least `1`, every other call leaves it as it is. -/
theorem apply_distance (Q : QtLib F) (T : QtTrig F) (c : Camera F) (op : CameraOp F) :
    1 ≤ (c.apply Q T op).m_distance ∨ (c.apply Q T op).m_distance = c.m_distance := by
  cases op with
  | setPerspective fovY aspect nearPlane farPlane => exact Or.inr rfl
  | resize width height => exact Or.inr rfl
  | orbit deltaYawDeg deltaPitchDeg => exact Or.inr rfl
  | pan delta => exact Or.inr rfl
  | dolly delta => exact Or.inl (one_le_qMax_left _)
  | focus center radius => exact Or.inl (one_le_qMax_right _)
  | setTarget target => exact Or.inr rfl
  | setDistance distance => exact Or.inl (one_le_qMax_left _)
  | enableFlyMode enabled => exact Or.inr rfl
  | addFlyMovement movement => exact Or.inr rfl

theorem run_distance (Q : QtLib F) (T : QtTrig F) (ops : List (CameraOp F)) :
    ∀ c : Camera F, 1 ≤ c.m_distance → 1 ≤ (c.run Q T ops).m_distance := by
  induction ops with
  | nil => intro c h; exact h
  | cons op ops ih =>
    intro c h
    apply ih
    rcases apply_distance Q T c op with h1 | h1
    · exact h1
    · rw [h1]; exact h

/-- C17: starting from a default-constructed `Camera` (distance `250`), after
every finite sequence of calls to `dolly`, `focus`, `setDistance`, `orbit`,
`pan`, `addFlyMovement`, `setTarget`, `resize`, `enableFlyMode` (and
`setPerspective`) with arbitrary arguments, the distance is at least `1`. -/
theorem camera_distance_invariant (Q : QtLib F) (T : QtTrig F) (ops : List (CameraOp F)) :
    1 ≤ ((Camera.new : Camera F).run Q T ops).m_distance :=
  run_distance Q T ops Camera.new (by norm_num [Camera.new])

/-- The pitch after `Camera::clampPitch` lies between `-89` and `89`, and is
the pitch before clamped to that range. -/
theorem clampPitch_pitch (c : Camera F) :
    -89 ≤ c.clampPitch.m_pitch ∧ c.clampPitch.m_pitch ≤ 89 ∧
      c.clampPitch.m_pitch = max (-89) (min 89 c.m_pitch) ∧ c.clampPitch.m_yaw = c.m_yaw := by
  unfold Camera.clampPitch
  dsimp only
  by_cases h1 : c.m_pitch > 89
  · have h2 : ¬ ((89 : F) < -89) := by norm_num
    rw [if_pos h1, if_neg h2]
    refine ⟨by norm_num, le_refl _, ?_, rfl⟩
    rw [min_eq_left (le_of_lt h1), max_eq_right (by norm_num)]
  · rw [if_neg h1]
    have h1' : c.m_pitch ≤ 89 := not_lt.mp h1
    by_cases h3 : c.m_pitch < -89
    · rw [if_pos h3]
      refine ⟨le_refl _, by norm_num, ?_, rfl⟩
      rw [min_eq_right h1', max_eq_left (le_of_lt h3)]
    · rw [if_neg h3]
      have h3' : -89 ≤ c.m_pitch := not_lt.mp h3
      refine ⟨h3', h1', ?_, rfl⟩
      rw [min_eq_right h1', max_eq_right h3']

/-- What a call does to the pitch: `orbit` leaves it between `-89` and `89`,
every other call leaves it as it is. -/
theorem apply_pitch (Q : QtLib F) (T : QtTrig F) (c : Camera F) (op : CameraOp F) :
    (-89 ≤ (c.apply Q T op).m_pitch ∧ (c.apply Q T op).m_pitch ≤ 89) ∨
      (c.apply Q T op).m_pitch = c.m_pitch := by
  cases op with
  | setPerspective fovY aspect nearPlane farPlane => exact Or.inr rfl
  | resize width height => exact Or.inr rfl
  | orbit deltaYawDeg deltaPitchDeg =>
    exact Or.inl ⟨(clampPitch_pitch _).1, (clampPitch_pitch _).2.1⟩
  | pan delta => exact Or.inr rfl
  | dolly delta => exact Or.inr rfl
  | focus center radius => exact Or.inr rfl
  | setTarget target => exact Or.inr rfl
  | setDistance distance => exact Or.inr rfl
  | enableFlyMode enabled => exact Or.inr rfl
  | addFlyMovement movement => exact Or.inr rfl

theorem run_pitch (Q : QtLib F) (T : QtTrig F) (ops : List (CameraOp F)) :
    ∀ c : Camera F, (-89 ≤ c.m_pitch ∧ c.m_pitch ≤ 89) →
      -89 ≤ (c.run Q T ops).m_pitch ∧ (c.run Q T ops).m_pitch ≤ 89 := by
  induction ops with
  | nil => intro c h; exact h
  | cons op ops ih =>
    intro c h
    apply ih
    rcases apply_pitch Q T c op with h1 | h1
    · exact h1
    · rw [h1]; exact h

/-- C18: starting from a default-constructed `Camera` (pitch `-30`), after
every finite sequence of `orbit` calls interleaved with any other camera
mutators, the pitch lies in `[-89, 89]`; and each `orbit(dy, dp)` sets the yaw
to `yaw + dy`, unbounded, and the pitch to `pitch + dp` clamped to `[-89, 89]`. -/
theorem camera_pitch_invariant (Q : QtLib F) (T : QtTrig F) (ops : List (CameraOp F)) :
    (-89 ≤ ((Camera.new : Camera F).run Q T ops).m_pitch ∧
      ((Camera.new : Camera F).run Q T ops).m_pitch ≤ 89) ∧
    (∀ (c : Camera F) (dy dp : F),
      (c.orbit dy dp).m_yaw = c.m_yaw + dy ∧
      (c.orbit dy dp).m_pitch = max (-89) (min 89 (c.m_pitch + dp))) := by
  refine ⟨run_pitch Q T ops Camera.new (by norm_num [Camera.new]), ?_⟩
  intro c dy dp
  exact ⟨(clampPitch_pitch _).2.2.2, (clampPitch_pitch _).2.2.1⟩

/-- A vector of squared length `1` is what `QVector3D::normalized` returns for it. -/
theorem normalized_of_lengthSquared_one (Q : QtLib F) (v : QVector3D F)
    (h : v.lengthSquared = 1) : v.normalized Q = v := by
  have hz : qFuzzyIsNull (v.lengthSquared - 1) = true := by
    rw [h]
    simp only [qFuzzyIsNull, sub_self, abs_zero, decide_eq_true_eq]
    positivity
  simp [QVector3D.normalized, hz]

/-- The local `dir` of `Camera::position` has squared length `1` when the
cosine and sine do. -/
theorem direction_lengthSquared (T : QtTrig F) (c : Camera F)
    (hpyth : ∀ x, T.cos x * T.cos x + T.sin x * T.sin x = 1) :
    (c.direction T).lengthSquared = 1 := by
  unfold Camera.direction QVector3D.lengthSquared
  dsimp only
  have hy := hpyth (qDegreesToRadians T c.m_yaw)
  have hp := hpyth (qDegreesToRadians T c.m_pitch)
  calc T.cos (qDegreesToRadians T c.m_pitch) * T.cos (qDegreesToRadians T c.m_yaw)
          * (T.cos (qDegreesToRadians T c.m_pitch) * T.cos (qDegreesToRadians T c.m_yaw))
        + T.sin (qDegreesToRadians T c.m_pitch) * T.sin (qDegreesToRadians T c.m_pitch)
        + T.cos (qDegreesToRadians T c.m_pitch) * T.sin (qDegreesToRadians T c.m_yaw)
          * (T.cos (qDegreesToRadians T c.m_pitch) * T.sin (qDegreesToRadians T c.m_yaw))
      = T.cos (qDegreesToRadians T c.m_pitch) * T.cos (qDegreesToRadians T c.m_pitch)
          * (T.cos (qDegreesToRadians T c.m_yaw) * T.cos (qDegreesToRadians T c.m_yaw)
            + T.sin (qDegreesToRadians T c.m_yaw) * T.sin (qDegreesToRadians T c.m_yaw))
        + T.sin (qDegreesToRadians T c.m_pitch) * T.sin (qDegreesToRadians T c.m_pitch) := by
        ring
    _ = 1 := by rw [hy, mul_one, hp]

/-- The eye of `Camera::position`, when the cosine and sine have squares that
sum to `1`. -/
theorem position_eq (Q : QtLib F) (T : QtTrig F) (c : Camera F)
    (hpyth : ∀ x, T.cos x * T.cos x + T.sin x * T.sin x = 1) :
    c.position Q T = c.m_target.sub ((c.direction T).scale c.m_distance) := by
  unfold Camera.position
  rw [normalized_of_lengthSquared_one Q _ (direction_lengthSquared T c hpyth)]

/-- C19: for every camera state, `Camera::position()` is
`target - distance * (cos(pitch)cos(yaw), sin(pitch), cos(pitch)sin(yaw))`
with yaw and pitch converted from degrees to radians (for a cosine and sine
whose squares sum to `1`); and with target `(0,0,0)`, distance `10`, yaw
`0`, pitch `0` (and `cos 0 = 1`, `sin 0 = 0`) it is `(-10, 0, 0)`. -/
theorem position_formula (Q : QtLib F) (T : QtTrig F) (c : Camera F)
    (hpyth : ∀ x, T.cos x * T.cos x + T.sin x * T.sin x = 1) :
    c.position Q T
        = ⟨c.m_target.x - T.cos (c.m_pitch * (T.pi / 180)) * T.cos (c.m_yaw * (T.pi / 180))
              * c.m_distance,
           c.m_target.y - T.sin (c.m_pitch * (T.pi / 180)) * c.m_distance,
           c.m_target.z - T.cos (c.m_pitch * (T.pi / 180)) * T.sin (c.m_yaw * (T.pi / 180))
              * c.m_distance⟩ ∧
      (T.cos 0 = 1 → T.sin 0 = 0 → c.m_target = ⟨0, 0, 0⟩ → c.m_distance = 10 →
        c.m_yaw = 0 → c.m_pitch = 0 → c.position Q T = ⟨-10, 0, 0⟩) := by
  have h := position_eq Q T c hpyth
  refine ⟨h, ?_⟩
  intro hc hs ht hd hyaw hpitch
  rw [h]
  simp [Camera.direction, qDegreesToRadians, QVector3D.sub, QVector3D.scale, ht, hd, hyaw,
    hpitch, hc, hs]

/-- C20 (amended): after `Camera::resize(width, height)` the aspect is `width`
divided by `height`, with a `height` of `0` replaced by `1`, so the divisor
is never zero; for every `height ≥ 0` this is `width / max(1, height)`. -/
theorem resize_aspect (c : Camera F) (width height : Int) :
    (c.resize width height).m_aspect
        = (width : F) / (((if height = 0 then 1 else height : Int)) : F) ∧
      (((if height = 0 then 1 else height : Int)) : F) ≠ 0 ∧
      (0 ≤ height → (c.resize width height).m_aspect = (width : F) / ((max 1 height : Int) : F)) := by
  refine ⟨rfl, ?_, ?_⟩
  · by_cases h : height = 0
    · simp [h]
    · simp only [if_neg h]
      exact_mod_cast h
  · intro hpos
    have e : (if height = 0 then 1 else height : Int) = max 1 height := by
      by_cases h : height = 0
      · simp [h]
      · rw [if_neg h, max_eq_right (by omega)]
    show (width : F) / (((if height = 0 then 1 else height : Int)) : F) = _
    rw [e]

end CameraThms

/-- The witness of `position_formula`: the scenario camera, with the rational
cosine and sine of `sampleTrig`, has its eye at `(-10, 0, 0)`. -/
theorem position_formula_witness :
    scenarioCamera.position sampleLib sampleTrig = ⟨-10, 0, 0⟩ := by
  have hpyth : ∀ x : ℚ, sampleTrig.cos x * sampleTrig.cos x
      + sampleTrig.sin x * sampleTrig.sin x = 1 := by
    intro x
    simp only [sampleTrig]
    generalize x / 2 = t
    have hnn : (0 : ℚ) ≤ t * t := mul_self_nonneg _
    have hpos : (1 + t * t : ℚ) ≠ 0 := by linarith
    field_simp
    ring
  exact (position_formula sampleLib sampleTrig scenarioCamera hpyth).2
    (by norm_num [sampleTrig]) (by norm_num [sampleTrig]) rfl rfl rfl rfl

/-- C20 (as stated, refuted): after `resize(4, -2)` the aspect is `-2`, not
`4 / max(1, -2) = 4`. -/
theorem resize_negative_height :
    ((Camera.new : Camera ℚ).resize 4 (-2)).m_aspect = -2 ∧
      ((Camera.new : Camera ℚ).resize 4 (-2)).m_aspect
        ≠ ((4 : Int) : ℚ) / ((max 1 (-2) : Int) : ℚ) := by
  have h : ((Camera.new : Camera ℚ).resize 4 (-2)).m_aspect = -2 := by
    show ((4 : Int) : ℚ) / (((if (-2 : Int) = 0 then 1 else -2 : Int)) : ℚ) = -2
    norm_num
  refine ⟨h, ?_⟩
  rw [h]
  norm_num

/-- The witness of `resize_aspect`: after `resize(4, 0)` the aspect is `4`. -/
theorem resize_aspect_witness :
    ((Camera.new : Camera ℚ).resize 4 0).m_aspect = ((4 : Int) : ℚ) / ((max 1 0 : Int) : ℚ) :=
  (resize_aspect (Camera.new : Camera ℚ) 4 0).2.2 (le_refl 0)

/-- The spec's ASCII scenario, for any library whose `toFloat` reads `"0"` as
`0` and `"1"` as `1` and whose codec decodes the ASCII text to itself: one
triangle with the three vertices, the normal `(0,0,1)` three times, indices
`[0,1,2]`, `hasNormals` true and no error. -/
theorem parseAscii_scenario {F : Type} [LinearOrderedField F] (Q : QtLib F)
    (hzero : Q.toFloat ['0'] = 0) (hone : Q.toFloat ['1'] = 1)
    (hcodec : Q.fromUtf8 scenarioDevice.content = scenarioText.toList) :
    parseAscii Q scenarioDevice
      = ({ positions := [⟨0, 0, 0⟩, ⟨1, 0, 0⟩, ⟨0, 1, 0⟩],
           normals := [⟨0, 0, 1⟩, ⟨0, 0, 1⟩, ⟨0, 0, 1⟩],
           indices := [0, 1, 2], hasNormals := true }, none) := by
  have hn : lineNormal Q "facet normal 0 0 1".toList = ⟨0, 0, 1⟩ := by
    show (⟨Q.toFloat ['0'], Q.toFloat ['0'], Q.toFloat ['1']⟩ : QVector3D F) = _
    rw [hzero, hone]
  have hv0 : lineVertex Q "vertex 0 0 0".toList = ⟨0, 0, 0⟩ := by
    show (⟨Q.toFloat ['0'], Q.toFloat ['0'], Q.toFloat ['0']⟩ : QVector3D F) = _
    rw [hzero]
  have hv1 : lineVertex Q "vertex 1 0 0".toList = ⟨1, 0, 0⟩ := by
    show (⟨Q.toFloat ['1'], Q.toFloat ['0'], Q.toFloat ['0']⟩ : QVector3D F) = _
    rw [hzero, hone]
  have hv2 : lineVertex Q "vertex 0 1 0".toList = ⟨0, 1, 0⟩ := by
    show (⟨Q.toFloat ['0'], Q.toFloat ['1'], Q.toFloat ['0']⟩ : QVector3D F) = _
    rw [hzero, hone]
  have hnorm : (⟨0, 0, 1⟩ : QVector3D F).normalize Q = ⟨0, 0, 1⟩ :=
    normalize_of_lengthSquared_one Q _ (by simp [QVector3D.lengthSquared])
  have h := parseAscii_single_block Q scenarioDevice ["solid s".toList] ["outer loop".toList]
    [] [] ["endloop".toList] ["endsolid s".toList] "facet normal 0 0 1".toList
    "vertex 0 0 0".toList "vertex 1 0 0".toList "vertex 0 1 0".toList "endfacet".toList
    (by rw [hcodec]; decide) (by decide) (by decide)
    (by rw [hn]; simp [QVector3D.isNull, qIsNull]) (by decide) (by decide) (by decide)
    (by decide)
  rw [h, hn, hv0, hv1, hv2, hnorm]

/-- The witness of `parseAscii_one_facet`: the spec's ASCII scenario decodes to
one triangle with normal `(0,0,1)` and `hasNormals` true. -/
theorem parseAscii_one_facet_witness :
    parseAscii sampleLib scenarioDevice
      = ({ positions := [⟨0, 0, 0⟩, ⟨1, 0, 0⟩, ⟨0, 1, 0⟩],
           normals := [⟨0, 0, 1⟩, ⟨0, 0, 1⟩, ⟨0, 0, 1⟩],
           indices := [0, 1, 2], hasNormals := true }, none) := by
  have hn : lineNormal sampleLib "facet normal 0 0 1".toList = ⟨0, 0, 1⟩ := by decide
  have hv0 : lineVertex sampleLib "vertex 0 0 0".toList = ⟨0, 0, 0⟩ := by decide
  have hv1 : lineVertex sampleLib "vertex 1 0 0".toList = ⟨1, 0, 0⟩ := by decide
  have hv2 : lineVertex sampleLib "vertex 0 1 0".toList = ⟨0, 1, 0⟩ := by decide
  obtain ⟨n, h, hnv, _⟩ := parseAscii_one_facet sampleLib scenarioDevice ["solid s".toList]
    ["outer loop".toList] [] [] ["endloop".toList] ["endsolid s".toList]
    "facet normal 0 0 1".toList "vertex 0 0 0".toList "vertex 1 0 0".toList
    "vertex 0 1 0".toList "endfacet".toList
    (by decide) (by decide) (by decide)
    (by rw [hn]; simp [QVector3D.isNull, qIsNull]) (by decide) (by decide) (by decide)
    (by decide)
  have hnn : n = ⟨0, 0, 1⟩ := by
    rw [hnv, hn]
    simp [QVector3D.lengthSquared]
  rw [h, hnn, hv0, hv1, hv2]

/-- The witness of `parseAscii_blocks`: a block of two vertex lines followed by
a block of three gives `K = 1`, three positions and no message. -/
theorem parseAscii_blocks_witness :
    (wellFormedBlocks sampleLib (readLines (sampleLib.fromUtf8 mixedDevice.content))).length = 1 ∧
      (parseAscii sampleLib mixedDevice).1.positions.length
        = 3 * (wellFormedBlocks sampleLib
            (readLines (sampleLib.fromUtf8 mixedDevice.content))).length ∧
      (parseAscii sampleLib mixedDevice).2 = none := by
  have hk : (wellFormedBlocks sampleLib
      (readLines (sampleLib.fromUtf8 mixedDevice.content))).length = 1 := by decide
  have h := parseAscii_blocks sampleLib mixedDevice
  refine ⟨hk, h.2.1, ?_⟩
  rw [h.2.2.2.2.1]
  have hne : (wellFormedBlocks sampleLib
      (readLines (sampleLib.fromUtf8 mixedDevice.content))).isEmpty = false := by
    cases hb : wellFormedBlocks sampleLib (readLines (sampleLib.fromUtf8 mixedDevice.content))
    · rw [hb] at hk; simp at hk
    · rfl
  rw [hne]
  rfl

/-- The witness of `parseAscii_no_geometry_iff`: the scenario returns positions
and no message. -/
theorem parseAscii_no_geometry_iff_witness :
    (parseAscii sampleLib scenarioDevice).1.positions ≠ [] ∧
      (parseAscii sampleLib scenarioDevice).2 = none := by
  have hne : (parseAscii sampleLib scenarioDevice).1.positions ≠ [] := by
    intro h
    have hl : (parseAscii sampleLib scenarioDevice).1.positions.length = 3 := by decide
    rw [h] at hl
    simp at hl
  exact ⟨hne, (parseAscii_no_geometry_iff sampleLib scenarioDevice).2.2 hne⟩

/-- The witness of `parse_chooses_decoder`: the ASCII scenario goes to the
ASCII decoder. -/
theorem parse_chooses_decoder_witness :
    specFormat ((asciiBytes scenarioText).take 512) = Format.Ascii ∧
      parse sampleLib "scenario.stl" (some (asciiBytes scenarioText))
        = parseAscii sampleLib scenarioDevice := by
  have hf : specFormat ((asciiBytes scenarioText).take 512) = Format.Ascii := by decide
  have h := (parse_chooses_decoder sampleLib "scenario.stl" (asciiBytes scenarioText)).1
  rw [hf] at h
  exact ⟨hf, h⟩

/-- The witness of `decoders_keep_soup_invariant`: the invariant on what both
decoders return for the file holding `mixedText`. -/
theorem decoders_keep_soup_invariant_witness :
    SoupInvariant (parseAscii sampleLib mixedDevice).1 ∧
      SoupInvariant (parseBinary sampleLib mixedDevice).1 :=
  decoders_keep_soup_invariant sampleLib mixedDevice

/-! ### The viewport -/

section ViewportThms

variable {F : Type} [LinearOrderedField F]

/-- The failure path of `GLViewport::loadMesh`. -/
theorem loadMesh_of_empty (Q : QtLib F) (vp : GLViewport F) (path : String)
    (file : Option (List Byte)) (errorMessage : String)
    (hfail : (MeshLoader.load Q path file).1.positions = []
      ∨ (MeshLoader.load Q path file).1.indices = []) :
    vp.loadMesh Q path file errorMessage
      = (false, vp,
          if (match (MeshLoader.load Q path file).2 with
              | some msg => msg
              | none => errorMessage).isEmpty
          then "No geometry found in " ++ path
          else (match (MeshLoader.load Q path file).2 with
              | some msg => msg
              | none => errorMessage)) := by
  have hc : ((MeshLoader.load Q path file).1.positions.isEmpty
      || (MeshLoader.load Q path file).1.indices.isEmpty) = true := by
    rcases hfail with h | h <;> simp [h]
  unfold GLViewport.loadMesh
  simp only [hc, if_true]

/-- C21: when `GLViewport::loadMesh` fails (the loader returns a buffer with
empty positions or empty indices), it returns false and the viewport, with
its mesh and its camera, is exactly as before; a decoder message that is not
empty is kept, and an empty result with no decoder message and an empty
caller string gets the message `No geometry found in <path>`. -/
theorem loadMesh_failure (Q : QtLib F) (vp : GLViewport F) (path : String)
    (file : Option (List Byte)) (errorMessage : String)
    (hfail : (MeshLoader.load Q path file).1.positions = []
      ∨ (MeshLoader.load Q path file).1.indices = []) :
    (vp.loadMesh Q path file errorMessage).1 = false ∧
      (vp.loadMesh Q path file errorMessage).2.1 = vp ∧
      (vp.loadMesh Q path file errorMessage).2.1.m_mesh = vp.m_mesh ∧
      (vp.loadMesh Q path file errorMessage).2.1.m_camera = vp.m_camera ∧
      (∀ msg : String, (MeshLoader.load Q path file).2 = some msg → msg.isEmpty = false →
        (vp.loadMesh Q path file errorMessage).2.2 = msg) ∧
      ((MeshLoader.load Q path file).2 = none → errorMessage = "" →
        (vp.loadMesh Q path file errorMessage).2.2 = "No geometry found in " ++ path) := by
  rw [loadMesh_of_empty Q vp path file errorMessage hfail]
  refine ⟨rfl, rfl, rfl, rfl, ?_, ?_⟩
  · intro msg h hne
    simp only [h, hne, Bool.false_eq_true, if_false]
  · intro h he
    simp only [h, he]
    rfl

end ViewportThms

/-- The witness of `loadMesh_failure`: a binary file that declares no
triangle is decoded without error into an empty buffer; the load fails, the
viewport is unchanged and the message names the path. -/
theorem loadMesh_failure_witness :
    (MeshLoader.load sampleLib "empty.stl" (some emptyBinaryFile)).2 = none ∧
      (sampleViewport.loadMesh sampleLib "empty.stl" (some emptyBinaryFile) "").1 = false ∧
      (sampleViewport.loadMesh sampleLib "empty.stl" (some emptyBinaryFile) "").2.1
        = sampleViewport ∧
      (sampleViewport.loadMesh sampleLib "empty.stl" (some emptyBinaryFile) "").2.2
        = "No geometry found in empty.stl" := by
  have hnone : (MeshLoader.load sampleLib "empty.stl" (some emptyBinaryFile)).2 = none := by
    decide
  have hempty : (MeshLoader.load sampleLib "empty.stl" (some emptyBinaryFile)).1.positions
      = [] := by decide
  have h := loadMesh_failure sampleLib sampleViewport "empty.stl" (some emptyBinaryFile) ""
    (Or.inl hempty)
  exact ⟨hnone, h.1, h.2.1, h.2.2.2.2.2 hnone rfl⟩

/-! ### Facet normals and ignored lines -/

section AsciiMore

variable {F : Type} [LinearOrderedField F]

/-- The decoder on an input that holds one block between inert lines,
whatever the normal of its facet line. -/
theorem parseAscii_single_block_any (Q : QtLib F) (device : QIODevice)
    (pre m1 m2 m3 m4 post : List (List Char)) (fl l0 l1 l2 el : List Char)
    (hlines : readLines (Q.fromUtf8 device.content)
      = pre ++ fl :: (m1 ++ l0 :: (m2 ++ l1 :: (m3 ++ l2 :: (m4 ++ el :: post)))))
    (hinert : ∀ l ∈ pre ++ m1 ++ m2 ++ m3 ++ m4 ++ post, isInertLine l = true)
    (hfl : isFacetLine fl = true)
    (h0 : isVertexLine l0 = true) (h1 : isVertexLine l1 = true) (h2 : isVertexLine l2 = true)
    (hel : isEndFacetLine el = true) :
    parseAscii Q device
      = ({ positions := [lineVertex Q l0, lineVertex Q l1, lineVertex Q l2],
           normals := [normalizeIfNonNull Q (lineNormal Q fl),
             normalizeIfNonNull Q (lineNormal Q fl), normalizeIfNonNull Q (lineNormal Q fl)],
           indices := [0, 1, 2], hasNormals := true }, none) := by
  have hpre : ∀ l ∈ pre, isInertLine l = true := fun l hl => hinert l (by simp [hl])
  have hm1 : ∀ l ∈ m1, isInertLine l = true := fun l hl => hinert l (by simp [hl])
  have hm2 : ∀ l ∈ m2, isInertLine l = true := fun l hl => hinert l (by simp [hl])
  have hm3 : ∀ l ∈ m3, isInertLine l = true := fun l hl => hinert l (by simp [hl])
  have hm4 : ∀ l ∈ m4, isInertLine l = true := fun l hl => hinert l (by simp [hl])
  have hpost : ∀ l ∈ post, isInertLine l = true := fun l hl => hinert l (by simp [hl])
  unfold parseAscii
  rw [hlines]
  simp only [List.foldl_append, List.foldl_cons]
  rw [foldl_parseAsciiLine_inert Q pre _ hpre, parseAsciiLine_facet Q _ fl hfl,
    foldl_parseAsciiLine_inert Q m1 _ hm1, parseAsciiLine_vertex Q _ l0 h0,
    foldl_parseAsciiLine_inert Q m2 _ hm2, parseAsciiLine_vertex Q _ l1 h1,
    foldl_parseAsciiLine_inert Q m3 _ hm3, parseAsciiLine_vertex Q _ l2 h2,
    foldl_parseAsciiLine_inert Q m4 _ hm4, parseAsciiLine_endFacet Q _ el hel,
    endFacet_three _ (lineVertex Q l0) (lineVertex Q l1) (lineVertex Q l2) rfl,
    foldl_parseAsciiLine_inert Q post _ hpost]
  simp [setHasNormals, appendTriangle, AsciiState.init, MeshBuffer.empty, toUInt]

/-- A null vector is the vector `(0, 0, 0)`. -/
theorem eq_zero_of_isNull (v : QVector3D F) (h : v.isNull = true) : v = ⟨0, 0, 0⟩ := by
  simp only [QVector3D.isNull, qIsNull, Bool.and_eq_true, decide_eq_true_eq] at h
  obtain ⟨⟨hx, hy⟩, hz⟩ := h
  cases v
  simp_all

/-- What the idiom `if (!n.isNull()) n.normalize();` leaves in `n`. -/
theorem normalizeIfNonNull_eq (Q : QtLib F) (v : QVector3D F) :
    normalizeIfNonNull Q v = if v.isNull = true then ⟨0, 0, 0⟩ else v.normalize Q := by
  unfold normalizeIfNonNull
  by_cases h : v.isNull = true
  · simp only [h, Bool.not_true, Bool.false_eq_true, if_false, if_true]
    exact eq_zero_of_isNull v h
  · simp [h]

/-- C22 (amended): a `facet normal nx ny nz` line replaces the pending face
normal, whatever it was: by the zero vector when the three numbers are zero,
by the normalization of `(nx, ny, nz)` otherwise; so an input whose only
facet is `facet normal 0 0 0` with three vertices gets three normals
`(0, 0, 0)`. -/
theorem parseAscii_facet_normal (Q : QtLib F) (device : QIODevice)
    (pre m1 m2 m3 m4 post : List (List Char)) (fl l0 l1 l2 el : List Char)
    (hlines : readLines (Q.fromUtf8 device.content)
      = pre ++ fl :: (m1 ++ l0 :: (m2 ++ l1 :: (m3 ++ l2 :: (m4 ++ el :: post)))))
    (hinert : ∀ l ∈ pre ++ m1 ++ m2 ++ m3 ++ m4 ++ post, isInertLine l = true)
    (hfl : isFacetLine fl = true)
    (h0 : isVertexLine l0 = true) (h1 : isVertexLine l1 = true) (h2 : isVertexLine l2 = true)
    (hel : isEndFacetLine el = true) :
    (∀ st : AsciiState F, (parseAsciiLine Q st fl).facetNormal
      = if (lineNormal Q fl).isNull = true then ⟨0, 0, 0⟩ else (lineNormal Q fl).normalize Q) ∧
    (parseAscii Q device).1.normals
      = (if (lineNormal Q fl).isNull = true
          then [⟨0, 0, 0⟩, ⟨0, 0, 0⟩, ⟨0, 0, 0⟩]
          else [(lineNormal Q fl).normalize Q, (lineNormal Q fl).normalize Q,
            (lineNormal Q fl).normalize Q]) := by
  constructor
  · intro st
    rw [parseAsciiLine_facet Q st fl hfl]
    exact normalizeIfNonNull_eq Q _
  · rw [parseAscii_single_block_any Q device pre m1 m2 m3 m4 post fl l0 l1 l2 el hlines hinert
      hfl h0 h1 h2 hel]
    dsimp only
    rw [normalizeIfNonNull_eq]
    split_ifs <;> rfl

/-- A line on which every test of the loop fails changes nothing. -/
theorem isInertLine_of_startsNoKeyword (raw : List Char) (h : startsNoKeyword raw = true) :
    isInertLine raw = true := by
  unfold startsNoKeyword at h
  simp only [Bool.and_eq_true, Bool.not_eq_true'] at h
  obtain ⟨⟨h1, h2⟩, h3⟩ := h
  simp [isInertLine, isFacetLine, isVertexLine, isEndFacetLine, h1, h2, h3]

/-- Putting an inert line anywhere among the lines does not change what the
loop computes. -/
theorem foldl_parseAsciiLine_insert (Q : QtLib F) (pre post : List (List Char))
    (l : List Char) (st : AsciiState F) (h : isInertLine l = true) :
    (pre ++ l :: post).foldl (parseAsciiLine Q) st = (pre ++ post).foldl (parseAsciiLine Q) st := by
  rw [List.foldl_append, List.foldl_cons, parseAsciiLine_inert Q _ l h, List.foldl_append]

/-- C23 (amended): a line that, once trimmed, starts (up to case) with none of
the letter sequences `facet`, `vertex`, `endfacet` is ignored: two inputs
that differ by one such line, anywhere, give the same buffer and the same
error. -/
theorem parseAscii_ignores_line (Q : QtLib F) (d1 d2 : QIODevice)
    (pre post : List (List Char)) (l : List Char)
    (h1 : readLines (Q.fromUtf8 d1.content) = pre ++ l :: post)
    (h2 : readLines (Q.fromUtf8 d2.content) = pre ++ post)
    (hl : startsNoKeyword l = true) :
    parseAscii Q d1 = parseAscii Q d2 := by
  unfold parseAscii
  rw [h1, h2, foldl_parseAsciiLine_insert Q pre post l _ (isInertLine_of_startsNoKeyword l hl)]

end AsciiMore

/-- C22 (as stated, refuted): on the input whose only facet is
`facet normal 0 0 0` with three vertices, the three emitted normals are
`(0, 0, 0)`, not the default `(0, 1, 0)`. -/
theorem parseAscii_zero_normal_not_default :
    (parseAscii sampleLib zeroNormalDevice).1.normals = [⟨0, 0, 0⟩, ⟨0, 0, 0⟩, ⟨0, 0, 0⟩] ∧
      (parseAscii sampleLib zeroNormalDevice).1.normals
        ≠ [⟨0, 1, 0⟩, ⟨0, 1, 0⟩, ⟨0, 1, 0⟩] := by
  decide

/-- The witness of `parseAscii_facet_normal`: the input `zeroNormalText`. -/
theorem parseAscii_facet_normal_witness :
    (parseAscii sampleLib zeroNormalDevice).1.normals
      = (if (lineNormal sampleLib "facet normal 0 0 0".toList).isNull = true
          then [⟨0, 0, 0⟩, ⟨0, 0, 0⟩, ⟨0, 0, 0⟩]
          else [(lineNormal sampleLib "facet normal 0 0 0".toList).normalize sampleLib,
            (lineNormal sampleLib "facet normal 0 0 0".toList).normalize sampleLib,
            (lineNormal sampleLib "facet normal 0 0 0".toList).normalize sampleLib]) :=
  (parseAscii_facet_normal sampleLib zeroNormalDevice ["solid z".toList]
    ["outer loop".toList] [] [] ["endloop".toList] ["endsolid z".toList]
    "facet normal 0 0 0".toList "vertex 0 0 0".toList "vertex 1 0 0".toList
    "vertex 0 1 0".toList "endfacet".toList
    (by decide) (by decide) (by decide) (by decide) (by decide) (by decide) (by decide)).2

/-- C23 (as stated, refuted): the first token of the line `vertexes 1 2 3` is
none of `facet`, `vertex`, `endfacet`, yet putting that line into the
scenario changes the result: the block then holds four vertices and the
decoder reports that it found no geometry. -/
theorem parseAscii_vertexes_line_counts :
    specIgnored "vertexes 1 2 3".toList = true ∧
      (parseAscii sampleLib scenarioDevice).2 = none ∧
      (parseAscii sampleLib vertexesDevice).2 = some "No geometry found in STL file." ∧
      (parseAscii sampleLib vertexesDevice).1.positions = [] := by
  decide

/-- The witness of `parseAscii_ignores_line`: the scenario with and without
its `outer loop` line. -/
theorem parseAscii_ignores_line_witness :
    parseAscii sampleLib scenarioDevice = parseAscii sampleLib noLoopDevice :=
  parseAscii_ignores_line sampleLib scenarioDevice noLoopDevice
    ["solid s".toList, "facet normal 0 0 1".toList]
    ["vertex 0 0 0".toList, "vertex 1 0 0".toList, "vertex 0 1 0".toList, "endloop".toList,
      "endfacet".toList, "endsolid s".toList]
    "outer loop".toList (by decide) (by decide) (by decide)

/-! ### Decoded buffers in a mesh -/

section DecodedThms

variable {F : Type} [LinearOrderedField F]

/-- The record loop ends with an empty buffer or with `hasNormals` set from
the normals. -/
theorem parseBinaryLoop_hasNormals (Q : QtLib F) :
    ∀ (n : Nat) (stream : QDataStream) (buffer : MeshBuffer F),
      (parseBinaryLoop Q n stream buffer).1.positions = []
        ∨ (parseBinaryLoop Q n stream buffer).1.hasNormals
            = !(parseBinaryLoop Q n stream buffer).1.normals.isEmpty
  | 0, _, _ => Or.inr rfl
  | n + 1, stream, buffer => by
    unfold parseBinaryLoop
    dsimp only
    split_ifs
    · exact Or.inl rfl
    · exact parseBinaryLoop_hasNormals Q n _ _

/-- The buffer of `STLParser::parseBinary` is empty or has `hasNormals` set
from its normals. -/
theorem parseBinary_hasNormals (Q : QtLib F) (device : QIODevice) :
    (parseBinary Q device).1.positions = []
      ∨ (parseBinary Q device).1.hasNormals = !(parseBinary Q device).1.normals.isEmpty := by
  unfold parseBinary
  dsimp only
  split_ifs
  · exact Or.inl rfl
  · exact Or.inl rfl
  · exact Or.inl rfl
  · exact parseBinaryLoop_hasNormals Q _ _ _

/-- The buffer `STLParser::parseAscii` returns satisfies the buffer invariant. -/
theorem consistent_parseAscii (Q : QtLib F) (device : QIODevice) :
    Consistent (parseAscii Q device).1 :=
  consistent_setHasNormals (foldl_parseAsciiLine_consistent Q _ _ consistent_empty)

/-- A decoded buffer with a triangle has positions, as many normals, and
`hasNormals` set. -/
theorem decoded_hasNormals (Q : QtLib F) (device : QIODevice) (B : MeshBuffer F)
    (hB : B = (parseAscii Q device).1 ∨ B = (parseBinary Q device).1)
    (htri : 1 ≤ B.indices.length / 3) :
    B.positions ≠ [] ∧ B.indices ≠ [] ∧ B.normals.length = B.positions.length ∧
      B.hasNormals = true := by
  have hc : Consistent B := by
    rcases hB with h | h
    · rw [h]; exact consistent_parseAscii Q device
    · rw [h]; exact consistent_parseBinary Q device
  obtain ⟨hn, hi, _, _⟩ := hc
  have hipos : 0 < B.indices.length := by omega
  have hppos : 0 < B.positions.length := by omega
  have hnpos : 0 < B.normals.length := by omega
  have hP : B.positions ≠ [] := List.ne_nil_of_length_pos hppos
  have hN : B.normals ≠ [] := List.ne_nil_of_length_pos hnpos
  refine ⟨hP, List.ne_nil_of_length_pos hipos, hn, ?_⟩
  have hflag : B.hasNormals = !B.normals.isEmpty := by
    rcases hB with h | h
    · rw [h]; rfl
    · rcases parseBinary_hasNormals Q device with h0 | h1
      · rw [h] at hP
        exact absurd h0 hP
      · rw [h]; exact h1
  rw [hflag]
  simp [hN]

/-- C29: for every non-empty `P`, every `Nrm` with as many entries as `P` and
every `I`, after `Mesh::setData(P, Nrm, I, false)` the mesh has
`hasSourceNormals == false` and the smooth normals of `P` and `I` as its
normals, and a following `Mesh::restoreOriginalNormals` sets the normals to
`Nrm`. -/
theorem setData_false_then_restore (Q : QtLib F) (m : Mesh F) (P Nrm : List (QVector3D F))
    (I : List Nat) (hP : P ≠ []) (hlen : Nrm.length = P.length) :
    (m.setData Q P Nrm I false).m_hasSourceNormals = false ∧
      (m.setData Q P Nrm I false).m_normals = smoothNormals Q P I ∧
      ((m.setData Q P Nrm I false).restoreOriginalNormals Q).m_normals = Nrm ∧
      ((m.setData Q P Nrm I false).restoreOriginalNormals Q).m_hasSourceNormals = false := by
  obtain ⟨h1, _, h3, h4, h5⟩ := setData_fields Q m P Nrm I false
  have hs : (m.setData Q P Nrm I false).m_hasSourceNormals = false := by
    rw [h4]; rfl
  have hN : Nrm ≠ [] := by
    intro h
    rw [h] at hlen
    exact hP (List.length_eq_zero.mp hlen.symm)
  have hcond : (!(m.setData Q P Nrm I false).m_originalNormals.isEmpty
      && (m.setData Q P Nrm I false).m_originalNormals.length
        == (m.setData Q P Nrm I false).m_positions.length) = true := by
    rw [h3, h1]
    simp [hN, hlen]
  refine ⟨hs, ?_, ?_, ?_⟩
  · rw [h5, hs]
    simp
  · rw [restoreOriginalNormals_cases, if_pos hcond]
    exact h3
  · rw [restoreOriginalNormals_cases, if_pos hcond]
    exact hs

/-- C30: for every buffer `B` that `STLParser::parseAscii` or
`STLParser::parseBinary` returns with at least one triangle,
`Mesh::setData(B.positions, B.normals, B.indices, B.hasNormals)` yields
`hasSourceNormals == true`, `isValid() == true` and the normals `B.normals`,
whatever these normals are (the zero vector included). -/
theorem setData_of_decoded (Q : QtLib F) (device : QIODevice) (m : Mesh F) (B : MeshBuffer F)
    (hB : B = (parseAscii Q device).1 ∨ B = (parseBinary Q device).1)
    (htri : 1 ≤ B.indices.length / 3) :
    (m.setData Q B.positions B.normals B.indices B.hasNormals).m_hasSourceNormals = true ∧
      (m.setData Q B.positions B.normals B.indices B.hasNormals).isValid = true ∧
      (m.setData Q B.positions B.normals B.indices B.hasNormals).m_normals = B.normals := by
  obtain ⟨hP, hI, hlen, hflag⟩ := decoded_hasNormals Q device B hB htri
  obtain ⟨h1, h2, _, h4, h5⟩ := setData_fields Q m B.positions B.normals B.indices B.hasNormals
  have hs : (m.setData Q B.positions B.normals B.indices B.hasNormals).m_hasSourceNormals
      = true := by
    rw [h4, hflag, hlen]
    simp
  refine ⟨hs, ?_, ?_⟩
  · unfold Mesh.isValid
    rw [h1, h2]
    simp [hP, hI]
  · rw [h5, if_pos hs]

end DecodedThms

/-- The witness of `setData_false_then_restore`: the triangle `samplePositions`
with the normals `sampleNormals`, loaded with `hasNormals == false`. -/
theorem setData_false_then_restore_witness :
    (sampleMesh.setData sampleLib samplePositions sampleNormals [0, 1, 2] false).m_hasSourceNormals
        = false ∧
      (sampleMesh.setData sampleLib samplePositions sampleNormals [0, 1, 2] false).m_normals
        = smoothNormals sampleLib samplePositions [0, 1, 2] ∧
      ((sampleMesh.setData sampleLib samplePositions sampleNormals [0, 1, 2]
        false).restoreOriginalNormals sampleLib).m_normals = sampleNormals ∧
      ((sampleMesh.setData sampleLib samplePositions sampleNormals [0, 1, 2]
        false).restoreOriginalNormals sampleLib).m_hasSourceNormals = false :=
  setData_false_then_restore sampleLib sampleMesh samplePositions sampleNormals [0, 1, 2]
    (by decide) (by decide)

/-- The witness of `setData_of_decoded`: the buffer decoded from
`zeroNormalText`, whose three normals are the zero vector. -/
theorem setData_of_decoded_witness :
    (parseAscii sampleLib zeroNormalDevice).1.normals = [⟨0, 0, 0⟩, ⟨0, 0, 0⟩, ⟨0, 0, 0⟩] ∧
      (sampleMesh.setData sampleLib (parseAscii sampleLib zeroNormalDevice).1.positions
        (parseAscii sampleLib zeroNormalDevice).1.normals
        (parseAscii sampleLib zeroNormalDevice).1.indices
        (parseAscii sampleLib zeroNormalDevice).1.hasNormals).m_hasSourceNormals = true ∧
      (sampleMesh.setData sampleLib (parseAscii sampleLib zeroNormalDevice).1.positions
        (parseAscii sampleLib zeroNormalDevice).1.normals
        (parseAscii sampleLib zeroNormalDevice).1.indices
        (parseAscii sampleLib zeroNormalDevice).1.hasNormals).isValid = true ∧
      (sampleMesh.setData sampleLib (parseAscii sampleLib zeroNormalDevice).1.positions
        (parseAscii sampleLib zeroNormalDevice).1.normals
        (parseAscii sampleLib zeroNormalDevice).1.indices
        (parseAscii sampleLib zeroNormalDevice).1.hasNormals).m_normals
        = (parseAscii sampleLib zeroNormalDevice).1.normals :=
  ⟨by decide,
    setData_of_decoded sampleLib zeroNormalDevice sampleMesh
      (parseAscii sampleLib zeroNormalDevice).1 (Or.inl rfl) (by decide)⟩

/-! ### The eye and the fly movement -/

section EyeThms

variable {F : Type} [LinearOrderedField F]

/-- C28: for every camera state and every movement `m`,
`Camera::addFlyMovement(m)` changes only the target: yaw, pitch, distance,
the projection parameters and the fly mode are unchanged, the target moves
by `right * m.x + up * m.y + forward * m.z`, and the eye `position()`
moves by the same vector. -/
theorem addFlyMovement_frame (Q : QtLib F) (T : QtTrig F) (c : Camera F)
    (movement : QVector3D F) :
    (c.addFlyMovement Q T movement).m_yaw = c.m_yaw ∧
      (c.addFlyMovement Q T movement).m_pitch = c.m_pitch ∧
      (c.addFlyMovement Q T movement).m_distance = c.m_distance ∧
      (c.addFlyMovement Q T movement).m_fovY = c.m_fovY ∧
      (c.addFlyMovement Q T movement).m_aspect = c.m_aspect ∧
      (c.addFlyMovement Q T movement).m_nearPlane = c.m_nearPlane ∧
      (c.addFlyMovement Q T movement).m_farPlane = c.m_farPlane ∧
      (c.addFlyMovement Q T movement).m_flyMode = c.m_flyMode ∧
      (c.addFlyMovement Q T movement).m_target
        = c.m_target.add ((((c.right Q T).scale movement.x).add
            ((c.up Q T).scale movement.y)).add ((c.forward Q T).scale movement.z)) ∧
      (c.addFlyMovement Q T movement).position Q T
        = (c.position Q T).add ((((c.right Q T).scale movement.x).add
            ((c.up Q T).scale movement.y)).add ((c.forward Q T).scale movement.z)) := by
  refine ⟨rfl, rfl, rfl, rfl, rfl, rfl, rfl, rfl, rfl, ?_⟩
  have ht : (c.addFlyMovement Q T movement).m_target
      = c.m_target.add ((((c.right Q T).scale movement.x).add
          ((c.up Q T).scale movement.y)).add ((c.forward Q T).scale movement.z)) := rfl
  have hdir : (c.addFlyMovement Q T movement).direction T = c.direction T := rfl
  have hdist : (c.addFlyMovement Q T movement).m_distance = c.m_distance := rfl
  unfold Camera.position
  rw [ht, hdir, hdist]
  simp only [QVector3D.add, QVector3D.sub, QVector3D.mk.injEq]
  refine ⟨?_, ?_, ?_⟩ <;> ring

/-- The vector from the target to the eye has the squared length of the
distance. -/
theorem position_sub_target_lengthSquared (Q : QtLib F) (T : QtTrig F) (c : Camera F)
    (hpyth : ∀ x, T.cos x * T.cos x + T.sin x * T.sin x = 1) :
    ((c.position Q T).sub c.m_target).lengthSquared = c.m_distance * c.m_distance := by
  have hd := direction_lengthSquared T c hpyth
  rw [position_eq Q T c hpyth]
  simp only [QVector3D.lengthSquared, QVector3D.sub, QVector3D.scale] at hd ⊢
  calc (c.m_target.x - (c.direction T).x * c.m_distance - c.m_target.x)
          * (c.m_target.x - (c.direction T).x * c.m_distance - c.m_target.x)
        + (c.m_target.y - (c.direction T).y * c.m_distance - c.m_target.y)
          * (c.m_target.y - (c.direction T).y * c.m_distance - c.m_target.y)
        + (c.m_target.z - (c.direction T).z * c.m_distance - c.m_target.z)
          * (c.m_target.z - (c.direction T).z * c.m_distance - c.m_target.z)
      = ((c.direction T).x * (c.direction T).x + (c.direction T).y * (c.direction T).y
          + (c.direction T).z * (c.direction T).z) * (c.m_distance * c.m_distance) := by ring
    _ = c.m_distance * c.m_distance := by rw [hd, one_mul]

/-- C26: for every camera state whose distance is at least `1` (the invariant
of the class), with a cosine and sine whose squares sum to `1`, the vector
from the target to the eye `Camera::position()` has the squared length
`distance * distance`, so its length is `distance` (where the square root of
`distance * distance` is `distance`), and the eye is not the target. -/
theorem position_at_distance (Q : QtLib F) (T : QtTrig F) (c : Camera F)
    (hpyth : ∀ x, T.cos x * T.cos x + T.sin x * T.sin x = 1)
    (hd : 1 ≤ c.m_distance) :
    ((c.position Q T).sub c.m_target).lengthSquared = c.m_distance * c.m_distance ∧
      (Q.sqrt (c.m_distance * c.m_distance) = c.m_distance →
        ((c.position Q T).sub c.m_target).length Q = c.m_distance) ∧
      c.position Q T ≠ c.m_target := by
  have h := position_sub_target_lengthSquared Q T c hpyth
  refine ⟨h, ?_, ?_⟩
  · intro hs
    unfold QVector3D.length
    rw [h, hs]
  · intro heq
    rw [heq] at h
    have hz : (c.m_target.sub c.m_target).lengthSquared = 0 := by
      simp [QVector3D.lengthSquared, QVector3D.sub]
    rw [hz] at h
    have hpos : 0 < c.m_distance * c.m_distance := by nlinarith
    linarith

end EyeThms

/-- The cosine and sine of `sampleTrig` have squares that sum to `1`. -/
theorem sampleTrig_pyth (x : ℚ) :
    sampleTrig.cos x * sampleTrig.cos x + sampleTrig.sin x * sampleTrig.sin x = 1 := by
  simp only [sampleTrig]
  generalize x / 2 = t
  have hnn : (0 : ℚ) ≤ t * t := mul_self_nonneg _
  have hpos : (1 + t * t : ℚ) ≠ 0 := by linarith
  field_simp
  ring

/-- The witness of `position_at_distance`: the scenario camera, whose eye
`(-10, 0, 0)` is at distance `10` of the target `(0, 0, 0)`. -/
theorem position_at_distance_witness :
    ((scenarioCamera.position sampleLib sampleTrig).sub
        scenarioCamera.m_target).lengthSquared = 10 * 10 ∧
      ((scenarioCamera.position sampleLib sampleTrig).sub
        scenarioCamera.m_target).length sampleLib = 10 ∧
      scenarioCamera.position sampleLib sampleTrig ≠ scenarioCamera.m_target := by
  have h := position_at_distance sampleLib sampleTrig scenarioCamera sampleTrig_pyth
    (by norm_num [scenarioCamera])
  have hs : sampleLib.sqrt (scenarioCamera.m_distance * scenarioCamera.m_distance)
      = scenarioCamera.m_distance := by
    have e : scenarioCamera.m_distance * scenarioCamera.m_distance = (100 : ℚ) := by
      norm_num [scenarioCamera]
    rw [e]
    have e2 : sampleLib.sqrt (100 : ℚ) = 10 := by
      have hn : (100 : ℚ).num.toNat = 10 * 10 := by decide
      have hden : (100 : ℚ).den = 1 * 1 := by decide
      simp only [sampleLib]
      rw [hn, hden, Nat.sqrt_eq, Nat.sqrt_eq]
      norm_num
    rw [e2]
    rfl
  exact ⟨h.1, h.2.1 hs, h.2.2⟩

/-! ### Out-of-range triangles -/

section RangeThms

variable {F : Type} [LinearOrderedField F]

theorem toUInt_of_lt (n : Nat) (h : n < 2 ^ 32) : toUInt n = n :=
  Nat.mod_eq_of_lt h

/-- The checked loop has a result, the one of the loop. -/
theorem accumulateFacesChecked_eq (Q : QtLib F) (P : List (QVector3D F))
    (hP : P.length < 2 ^ 32) :
    ∀ (I : List Nat) (normals : List (QVector3D F)), normals.length = P.length →
      accumulateFacesChecked Q P I normals = some (accumulateFaces Q P I normals)
  | [], _, _ => by simp [accumulateFacesChecked, accumulateFaces]
  | [_], _, _ => by simp [accumulateFacesChecked, accumulateFaces]
  | [_, _], _, _ => by simp [accumulateFacesChecked, accumulateFaces]
  | ia :: ib :: ic :: rest, normals, hlen => by
    unfold accumulateFacesChecked accumulateFaces
    rw [toUInt_of_lt _ hP]
    by_cases hskip : (decide (ia ≥ P.length) || decide (ib ≥ P.length)
        || decide (ic ≥ P.length)) = true
    · rw [if_pos hskip, if_pos hskip]
      exact accumulateFacesChecked_eq Q P hP rest normals hlen
    · rw [if_neg hskip, if_neg hskip]
      simp only [Bool.or_eq_true, decide_eq_true_eq, not_or, not_le] at hskip
      obtain ⟨⟨ha, hb⟩, hc⟩ := hskip
      rw [List.getElem?_eq_getElem ha, List.getElem?_eq_getElem hb,
        List.getElem?_eq_getElem hc]
      dsimp only
      rw [List.getD_eq_getElem _ _ ha, List.getD_eq_getElem _ _ hb,
        List.getD_eq_getElem _ _ hc]
      have h1 : ∀ (l : List (QVector3D F)) (i : Nat) (n : QVector3D F), l.length = P.length →
          i < P.length → addAtChecked l i n = some (addAt l i n) := by
        intro l i n hl hi
        unfold addAtChecked
        rw [if_pos (by omega)]
      rw [h1 _ _ _ hlen ha]
      dsimp only
      rw [h1 _ _ _ (by rw [length_addAt, hlen]) hb]
      dsimp only
      rw [h1 _ _ _ (by rw [length_addAt, length_addAt, hlen]) hc]
      dsimp only
      exact accumulateFacesChecked_eq Q P hP rest _
        (by rw [length_addAt, length_addAt, length_addAt, hlen])

/-- The loop on the index list and on the index list without its
out-of-range triangles gives the same sums. -/
theorem accumulateFaces_inRange (Q : QtLib F) (P : List (QVector3D F))
    (hP : P.length < 2 ^ 32) :
    ∀ (I : List Nat) (normals : List (QVector3D F)),
      accumulateFaces Q P (inRangeTriangles P.length I) normals = accumulateFaces Q P I normals
  | [], _ => by simp [inRangeTriangles]
  | [_], _ => by simp [inRangeTriangles, accumulateFaces]
  | [_, _], _ => by simp [inRangeTriangles, accumulateFaces]
  | ia :: ib :: ic :: rest, normals => by
    unfold inRangeTriangles
    by_cases hin : ia < P.length ∧ ib < P.length ∧ ic < P.length
    · rw [if_pos hin]
      unfold accumulateFaces
      rw [toUInt_of_lt _ hP]
      have hskip : ¬ ((decide (ia ≥ P.length) || decide (ib ≥ P.length)
          || decide (ic ≥ P.length)) = true) := by
        simp only [Bool.or_eq_true, decide_eq_true_eq, not_or, not_le]
        exact ⟨⟨hin.1, hin.2.1⟩, hin.2.2⟩
      rw [if_neg hskip, if_neg hskip]
      dsimp only
      exact accumulateFaces_inRange Q P hP rest _
    · rw [if_neg hin]
      conv_rhs => unfold accumulateFaces
      rw [toUInt_of_lt _ hP]
      have hskip : (decide (ia ≥ P.length) || decide (ib ≥ P.length)
          || decide (ic ≥ P.length)) = true := by
        simp only [Bool.or_eq_true, decide_eq_true_eq]
        by_contra hcon
        push_neg at hcon
        exact hin ⟨hcon.1.1, hcon.1.2, hcon.2⟩
      rw [if_pos hskip]
      exact accumulateFaces_inRange Q P hP rest normals

/-- C24: for all positions `P` (a `QVector`, so fewer than `2^32`) and index
lists `I`, the triangle loop of `Mesh::computeSmoothNormals` reads
`m_positions` and writes `m_normals` in range only (the loop with range
checks has a result, the one of the loop), and the normals are the ones
computed from `I` with every triangle that has an index `≥ P.length`, and the
trailing incomplete triple, removed. -/
theorem computeSmoothNormals_in_range (Q : QtLib F) (m : Mesh F)
    (hP : m.m_positions.length < 2 ^ 32) :
    accumulateFacesChecked Q m.m_positions m.m_indices
        (List.replicate m.m_positions.length QVector3D.zero)
      = some (accumulateFaces Q m.m_positions m.m_indices
          (List.replicate m.m_positions.length QVector3D.zero)) ∧
    (m.computeSmoothNormals Q).m_normals
      = smoothNormals Q m.m_positions (inRangeTriangles m.m_positions.length m.m_indices) ∧
    (m.computeSmoothNormals Q).m_normals.length = m.m_positions.length := by
  refine ⟨accumulateFacesChecked_eq Q _ hP _ _ (by simp), ?_, ?_⟩
  · rw [computeSmoothNormals_normals]
    unfold smoothNormals
    rw [accumulateFaces_inRange Q _ hP]
  · rw [computeSmoothNormals_normals, length_smoothNormals]

end RangeThms

/-- The witness of `computeSmoothNormals_in_range`: on `outOfRangeMesh` only
the triangle `0 1 2` counts. -/
theorem computeSmoothNormals_in_range_witness :
    inRangeTriangles outOfRangeMesh.m_positions.length outOfRangeMesh.m_indices = [0, 1, 2] ∧
      (outOfRangeMesh.computeSmoothNormals sampleLib).m_normals
        = smoothNormals sampleLib outOfRangeMesh.m_positions
            (inRangeTriangles outOfRangeMesh.m_positions.length outOfRangeMesh.m_indices) :=
  ⟨by decide,
    (computeSmoothNormals_in_range sampleLib outOfRangeMesh (by decide)).2.1⟩

/-! ### The sum of face normals at a vertex -/

section VertexSumThms

variable {F : Type} [LinearOrderedField F]

theorem vectorSum_append (l1 l2 : List (QVector3D F)) :
    vectorSum (l1 ++ l2) = (vectorSum l1).add (vectorSum l2) := by
  simp [vectorSum, QVector3D.add, List.sum_append]

theorem vectorSum_perm (l1 l2 : List (QVector3D F)) (h : l1.Perm l2) :
    vectorSum l1 = vectorSum l2 := by
  unfold vectorSum
  rw [(h.map fun n => n.x).sum_eq, (h.map fun n => n.y).sum_eq, (h.map fun n => n.z).sum_eq]

/-- The slot `v` after the statement `m_normals[i] += n;`. -/
theorem addAt_getElem? (l : List (QVector3D F)) (i v : Nat) (n : QVector3D F) :
    (addAt l i n)[v]? = if i = v then (l[v]?).map (fun s => s.add n) else l[v]? := by
  induction l generalizing i v with
  | nil => simp [addAt]
  | cons a as ih =>
    cases i with
    | zero =>
      cases v with
      | zero => simp [addAt]
      | succ v => simp [addAt]
    | succ i =>
      cases v with
      | zero => simp [addAt]
      | succ v =>
        simp only [addAt, List.getElem?_cons_succ, ih, Nat.succ.injEq]

/-- The slot `v` after the three additions of one triangle. -/
theorem addAt_three (l : List (QVector3D F)) (t : Nat × Nat × Nat) (v : Nat)
    (n : QVector3D F) :
    (addAt (addAt (addAt l t.1 n) t.2.1 n) t.2.2 n)[v]?
      = (l[v]?).map (fun s => s.add (vectorSum (occurrences v t n))) := by
  rw [addAt_getElem?, addAt_getElem?, addAt_getElem?]
  cases l[v]? with
  | none => split_ifs <;> rfl
  | some s =>
    unfold occurrences
    split_ifs <;>
      simp [vectorSum, QVector3D.add, add_assoc]

/-- The slot `v` of the normals after the triangle loop. -/
theorem accumulateFaces_getElem? (Q : QtLib F) (P : List (QVector3D F))
    (hP : P.length < 2 ^ 32) (v : Nat) :
    ∀ (I : List Nat) (normals : List (QVector3D F)),
      (accumulateFaces Q P I normals)[v]?
        = (normals[v]?).map (fun s => s.add (vectorSum (contributions Q P (triangles I) v)))
  | [], normals => by
    cases h : normals[v]? <;>
      simp [accumulateFaces, triangles, contributions, vectorSum, QVector3D.add, h]
  | [_], normals => by
    cases h : normals[v]? <;>
      simp [accumulateFaces, triangles, contributions, vectorSum, QVector3D.add, h]
  | [_, _], normals => by
    cases h : normals[v]? <;>
      simp [accumulateFaces, triangles, contributions, vectorSum, QVector3D.add, h]
  | ia :: ib :: ic :: rest, normals => by
    unfold accumulateFaces
    rw [toUInt_of_lt _ hP]
    have htri : triangles (ia :: ib :: ic :: rest) = (ia, ib, ic) :: triangles rest := rfl
    rw [htri]
    unfold contributions
    rw [List.flatMap_cons]
    by_cases hskip : (decide (ia ≥ P.length) || decide (ib ≥ P.length)
        || decide (ic ≥ P.length)) = true
    · rw [if_pos hskip]
      have hr : inRange P.length (ia, ib, ic) = false := by
        simp only [Bool.or_eq_true, decide_eq_true_eq] at hskip
        simp only [inRange, Bool.and_eq_false_imp, Bool.and_eq_true, decide_eq_true_eq,
          decide_eq_false_iff_not, not_lt]
        intro h
        rcases hskip with (h1 | h1) | h1
        · omega
        · omega
        · exact h1
      rw [hr]
      simp only [Bool.false_eq_true, if_false, List.nil_append]
      exact accumulateFaces_getElem? Q P hP v rest normals
    · rw [if_neg hskip]
      have hr : inRange P.length (ia, ib, ic) = true := by
        simp only [Bool.or_eq_true, decide_eq_true_eq, not_or, not_le] at hskip
        simp only [inRange, Bool.and_eq_true, decide_eq_true_eq]
        exact hskip
      rw [hr]
      simp only [if_true]
      rw [accumulateFaces_getElem? Q P hP v rest _]
      have h3 := addAt_three normals (ia, ib, ic) v
        (normalizeIfNonNull Q (QVector3D.crossProduct
          ((P.getD ib QVector3D.zero).sub (P.getD ia QVector3D.zero))
          ((P.getD ic QVector3D.zero).sub (P.getD ia QVector3D.zero))))
      dsimp only at h3
      rw [h3, vectorSum_append]
      cases normals[v]? with
      | none => rfl
      | some s =>
        simp only [Option.map_some', QVector3D.add, add_assoc]
        rfl

/-- The normal of vertex `v` after the two loops. -/
theorem smoothNormals_getElem? (Q : QtLib F) (P : List (QVector3D F)) (I : List Nat)
    (hP : P.length < 2 ^ 32) (v : Nat) (hv : v < P.length) :
    (smoothNormals Q P I)[v]? = some (finishNormal Q (vertexSum Q P I v)) := by
  unfold smoothNormals
  rw [List.getElem?_map, accumulateFaces_getElem? Q P hP v, List.getElem?_replicate, if_pos hv]
  simp [vertexSum, QVector3D.add, QVector3D.zero]

/-- The sum at a vertex is the same for two index lists with the same
triangles in another order. -/
theorem vertexSum_perm (Q : QtLib F) (P : List (QVector3D F)) (I J : List Nat) (v : Nat)
    (h : (triangles I).Perm (triangles J)) : vertexSum Q P I v = vertexSum Q P J v := by
  unfold vertexSum contributions
  exact vectorSum_perm _ _ (List.Perm.flatMap_right _ h)

/-- The smooth normals are the same for two index lists with the same
triangles in another order. -/
theorem smoothNormals_perm (Q : QtLib F) (P : List (QVector3D F)) (I J : List Nat)
    (hP : P.length < 2 ^ 32) (h : (triangles I).Perm (triangles J)) :
    smoothNormals Q P I = smoothNormals Q P J := by
  apply List.ext_getElem?
  intro v
  by_cases hv : v < P.length
  · rw [smoothNormals_getElem? Q P I hP v hv, smoothNormals_getElem? Q P J hP v hv,
      vertexSum_perm Q P I J v h]
  · rw [List.getElem?_eq_none (by rw [length_smoothNormals]; omega),
      List.getElem?_eq_none (by rw [length_smoothNormals]; omega)]

/-- C25 (amended): after `Mesh::computeSmoothNormals`, for every vertex `v`
the normal is `S_v` passed through `QVector3D::normalize` when `S_v` is not
null and `(0, 1, 0)` otherwise, where `S_v` is the unweighted sum, over every
in-range triangle `(a, b, c)` and every occurrence of `v` among `a, b, c`, of
the face normal `(b - a) x (c - a)` passed through `QVector3D::normalize`
unless it is null; so the normals do not depend on the order of the
triangles in the index list. -/
theorem computeSmoothNormals_vertex (Q : QtLib F) (m : Mesh F)
    (hP : m.m_positions.length < 2 ^ 32) :
    (∀ v, v < m.m_positions.length →
      (m.computeSmoothNormals Q).m_normals[v]?
        = some (if (vertexSum Q m.m_positions m.m_indices v).isNull = true then ⟨0, 1, 0⟩
            else (vertexSum Q m.m_positions m.m_indices v).normalize Q)) ∧
    (∀ t : Nat × Nat × Nat, faceNormal Q m.m_positions t
      = if (QVector3D.crossProduct
            ((m.m_positions.getD t.2.1 QVector3D.zero).sub (m.m_positions.getD t.1 QVector3D.zero))
            ((m.m_positions.getD t.2.2 QVector3D.zero).sub
              (m.m_positions.getD t.1 QVector3D.zero))).isNull = true
        then ⟨0, 0, 0⟩
        else (QVector3D.crossProduct
            ((m.m_positions.getD t.2.1 QVector3D.zero).sub (m.m_positions.getD t.1 QVector3D.zero))
            ((m.m_positions.getD t.2.2 QVector3D.zero).sub
              (m.m_positions.getD t.1 QVector3D.zero))).normalize Q) ∧
    (∀ m2 : Mesh F, m2.m_positions = m.m_positions →
      (triangles m2.m_indices).Perm (triangles m.m_indices) →
      (m2.computeSmoothNormals Q).m_normals = (m.computeSmoothNormals Q).m_normals) := by
  refine ⟨?_, ?_, ?_⟩
  · intro v hv
    rw [computeSmoothNormals_normals, smoothNormals_getElem? Q _ _ hP v hv]
    unfold finishNormal
    by_cases hn : (vertexSum Q m.m_positions m.m_indices v).isNull = true
    · simp [hn]
    · simp [hn]
  · intro t
    unfold faceNormal
    dsimp only
    exact normalizeIfNonNull_eq Q _
  · intro m2 hpos hperm
    rw [computeSmoothNormals_normals, computeSmoothNormals_normals, hpos]
    exact smoothNormals_perm Q _ _ _ hP hperm

end VertexSumThms

/-- The smooth normals of the triangle `tinyPositions`. -/
theorem tinyMesh_normals :
    (tinyMesh.computeSmoothNormals sampleLib).m_normals
      = [⟨0, 0, 1 / 100000000⟩, ⟨0, 0, 1 / 100000000⟩, ⟨0, 0, 1 / 100000000⟩] := by
  rw [computeSmoothNormals_normals]
  have h1 : accumulateFaces sampleLib tinyMesh.m_positions tinyMesh.m_indices
      (List.replicate tinyMesh.m_positions.length QVector3D.zero)
      = addAt (addAt (addAt [QVector3D.zero, QVector3D.zero, QVector3D.zero] 0
          (normalizeIfNonNull sampleLib (QVector3D.crossProduct
            ((⟨1 / 10000, 0, 0⟩ : QVector3D ℚ).sub ⟨0, 0, 0⟩)
            ((⟨0, 1 / 10000, 0⟩ : QVector3D ℚ).sub ⟨0, 0, 0⟩)))) 1
          (normalizeIfNonNull sampleLib (QVector3D.crossProduct
            ((⟨1 / 10000, 0, 0⟩ : QVector3D ℚ).sub ⟨0, 0, 0⟩)
            ((⟨0, 1 / 10000, 0⟩ : QVector3D ℚ).sub ⟨0, 0, 0⟩)))) 2
          (normalizeIfNonNull sampleLib (QVector3D.crossProduct
            ((⟨1 / 10000, 0, 0⟩ : QVector3D ℚ).sub ⟨0, 0, 0⟩)
            ((⟨0, 1 / 10000, 0⟩ : QVector3D ℚ).sub ⟨0, 0, 0⟩))) := by
    rfl
  unfold smoothNormals
  rw [h1, tiny_cross, tiny_face]
  simp only [addAt, QVector3D.add, QVector3D.zero, zero_add, List.map_cons, List.map_nil,
    tiny_finish]

/-- The smooth normals of the triangle `unitPositions`. -/
theorem unitMesh_normals :
    (unitMesh.computeSmoothNormals sampleLib).m_normals
      = [⟨0, 0, 1⟩, ⟨0, 0, 1⟩, ⟨0, 0, 1⟩] := by
  rw [computeSmoothNormals_normals]
  have hcross : QVector3D.crossProduct ((⟨1, 0, 0⟩ : QVector3D ℚ).sub ⟨0, 0, 0⟩)
      ((⟨0, 1, 0⟩ : QVector3D ℚ).sub ⟨0, 0, 0⟩) = ⟨0, 0, 1⟩ := by
    simp only [QVector3D.crossProduct, QVector3D.sub]
    norm_num
  have hone : (⟨0, 0, 1⟩ : QVector3D ℚ).lengthSquared = 1 := by
    simp [QVector3D.lengthSquared]
  have hface : normalizeIfNonNull sampleLib (⟨0, 0, 1⟩ : QVector3D ℚ) = ⟨0, 0, 1⟩ := by
    simp [normalizeIfNonNull, normalize_of_lengthSquared_one sampleLib _ hone]
  have hfin : finishNormal sampleLib (⟨0, 0, 1⟩ : QVector3D ℚ) = ⟨0, 0, 1⟩ := by
    have hnn : (⟨0, 0, 1⟩ : QVector3D ℚ).isNull = false := by
      simp [QVector3D.isNull, qIsNull]
    simp [finishNormal, hnn, normalize_of_lengthSquared_one sampleLib _ hone]
  have h1 : accumulateFaces sampleLib unitMesh.m_positions unitMesh.m_indices
      (List.replicate unitMesh.m_positions.length QVector3D.zero)
      = addAt (addAt (addAt [QVector3D.zero, QVector3D.zero, QVector3D.zero] 0
          (normalizeIfNonNull sampleLib (QVector3D.crossProduct
            ((⟨1, 0, 0⟩ : QVector3D ℚ).sub ⟨0, 0, 0⟩)
            ((⟨0, 1, 0⟩ : QVector3D ℚ).sub ⟨0, 0, 0⟩)))) 1
          (normalizeIfNonNull sampleLib (QVector3D.crossProduct
            ((⟨1, 0, 0⟩ : QVector3D ℚ).sub ⟨0, 0, 0⟩)
            ((⟨0, 1, 0⟩ : QVector3D ℚ).sub ⟨0, 0, 0⟩)))) 2
          (normalizeIfNonNull sampleLib (QVector3D.crossProduct
            ((⟨1, 0, 0⟩ : QVector3D ℚ).sub ⟨0, 0, 0⟩)
            ((⟨0, 1, 0⟩ : QVector3D ℚ).sub ⟨0, 0, 0⟩))) := by
    rfl
  unfold smoothNormals
  rw [h1, hcross, hface]
  simp only [addAt, QVector3D.add, QVector3D.zero, zero_add, List.map_cons, List.map_nil,
    hfin]

/-- C25 (as stated, refuted): the triangle `tinyPositions` is the triangle
`unitPositions` scaled by `1 / 10000`, same plane and same orientation, only
the area differs; yet its smooth normals are `(0, 0, 10⁻⁸)` where those of
`unitPositions` are `(0, 0, 1)`: the result depends on the triangle's area. -/
theorem smoothNormals_depend_on_area :
    tinyPositions = unitPositions.map (fun p => p.scale (1 / 10000)) ∧
      tinyMesh.m_indices = unitMesh.m_indices ∧
      (unitMesh.computeSmoothNormals sampleLib).m_normals
        = [⟨0, 0, 1⟩, ⟨0, 0, 1⟩, ⟨0, 0, 1⟩] ∧
      (tinyMesh.computeSmoothNormals sampleLib).m_normals
        = [⟨0, 0, 1 / 100000000⟩, ⟨0, 0, 1 / 100000000⟩, ⟨0, 0, 1 / 100000000⟩] ∧
      (tinyMesh.computeSmoothNormals sampleLib).m_normals
        ≠ (unitMesh.computeSmoothNormals sampleLib).m_normals := by
  refine ⟨?_, rfl, unitMesh_normals, tinyMesh_normals, ?_⟩
  · simp [tinyPositions, unitPositions, QVector3D.scale]
  · rw [unitMesh_normals, tinyMesh_normals]
    intro h
    simp only [List.cons.injEq, QVector3D.mk.injEq] at h
    norm_num at h

/-- The witness of `computeSmoothNormals_vertex`: the first vertex of
`quadMesh`, and `quadMesh` with its two triangles in the other order. -/
theorem computeSmoothNormals_vertex_witness :
    (quadMesh.computeSmoothNormals sampleLib).m_normals[0]?
        = some (if (vertexSum sampleLib quadMesh.m_positions quadMesh.m_indices 0).isNull = true
            then ⟨0, 1, 0⟩
            else (vertexSum sampleLib quadMesh.m_positions quadMesh.m_indices 0).normalize
              sampleLib) ∧
      (quadMeshSwapped.computeSmoothNormals sampleLib).m_normals
        = (quadMesh.computeSmoothNormals sampleLib).m_normals :=
  ⟨(computeSmoothNormals_vertex sampleLib quadMesh (by decide)).1 0 (by decide),
    (computeSmoothNormals_vertex sampleLib quadMesh (by decide)).2.2 quadMeshSwapped rfl
      (List.Perm.swap (0, 1, 2) (0, 2, 3) [])⟩

/-! ### The basis of the pan -/

section PanThms

variable {F : Type} [LinearOrderedField F]

/-- The idiom gives a squared length within `10⁻¹²` of `1`, on a vector whose
squared length is above `10⁻¹²` and has an exact square root. -/
theorem normalizeIfNonNull_near_unit (Q : QtLib F) (v : QVector3D F)
    (hbig : 1 / 1000000000000 < v.lengthSquared)
    (hsqrt : Q.sqrt v.lengthSquared * Q.sqrt v.lengthSquared = v.lengthSquared) :
    |(normalizeIfNonNull Q v).lengthSquared - 1| ≤ 1 / 1000000000000 := by
  have hnn : v.isNull = false := by
    by_contra h
    have h1 : v.isNull = true := by simpa using h
    rw [eq_zero_of_isNull v h1] at hbig
    simp only [QVector3D.lengthSquared, mul_zero, add_zero] at hbig
    have hpos : (0 : F) < 1 / 1000000000000 := by positivity
    exact lt_asymm hbig hpos
  have e : normalizeIfNonNull Q v = finishNormal Q v := by
    simp [normalizeIfNonNull, finishNormal, hnn]
  rw [e]
  exact finishNormal_lengthSquared Q v (Or.inr hbig) hsqrt

end PanThms

theorem sampleLib_sqrt_one : sampleLib.sqrt (1 : ℚ) = 1 := by
  have hn : (1 : ℚ).num.toNat = 1 * 1 := by decide
  have hden : (1 : ℚ).den = 1 * 1 := by decide
  simp only [sampleLib]
  rw [hn, hden, Nat.sqrt_eq]
  norm_num

/-- A line that is neither an `endfacet` line nor a vertex line changes
nothing in the blocks of an input. -/
theorem closedBlocks_skip {F : Type} [LinearOrderedField F] (Q : QtLib F) (l : List Char)
    (ls : List (List Char)) (cur : List (QVector3D F)) (he : isEndFacetLine l = false)
    (hv : isVertexLine l = false) :
    closedBlocks Q (l :: ls) cur = closedBlocks Q ls cur := by
  simp [closedBlocks, he, hv]

section ValidInput

variable {F : Type} [LinearOrderedField F]

theorem not_endFacet_of_vertex (l : List Char) (h : isVertexLine l = true) :
    isEndFacetLine l = false := by
  simp only [isVertexLine, Bool.and_eq_true] at h
  simp [isEndFacetLine, h.1.2]

theorem not_endFacet_of_facet (l : List Char) (h : isFacetLine l = true) :
    isEndFacetLine l = false ∧ isVertexLine l = false := by
  simp only [isFacetLine, Bool.and_eq_true] at h
  simp [isEndFacetLine, isVertexLine, h.1]

theorem not_endFacet_of_inert (l : List Char) (h : isInertLine l = true) :
    isEndFacetLine l = false ∧ isVertexLine l = false := by
  simp only [isInertLine, Bool.and_eq_true, Bool.not_eq_true'] at h
  exact ⟨h.2, h.1.2⟩

/-- Ignored lines change nothing in the blocks of an input. -/
theorem closedBlocks_inert (Q : QtLib F) (pre ls : List (List Char))
    (cur : List (QVector3D F)) (h : ∀ l ∈ pre, isInertLine l = true) :
    closedBlocks Q (pre ++ ls) cur = closedBlocks Q ls cur := by
  induction pre with
  | nil => rfl
  | cons l pre ih =>
    obtain ⟨he, hv⟩ := not_endFacet_of_inert l (h l (List.mem_cons_self _ _))
    rw [List.cons_append, closedBlocks_skip Q l _ cur he hv]
    exact ih (fun x hx => h x (List.mem_cons_of_mem _ hx))

/-- The vertex lines of a body add their vertices to the block being read. -/
theorem closedBlocks_body (Q : QtLib F) (body ls : List (List Char)) :
    ∀ cur : List (QVector3D F),
      (∀ l ∈ body, (isVertexLine l || isInertLine l) = true) →
      closedBlocks Q (body ++ ls) cur
        = closedBlocks Q ls (cur ++ (body.filter isVertexLine).map (lineVertex Q)) := by
  induction body with
  | nil => intro cur _; simp
  | cons l body ih =>
    intro cur h
    have hl := h l (List.mem_cons_self _ _)
    have hrest : ∀ x ∈ body, (isVertexLine x || isInertLine x) = true :=
      fun x hx => h x (List.mem_cons_of_mem _ hx)
    by_cases hv : isVertexLine l = true
    · have he := not_endFacet_of_vertex l hv
      rw [List.cons_append]
      simp only [closedBlocks, he, hv, Bool.false_eq_true, if_false, if_true]
      rw [ih _ hrest]
      simp [List.filter_cons, hv]
    · have hv2 : isVertexLine l = false := by simpa using hv
      have hi : isInertLine l = true := by simpa [hv2] using hl
      obtain ⟨he, _⟩ := not_endFacet_of_inert l hi
      rw [List.cons_append, closedBlocks_skip Q l _ cur he hv2, ih _ hrest]
      simp [List.filter_cons, hv2]

/-- A valid block is one block of the input, with the vertices of its vertex lines. -/
theorem closedBlocks_block (Q : QtLib F) (b : FacetBlock) (ls : List (List Char))
    (h : b.valid = true) :
    closedBlocks Q (b.lines ++ ls) []
      = (b.vertexLines.map (lineVertex Q)) :: closedBlocks Q ls [] := by
  simp only [FacetBlock.valid, Bool.and_eq_true, List.all_eq_true] at h
  obtain ⟨⟨⟨hf, hb⟩, he⟩, ht⟩ := h
  obtain ⟨hfe, hfv⟩ := not_endFacet_of_facet b.facetLine hf
  unfold FacetBlock.lines
  rw [List.cons_append, closedBlocks_skip Q _ _ _ hfe hfv, List.append_assoc,
    closedBlocks_body Q b.body _ [] hb, List.cons_append]
  simp only [closedBlocks, he, if_true, List.nil_append]
  rw [closedBlocks_inert Q b.trailing ls [] ht]
  rfl

/-- The blocks of a valid input are its `facet ... endfacet` blocks. -/
theorem closedBlocks_blocks (Q : QtLib F) (blocks : List FacetBlock)
    (h : ∀ b ∈ blocks, b.valid = true) :
    closedBlocks Q (blocks.flatMap FacetBlock.lines) []
      = blocks.map (fun b => b.vertexLines.map (lineVertex Q)) := by
  induction blocks with
  | nil => rfl
  | cons b bs ih =>
    rw [List.flatMap_cons, closedBlocks_block Q b _ (h b (List.mem_cons_self _ _)),
      ih (fun x hx => h x (List.mem_cons_of_mem _ hx)), List.map_cons]

/-- The well-formed blocks of a valid input. -/
theorem wellFormedBlocks_inputLines (Q : QtLib F) (header : List (List Char))
    (blocks : List FacetBlock) (hheader : ∀ l ∈ header, isInertLine l = true)
    (hvalid : ∀ b ∈ blocks, b.valid = true) :
    wellFormedBlocks Q (inputLines header blocks)
      = (blocks.filter FacetBlock.wellFormed).map (fun b => b.vertexLines.map (lineVertex Q)) := by
  unfold wellFormedBlocks inputLines
  rw [closedBlocks_inert Q header _ [] hheader, closedBlocks_blocks Q blocks hvalid,
    List.filter_map]
  congr 1
  apply List.filter_congr
  intro b _
  simp [FacetBlock.wellFormed]

/-- C4 (amended): for every valid ASCII STL input (ignored lines, then
`facet ... endfacet` blocks of vertex lines and ignored lines) with `K`
well-formed blocks (each containing exactly 3 vertex lines), the buffer
decoded by `STLParser::parseAscii` has exactly `K` triangles, where the
triangle count of a buffer is `indices.length / 3`: it holds `3K` positions
(the vertices of the well-formed blocks, in file order), `3K` normals and
`3K` indices. -/
theorem parseAscii_valid_input (Q : QtLib F) (device : QIODevice)
    (header : List (List Char)) (blocks : List FacetBlock)
    (hlines : readLines (Q.fromUtf8 device.content) = inputLines header blocks)
    (hheader : ∀ l ∈ header, isInertLine l = true)
    (hvalid : ∀ b ∈ blocks, b.valid = true) :
    (parseAscii Q device).1.indices.length / 3
        = (blocks.filter FacetBlock.wellFormed).length ∧
      (parseAscii Q device).1.positions.length
        = 3 * (blocks.filter FacetBlock.wellFormed).length ∧
      (parseAscii Q device).1.normals.length
        = 3 * (blocks.filter FacetBlock.wellFormed).length ∧
      (parseAscii Q device).1.indices.length
        = 3 * (blocks.filter FacetBlock.wellFormed).length ∧
      (parseAscii Q device).1.positions
        = ((blocks.filter FacetBlock.wellFormed).map
            (fun b => b.vertexLines.map (lineVertex Q))).flatten := by
  have hc : Consistent (parseAscii Q device).1 := consistent_parseAscii Q device
  have hw := wellFormedBlocks_inputLines Q header blocks hheader hvalid
  have hp : (parseAscii Q device).1.positions
      = (wellFormedBlocks Q (readLines (Q.fromUtf8 device.content))).flatten := by
    unfold parseAscii wellFormedBlocks
    simp only [setHasNormals]
    rw [foldl_parseAsciiLine_positions]
    simp [AsciiState.init, MeshBuffer.empty]
  have hl : (parseAscii Q device).1.positions.length
      = 3 * (wellFormedBlocks Q (readLines (Q.fromUtf8 device.content))).length := by
    rw [hp]
    exact length_flatten_filter_three _
  rw [hlines, hw] at hp
  rw [hlines, hw, List.length_map] at hl
  refine ⟨?_, hl, by rw [hc.1, hl], by rw [hc.2.1, hl], hp⟩
  rw [hc.2.1, hl]
  omega

end ValidInput

/-- The witness of `parseAscii_valid_input`: the input `mixedText`, whose first
block has two vertex lines and whose second block has three. -/
theorem parseAscii_valid_input_witness :
    (mixedBlocks.filter FacetBlock.wellFormed).length = 1 ∧
      (parseAscii sampleLib mixedDevice).1.indices.length / 3
        = (mixedBlocks.filter FacetBlock.wellFormed).length ∧
      (parseAscii sampleLib mixedDevice).1.positions.length
        = 3 * (mixedBlocks.filter FacetBlock.wellFormed).length ∧
      (parseAscii sampleLib mixedDevice).1.normals.length
        = 3 * (mixedBlocks.filter FacetBlock.wellFormed).length ∧
      (parseAscii sampleLib mixedDevice).1.indices.length
        = 3 * (mixedBlocks.filter FacetBlock.wellFormed).length := by
  have h := parseAscii_valid_input sampleLib mixedDevice ["solid m".toList] mixedBlocks
    (by decide) (by decide) (by decide)
  exact ⟨by decide, h.1, h.2.1, h.2.2.1, h.2.2.2.1⟩

/-- C4 (as stated, refuted): the scenario is a valid input with `K = 1`
well-formed block, and the triangle count `indices.length / 3` of the decoded
buffer is `1`, not `3 * 1`. -/
theorem parseAscii_triangle_count_not_3K :
    readLines (sampleLib.fromUtf8 scenarioDevice.content)
        = inputLines ["solid s".toList] [scenarioBlock] ∧
      scenarioBlock.valid = true ∧
      ([scenarioBlock].filter FacetBlock.wellFormed).length = 1 ∧
      (parseAscii sampleLib scenarioDevice).1.indices.length / 3 = 1 ∧
      (parseAscii sampleLib scenarioDevice).1.indices.length / 3 ≠ 3 * 1 := by
  decide

/-- C6 (as stated, refuted): the input `tinyNormalText` holds one well-formed
block `facet normal 0.0000001 0 0`, a non-zero normal, and the three emitted
normals are `(10⁻⁷, 0, 0)` itself, whose squared length is not `1`, not the
normalized normal `(1, 0, 0)`. -/
theorem parseAscii_tiny_normal_kept :
    lineNormal decimalLib "facet normal 0.0000001 0 0".toList = ⟨1 / 10000000, 0, 0⟩ ∧
      (lineNormal decimalLib "facet normal 0.0000001 0 0".toList).isNull = false ∧
      (parseAscii decimalLib tinyNormalDevice).1.normals
        = [⟨1 / 10000000, 0, 0⟩, ⟨1 / 10000000, 0, 0⟩, ⟨1 / 10000000, 0, 0⟩] ∧
      (⟨1 / 10000000, 0, 0⟩ : QVector3D ℚ).lengthSquared ≠ 1 ∧
      (parseAscii decimalLib tinyNormalDevice).1.normals
        ≠ [⟨1, 0, 0⟩, ⟨1, 0, 0⟩, ⟨1, 0, 0⟩] := by
  have hval : decimalValue "0.0000001".toList = 1 / 10000000 := by
    have e : decimalValue "0.0000001".toList
        = ((0 : Nat) : ℚ) + ((1 : Nat) : ℚ) / ((10000000 : Nat) : ℚ) := by rfl
    rw [e]
    norm_num
  have hzero : decimalValue ['0'] = 0 := by
    have e : decimalValue ['0'] = ((0 : Nat) : ℚ) := by rfl
    rw [e]
    norm_num
  have hn : lineNormal decimalLib "facet normal 0.0000001 0 0".toList
      = ⟨1 / 10000000, 0, 0⟩ := by
    show (⟨decimalValue "0.0000001".toList, decimalValue ['0'], decimalValue ['0']⟩
      : QVector3D ℚ) = _
    rw [hval, hzero]
  have hkeep : normalizeIfNonNull decimalLib (⟨1 / 10000000, 0, 0⟩ : QVector3D ℚ)
      = ⟨1 / 10000000, 0, 0⟩ := by
    have hz : qFuzzyIsNull (⟨1 / 10000000, 0, 0⟩ : QVector3D ℚ).lengthSquared = true := by
      simp only [qFuzzyIsNull, QVector3D.lengthSquared, decide_eq_true_eq]
      rw [abs_of_nonneg (by norm_num)]
      norm_num
    simp only [normalizeIfNonNull, normalize_of_fuzzy_zero decimalLib _ hz]
    simp
  have h := parseAscii_single_block_any decimalLib tinyNormalDevice ["solid t".toList]
    ["outer loop".toList] [] [] ["endloop".toList] ["endsolid t".toList]
    "facet normal 0.0000001 0 0".toList "vertex 0 0 0".toList "vertex 1 0 0".toList
    "vertex 0 1 0".toList "endfacet".toList
    (by decide) (by decide) (by decide) (by decide) (by decide) (by decide) (by decide)
  have hnormals : (parseAscii decimalLib tinyNormalDevice).1.normals
      = [⟨1 / 10000000, 0, 0⟩, ⟨1 / 10000000, 0, 0⟩, ⟨1 / 10000000, 0, 0⟩] := by
    rw [h, hn, hkeep]
  refine ⟨hn, ?_, hnormals, ?_, ?_⟩
  · rw [hn]
    simp [QVector3D.isNull, qIsNull]
  · norm_num [QVector3D.lengthSquared]
  · rw [hnormals]
    intro hc
    simp only [List.cons.injEq, QVector3D.mk.injEq] at hc
    norm_num at hc

end STL
